import Mathlib

/-!
# ForwardTracking: the angle criterion, the tracking processor, the analyser

Shallow embeddings of `src/src/Criteria/Crit3_2DAngle.cc`,
`src/src/FTrack/ForwardTracking.cc` and
`src/src/Analysis/TrueTrackCritAnalyser.cc`.

Numbers: the C++ code computes in `float` and `double`.  The first embedding
is generic in an ordered field `F`; its arithmetic is exact (no rounding, no
overflow, no NaN).  With `F = ℚ` every definition below evaluates; with
`F = ℝ` and the `<cmath>` functions interpreted by `Real.cos`,
`Real.arccos`, `Real.sqrt` and `Real.pi` it is used for the statements about
what the code computes.  A second embedding of the criterion,
`Crit3_2DAngle.areCompatibleRounded`, rounds every operation to its C++ type
(IEEE 754 round to nearest, ties to even; exponent range unbounded) and is
used for the statements that compare the verdict with a geometric angle.

State: `areCompatible` receives the criterion object and the two segments it
is handed by pointer and returns, next to the verdict (or the exception), the
state of all three after the call.  The two `processEvent` methods return the
processor and the event data after the call.

Classes declared in headers that are not among the sources (hits, segments,
segment builder, automaton, criteria of the analyser, fitter) are parameters
of the embedding.
-/

namespace FTrack

/-! ## Data model -/

/-- Modelled from the spec: the hit class `AutHit` is declared in a header
that is not among the sources.  A hit is an immutable 3-D position read through
`getX`, `getY`, `getZ`. -/
structure AutHit (F : Type) where
  x : F
  y : F
  z : F
deriving DecidableEq, Repr

/-- Modelled from the spec: the class `Segment` is declared in a header that
is not among the sources.  A segment is an ordered sequence of hits
(`getAutHits`), an automaton state, and parent and child links (handles of
other segments). -/
structure Segment (F : Type) where
  autHits : List (AutHit F)
  state : Nat
  parents : List Nat
  children : List Nat
deriving DecidableEq, Repr

/-- The functions and the constant of `<cmath>` used by the criterion:
`cos`, `acos`, `sqrt` and `M_PI`. -/
structure MathOps (F : Type) where
  cos : F → F
  acos : F → F
  sqrt : F → F
  pi : F

/-- The `std::map < std::string , float >` of named values: an association
list with strictly increasing keys. -/
abbrev ValueMap (F : Type) := List (String × F)

/-- The assignment `map[key] = value`: overwrites the entry of `key` or inserts
a new one at its place in key order. -/
def ValueMap.assign {F : Type} : ValueMap F → String → F → ValueMap F
  | [], k, v => [(k, v)]
  | (k', v') :: rest, k, v =>
    if k = k' then (k, v) :: rest
    else if k < k' then (k, v) :: (k', v') :: rest
    else (k', v') :: ValueMap.assign rest k v

/-- Lookup of a key in the value map. -/
def ValueMap.find {F : Type} : ValueMap F → String → Option F
  | [], _ => none
  | (k', v') :: rest, k => if k = k' then some v' else ValueMap.find rest k

/-- The data members of `Crit3_2DAngle` (the last two are inherited from the
criterion interface). -/
structure Crit3_2DAngle (F : Type) where
  _cosAngleMin : F
  _cosAngleMax : F
  _saveValues : Bool
  _map_name_value : ValueMap F
deriving Repr

/-- The constructor `Crit3_2DAngle::Crit3_2DAngle ( float angleMin, float angleMax )`. -/
def Crit3_2DAngle.new {F : Type} [LinearOrderedField F] (m : MathOps F)
    (angleMin angleMax : F) : Crit3_2DAngle F :=
  { _cosAngleMin := m.cos (angleMax * m.pi / 180)
    _cosAngleMax := m.cos (angleMin * m.pi / 180)
    _saveValues := false
    _map_name_value := [] }

/-- Modelled from the spec: `setSaveValues` of the criterion interface (its
header is not among the sources) switches the instrumentation flag. -/
def Crit3_2DAngle.setSaveValues {F : Type} (self : Crit3_2DAngle F) (flag : Bool) :
    Crit3_2DAngle F :=
  { self with _saveValues := flag }

/-- Modelled from the spec: `getMapOfValues` of the criterion interface (its
header is not among the sources) returns the map of named values. -/
def Crit3_2DAngle.getMapOfValues {F : Type} (self : Crit3_2DAngle F) : ValueMap F :=
  self._map_name_value

/-- Modelled from the spec: the helper `intToString` is not among the sources;
it writes an integer in decimal. -/
def intToString (n : Nat) : String := toString n

/-- The text carried by the `BadSegmentLength` exception of `areCompatible`. -/
def badSegmentLengthMessage (parentSize childSize : Nat) : String :=
  "Crit3_2DAngle::This criterion needs 2 segments with 2 hits each, passed was a "
    ++ intToString parentSize ++ " hit segment (parent) and a "
    ++ intToString childSize ++ " hit segment (child)."

/-- What one call of `areCompatible` leaves behind: the returned verdict or the
message of the raised `BadSegmentLength`, the criterion object and the two
segments after the call, and the divisions that were evaluated, oldest first,
each as (dividend, divisor). -/
structure Run (F : Type) where
  result : Except String Bool
  self : Crit3_2DAngle F
  parent : Segment F
  child : Segment F
  divisions : List (F × F)

/-- The value map after the unconditional instrumentation block (lines 68-73). -/
def saveNeutral {F : Type} [LinearOrderedField F] (self : Crit3_2DAngle F) : ValueMap F :=
  if self._saveValues then
    ((self._map_name_value.assign "2DAngle_cos2DAngleSquared" 1).assign "2DAngle_2DAngle" 0)
  else self._map_name_value

/-- The method `Crit3_2DAngle::areCompatible( Segment* parent , Segment* child )`. -/
def Crit3_2DAngle.areCompatible {F : Type} [LinearOrderedField F] (m : MathOps F)
    (self : Crit3_2DAngle F) (parent child : Segment F) : Run F :=
  match parent.autHits, child.autHits with
  -- line 31: both hit vectors have size 2; a, b are parent[0], parent[1], c is child[1]
  | [a, b], [_, c] =>
    let ax := a.x
    let ay := a.y
    let bx := b.x
    let by_ := b.y
    let cx := c.x
    let cy := c.y
    let ux := bx - ax
    let uy := by_ - ay
    let vx := cx - bx
    let vy := cy - by_
    let numerator := ux * vx + uy * vy
    let uSquared := ux * ux + uy * uy
    let vSquared := vx * vx + vy * vy
    let denomSquared := uSquared * vSquared
    -- lines 68-73
    let map1 := saveNeutral self
    -- line 75
    if denomSquared > 0 then
      let cosThetaSquared := numerator * numerator / (uSquared * vSquared)
      let divs1 := [(numerator * numerator, uSquared * vSquared)]
      -- lines 79-84
      let map2 :=
        if self._saveValues then
          ((map1.assign "2DAngle_cos2DAngleSquared" cosThetaSquared).assign
            "2DAngle_2DAngle" (m.acos (m.sqrt cosThetaSquared) * 180 / m.pi))
        else map1
      let divs2 :=
        if self._saveValues then divs1 ++ [(m.acos (m.sqrt cosThetaSquared) * 180, m.pi)]
        else divs1
      let self2 := { self with _map_name_value := map2 }
      -- lines 86-87, then line 110
      if cosThetaSquared < self._cosAngleMin * self._cosAngleMin then
        ⟨.ok false, self2, parent, child, divs2⟩
      else if cosThetaSquared > self._cosAngleMax * self._cosAngleMax then
        ⟨.ok false, self2, parent, child, divs2⟩
      else
        ⟨.ok true, self2, parent, child, divs2⟩
    else
      ⟨.ok true, { self with _map_name_value := map1 }, parent, child, []⟩
  -- lines 97-107: any other pair of sizes
  | _, _ =>
    ⟨.error (badSegmentLengthMessage parent.autHits.length child.autHits.length),
      self, parent, child, []⟩

/-- The criterion object in a later state of its life: the instrumentation
flag as last set and the value map as earlier calls left it.  The cosine
bounds are written by the constructor only. -/
def Crit3_2DAngle.inState {F : Type} (self : Crit3_2DAngle F) (flag : Bool)
    (values : ValueMap F) : Crit3_2DAngle F :=
  { self with _saveValues := flag, _map_name_value := values }

/-! ## The quantities the specification speaks of -/

/-- The x-y difference `q - p` of two hits. -/
def diffXY {F : Type} [LinearOrderedField F] (p q : AutHit F) : F × F :=
  (q.x - p.x, q.y - p.y)

/-- The dot product of two plane vectors. -/
def dotXY {F : Type} [LinearOrderedField F] (u v : F × F) : F :=
  u.1 * v.1 + u.2 * v.2

/-- The squared length of a plane vector. -/
def normSqXY {F : Type} [LinearOrderedField F] (u : F × F) : F :=
  u.1 * u.1 + u.2 * u.2

/-- The squared cosine `(u.v)^2 / (|u|^2 |v|^2)` of the angle at `b` between
`u = b - a` and `v = c - b`. -/
def cosSqXY {F : Type} [LinearOrderedField F] (a b c : AutHit F) : F :=
  dotXY (diffXY a b) (diffXY b c) * dotXY (diffXY a b) (diffXY b c)
    / (normSqXY (diffXY a b) * normSqXY (diffXY b c))

/-- The denominator `|u|^2 |v|^2` of the squared cosine. -/
def denomXY {F : Type} [LinearOrderedField F] (a b c : AutHit F) : F :=
  normSqXY (diffXY a b) * normSqXY (diffXY b c)

/-- The 2-D bend angle in degrees, in [0, 180], between the consecutive
hit-to-hit vectors `u = b - a` and `v = c - b`: the arc cosine of
`u.v / (|u| |v|)`. -/
def bendAngle2D {F : Type} [LinearOrderedField F] (m : MathOps F) (a b c : AutHit F) : F :=
  m.acos (dotXY (diffXY a b) (diffXY b c)
      / (m.sqrt (normSqXY (diffXY a b)) * m.sqrt (normSqXY (diffXY b c)))) * 180 / m.pi

/-- An angle of [0, 180] degrees folded onto [0, 90]: `theta` and
`180 - theta` have the same folded angle. -/
def foldAngle {F : Type} [LinearOrderedField F] (theta : F) : F :=
  min theta (180 - theta)

/-- A hit at `(x, y)` in the plane `z = 0`. -/
def hitXY {F : Type} [LinearOrderedField F] (x y : F) : AutHit F :=
  ⟨x, y, 0⟩

/-- Modelled from the spec: the constructor `Segment( hitVec )`, declared in a
header that is not among the sources, makes a fresh segment of the given hits,
in state 0 and without links. -/
def Segment.ofHits {F : Type} (hits : List (AutHit F)) : Segment F :=
  ⟨hits, 0, [], []⟩

/-! ## ForwardTracking::processEvent

`src/src/FTrack/ForwardTracking.cc`.  The drawing calls (`MarlinCED`), the
magnetic field lookup and the log output do not touch the hits, the automaton
or the event and are left out.  The `int` counters are integers; signed
overflow, undefined in C++, is not modelled. -/

/-- The calls `ForwardTracking::processEvent` makes on the segment builder and
on the automaton. -/
inductive AutomatonCall where
  | builderAddCriterion
  | builderAddHitConnector
  | get1SegAutomaton
  | lengthenSegments
  | addCriterion
  | doAutomaton
  | cleanBadStates
  | cleanBadConnections
  | resetStates
  | getTracks
deriving DecidableEq, Repr

/-- Modelled from the spec: the classes `AutHit`, `FTDRepresentation`,
`SegmentBuilder` and `Automaton` are declared in headers that are not among
the sources.  Their operations are taken as given: `K` is a tracker hit of the
input collection, `H` a hit of the representation, `B` a segment builder, `A`
an automaton and `T` a track. -/
structure TrackingOps (K H B A T : Type) where
  autHit : K → H
  virtualIPHit : Int → H
  segmentBuilder : List H → B
  builderAddCriterion : B → B
  builderAddHitConnector : B → B
  get1SegAutomaton : B → A
  lengthenSegments : A → A
  addCriterion : A → A
  doAutomaton : A → A
  cleanBadStates : A → A
  cleanBadConnections : A → A
  resetStates : A → A
  getTracks : A → List T

/-- Modelled from the spec: an event (`LCEvent`, declared outside the sources)
answers `getCollection( name )` with a hit collection or with `NULL` (`none`)
and keeps the collections added to it by `addCollection`, oldest first. -/
structure LCEvent (K T : Type) where
  getCollection : String → Option (List K)
  added : List (String × List T)

/-- The data members of `ForwardTracking` that `processEvent` uses. -/
structure ForwardTracking where
  _FTDHitCollection : String
  _AutTrkCollection : String
  _nRun : Int
  _nEvt : Int
deriving DecidableEq, Repr

/-- What one call of `ForwardTracking::processEvent` leaves behind: the
processor, the event, and the calls made on the segment builder and on the
automaton, oldest first. -/
structure ProcessEventRun (K T : Type) where
  self : ForwardTracking
  evt : LCEvent K T
  calls : List AutomatonCall

/-- The method `ForwardTracking::processEvent( LCEvent * evt )`. -/
def ForwardTracking.processEvent {K H B A T : Type} (ops : TrackingOps K H B A T)
    (self : ForwardTracking) (evt : LCEvent K T) : ProcessEventRun K T :=
  -- line 165
  match evt.getCollection self._FTDHitCollection with
  -- line 179: col != NULL
  | some col =>
    -- lines 200-213: one AutHit for every element of the collection
    let hits := col.map ops.autHit
    -- lines 218-240: the virtual IP hit of side -1 and of side +1
    let ftdRep := hits ++ [ops.virtualIPHit (-1), ops.virtualIPHit 1]
    -- lines 251-261
    let segBuilder0 := ops.segmentBuilder ftdRep
    let segBuilder1 := ops.builderAddCriterion segBuilder0
    let segBuilder2 := ops.builderAddHitConnector segBuilder1
    let automaton0 := ops.get1SegAutomaton segBuilder2
    -- lines 274-292
    let automaton1 := ops.lengthenSegments automaton0
    let automaton2 := ops.addCriterion automaton1
    let automaton3 := ops.doAutomaton automaton2
    let automaton4 := ops.cleanBadStates automaton3
    let automaton5 := ops.cleanBadConnections automaton4
    let automaton6 := ops.resetStates automaton5
    -- lines 295-297
    let autTrackCandidates := ops.getTracks automaton6
    let trackCandidates := autTrackCandidates
    -- lines 382-384: every candidate is added to the output collection
    let trkCol := trackCandidates
    { self := { self with _nEvt := self._nEvt + 1 }
      evt := { evt with added := evt.added ++ [(self._AutTrkCollection, trkCol)] }
      calls := [.builderAddCriterion, .builderAddHitConnector, .get1SegAutomaton,
        .lengthenSegments, .addCriterion, .doAutomaton, .cleanBadStates,
        .cleanBadConnections, .resetStates, .getTracks] }
  -- line 397
  | none =>
    { self := { self with _nEvt := self._nEvt + 1 }
      evt := evt
      calls := [] }

/-- A set of tracks, each given by its hits, is pairwise hit-disjoint when no
two of them share a hit. -/
def hitDisjoint {H : Type} (tracks : List (List H)) : Prop :=
  tracks.Pairwise (fun t1 t2 => ∀ h ∈ t1, h ∉ t2)

/-- A stand-in for the automaton, for evaluating `processEvent`: hits and
tracks are numbered, the builder and the automaton carry the hits, and the
candidates are the chains from the first hit to each of the next two. -/
def forkingOps : TrackingOps Nat Nat (List Nat) (List Nat) (List Nat) where
  autHit := id
  virtualIPHit := fun _ => 0
  segmentBuilder := id
  builderAddCriterion := id
  builderAddHitConnector := id
  get1SegAutomaton := id
  lengthenSegments := id
  addCriterion := id
  doAutomaton := id
  cleanBadStates := id
  cleanBadConnections := id
  resetStates := id
  getTracks := fun hits =>
    match hits with
    | h1 :: h2 :: h3 :: _ => [[h1, h2], [h1, h3]]
    | _ => []

/-! ## TrueTrackCritAnalyser::processEvent

`src/src/Analysis/TrueTrackCritAnalyser.cc`.  Vectors are lists.  An element
access outside the vector, undefined in C++, ends the run with a fault.  An
`unsigned` index is a natural number: `j - 1` and `j--` wrap at zero and
`size() - k` wraps as `size_t` does, while `j++` is taken not to overflow.
Every loop is given as much fuel as the vector it walks has elements, plus
one; it ends or faults before the fuel is used up. -/

/-- The ways a run can end without a result. -/
inductive Fault where
  | outOfRange
  | outOfFuel
deriving DecidableEq, Repr

/-- The value of `j - 1` for an `unsigned` index `j`. -/
def unsignedPred (j : Nat) : Nat :=
  if j = 0 then 2 ^ 32 - 1 else j - 1

/-- The value of `v.size() - k` in `size_t` arithmetic, for a size `n`. -/
def sizeSub (n k : Nat) : Nat :=
  if k ≤ n then n - k else n + 2 ^ 64 - k

/-- The element access `v[i]`. -/
def vecAt {α : Type} (v : List α) (i : Nat) : Except Fault α :=
  match v[i]? with
  | some x => .ok x
  | none => .error .outOfRange

/-- The loop `for ( unsigned j = start; j < bound; j++ ) body`, run with the
given fuel from index `j` in state `s`. -/
def forLoop {σ : Type} (bound : Nat) (body : Nat → σ → Except Fault σ) :
    Nat → Nat → σ → Except Fault σ
  | 0, j, s => if j < bound then .error .outOfFuel else .ok s
  | fuel + 1, j, s =>
    if j < bound then
      match body j s with
      | .ok s' => forLoop bound body fuel (j + 1) s'
      | .error e => .error e
    else .ok s

/-- Modelled from the spec: the hit interface `IHit` is declared in a header
that is not among the sources; its accessors and `distTo` are taken as given. -/
structure HitOps (H F : Type) where
  getX : H → F
  getY : H → F
  getZ : H → F
  getLayer : H → Nat
  distTo : H → H → F

/-- Modelled from the spec: what the analyser takes from outside the sources:
the hit interface, `sqrt`, the sort of the hits of a track by `|z|`
(`compare_TrackerHit_z`) and the virtual hit at the interaction point
(`createVirtualIPHit`). -/
structure AnalyserEnv (H F : Type) where
  hit : HitOps H F
  sqrt : F → F
  sortHits : List H → List H
  virtualIPHit : H

/-- Modelled from the spec: a Monte Carlo particle (`MCParticle`, declared
outside the sources) with its vertex and its momentum. -/
structure MCParticle (F : Type) where
  vertex : F × F × F
  momentum : F × F × F

/-- Modelled from the spec: one relation of the true-track collection: the
Monte Carlo particle, the hits of the track, and what the fit of these hits
(an external service) returns. -/
structure TrueTrack (H F : Type) where
  mcp : MCParticle F
  trackerHits : List H
  chi2 : F
  ndf : F
  chi2Prob : F

/-- Modelled from the spec: a criterion of the analyser, declared outside the
sources, taken as the map of values it holds after
`areCompatible( parent , child )`. -/
abbrev CritValues (H F : Type) := List H → List H → ValueMap F

/-- The data members of `TrueTrackCritAnalyser` that `processEvent` uses. -/
structure TrueTrackCritAnalyser (H F : Type) where
  _chi2ProbCut : F
  _ptMin : F
  _distToIPMax : F
  _nHitsMin : Int
  _crits2 : List (CritValues H F)
  _crits3 : List (CritValues H F)
  _crits4 : List (CritValues H F)
  _nEvt : Int

/-- The flag `isOfInterest` of `processEvent` after its four tests
(lines 347-414). -/
def TrueTrackCritAnalyser.isOfInterest {H F : Type} [LinearOrderedField F]
    (env : AnalyserEnv H F) (self : TrueTrackCritAnalyser H F) (rel : TrueTrack H F) : Bool :=
  let isOfInterest0 := true
  let vertex := rel.mcp.vertex
  let dist := env.sqrt (vertex.1 * vertex.1 + vertex.2.1 * vertex.2.1 + vertex.2.2 * vertex.2.2)
  let isOfInterest1 := if dist > self._distToIPMax then false else isOfInterest0
  let momentum := rel.mcp.momentum
  let pt := env.sqrt (momentum.1 * momentum.1 + momentum.2.1 * momentum.2.1)
  let isOfInterest2 := if pt < self._ptMin then false else isOfInterest1
  let isOfInterest3 :=
    if (rel.trackerHits.length : Int) < self._nHitsMin then false else isOfInterest2
  let isOfInterest4 := if rel.chi2Prob < self._chi2ProbCut then false else isOfInterest3
  isOfInterest4

/-- The loop that erases hits too close to their predecessor (lines 446-460),
run with the given fuel from index `j`. -/
def eraseLoop {H F : Type} [LinearOrderedField F] (distTo : H → H → F) (distMin : F) :
    Nat → List H → Nat → Except Fault (List H)
  | 0, hits, j => if j < hits.length then .error .outOfFuel else .ok hits
  | fuel + 1, hits, j =>
    if j < hits.length then
      match vecAt hits (unsignedPred j), vecAt hits j with
      | .ok hitA, .ok hitB =>
        let dist := distTo hitA hitB
        if dist < distMin then
          -- hits.erase( hits.begin() + j ); j--; and the j++ of the loop
          eraseLoop distTo distMin fuel (hits.eraseIdx j) (unsignedPred j + 1)
        else
          eraseLoop distTo distMin fuel hits (j + 1)
      | .error e, _ => .error e
      | _, .error e => .error e
    else .ok hits

/-- Lines 444-460: `distMin = 5` and the erase loop from index 1. -/
def eraseCloseHits {H F : Type} [LinearOrderedField F] (env : AnalyserEnv H F)
    (hits : List H) : Except Fault (List H) :=
  eraseLoop env.hit.distTo 5 (hits.length + 1) hits 1

/-- The hits kept by the erasure, written by recursion on the list: `last` is
the last hit kept so far. -/
def keepFar {H F : Type} [LinearOrderedField F] (distTo : H → H → F) (distMin : F) :
    H → List H → List H
  | _, [] => []
  | last, h :: rest =>
    if distTo last h < distMin then keepFar distTo distMin last rest
    else h :: keepFar distTo distMin h rest

/-- Lines 469-479: the 1-hit segments. -/
def buildSegments1 {H : Type} (hits : List H) : Except Fault (List (List H)) :=
  forLoop hits.length
    (fun j segments1 =>
      match vecAt hits j with
      | .ok h => .ok (segments1 ++ [[h]])
      | .error e => .error e)
    (hits.length + 1) 0 []

/-- Lines 481-493: the 2-hit segments, outer hit first. -/
def buildSegments2 {H : Type} (hits : List H) : Except Fault (List (List H)) :=
  forLoop (sizeSub hits.length 1)
    (fun j segments2 =>
      match vecAt hits (j + 1), vecAt hits j with
      | .ok h1, .ok h0 => .ok (segments2 ++ [[h1, h0]])
      | .error e, _ => .error e
      | _, .error e => .error e)
    (hits.length + 1) 0 []

/-- Lines 495-508: the 3-hit segments, outer hit first. -/
def buildSegments3 {H : Type} (hits : List H) : Except Fault (List (List H)) :=
  forLoop (sizeSub hits.length 2)
    (fun j segments3 =>
      match vecAt hits (j + 2), vecAt hits (j + 1), vecAt hits j with
      | .ok h2, .ok h1, .ok h0 => .ok (segments3 ++ [[h2, h1, h0]])
      | .error e, _, _ => .error e
      | _, .error e, _ => .error e
      | _, _, .error e => .error e)
    (hits.length + 1) 0 []

/-- The insertion `rootData.insert( newMap.begin() , newMap.end() )`: entries
of `newMap` whose key is not yet in `rootData` are added. -/
def ValueMap.insertNew {F : Type} (rootData newMap : ValueMap F) : ValueMap F :=
  newMap.foldl
    (fun acc entry =>
      match acc.find entry.1 with
      | some _ => acc
      | none => acc.assign entry.1 entry.2)
    rootData

/-- The inner loop over the criteria: the values of all criteria for one
`(parent, child)` pair, collected into a fresh `rootData`. -/
def critData {H F : Type} (crits : List (CritValues H F)) (parent child : List H) :
    ValueMap F :=
  crits.foldl (fun rootData crit => rootData.insertNew (crit parent child)) []

/-- The rows recorded by one of the three criterion loops and the
`(parent, child)` pairs handed to the criteria, one entry for every call. -/
structure CritLoopState (H F : Type) where
  rows : List (ValueMap F)
  calls : List (List H × List H)

/-- Lines 520-548: the row of one pass of the loop over the 1-hit segments,
with `childHit` and `parentHit` the first hits of the two segments. -/
def critRow2 {H F : Type} [LinearOrderedField F] (env : AnalyserEnv H F)
    (self : TrueTrackCritAnalyser H F) (pt distToIP : F) (parent child : List H)
    (childHit parentHit : H) : ValueMap F :=
  let rootData0 := critData self._crits2 parent child
  let rootData1 := rootData0.assign "MCP_pt" pt
  let rootData2 := rootData1.assign "MCP_distToIP" distToIP
  let rootData3 := rootData2.assign "layers"
    ((env.hit.getLayer childHit * 10 + env.hit.getLayer parentHit : Nat) : F)
  let dx := env.hit.getX childHit - env.hit.getX parentHit
  let dy := env.hit.getY childHit - env.hit.getY parentHit
  let dz := env.hit.getZ childHit - env.hit.getZ parentHit
  rootData3.assign "distance" (env.sqrt (dx * dx + dy * dy + dz * dz))

/-- Lines 558-581: the row of one pass of the loop over the 2-hit segments,
with `c1`, `c0` the hits 1 and 0 of the child and `p0` hit 0 of the parent. -/
def critRow3 {H F : Type} [LinearOrderedField F] (env : AnalyserEnv H F)
    (self : TrueTrackCritAnalyser H F) (pt distToIP : F) (parent child : List H)
    (c1 c0 p0 : H) : ValueMap F :=
  let rootData0 := critData self._crits3 parent child
  let rootData1 := rootData0.assign "MCP_pt" pt
  let rootData2 := rootData1.assign "MCP_distToIP" distToIP
  rootData2.assign "layers"
    ((env.hit.getLayer c1 * 100 + env.hit.getLayer c0 * 10 + env.hit.getLayer p0 : Nat) : F)

/-- Lines 591-615: the row of one pass of the loop over the 3-hit segments,
with `c2`, `c1`, `c0` the hits 2, 1 and 0 of the child and `p0` hit 0 of the
parent. -/
def critRow4 {H F : Type} [LinearOrderedField F] (env : AnalyserEnv H F)
    (self : TrueTrackCritAnalyser H F) (pt distToIP : F) (parent child : List H)
    (c2 c1 c0 p0 : H) : ValueMap F :=
  let rootData0 := critData self._crits4 parent child
  let rootData1 := rootData0.assign "MCP_pt" pt
  let rootData2 := rootData1.assign "MCP_distToIP" distToIP
  rootData2.assign "layers"
    ((env.hit.getLayer c2 * 1000 + env.hit.getLayer c1 * 100 + env.hit.getLayer c0 * 10
      + env.hit.getLayer p0 : Nat) : F)

/-- Lines 517-552: the loop over the 1-hit segments (2-hit criteria). -/
def critLoop2 {H F : Type} [LinearOrderedField F] (env : AnalyserEnv H F)
    (self : TrueTrackCritAnalyser H F) (pt distToIP : F) (segments1 : List (List H)) :
    Except Fault (CritLoopState H F) :=
  forLoop (sizeSub segments1.length 1)
    (fun j st =>
      match vecAt segments1 j, vecAt segments1 (j + 1) with
      | .ok child, .ok parent =>
        match vecAt child 0, vecAt parent 0 with
        | .ok childHit, .ok parentHit =>
          .ok { rows := st.rows ++ [critRow2 env self pt distToIP parent child childHit parentHit]
                calls := st.calls ++ self._crits2.map (fun _ => (parent, child)) }
        | .error e, _ => .error e
        | _, .error e => .error e
      | .error e, _ => .error e
      | _, .error e => .error e)
    (segments1.length + 1) 0 ⟨[], []⟩

/-- Lines 555-585: the loop over the 2-hit segments (3-hit criteria). -/
def critLoop3 {H F : Type} [LinearOrderedField F] (env : AnalyserEnv H F)
    (self : TrueTrackCritAnalyser H F) (pt distToIP : F) (segments2 : List (List H)) :
    Except Fault (CritLoopState H F) :=
  forLoop (sizeSub segments2.length 1)
    (fun j st =>
      match vecAt segments2 j, vecAt segments2 (j + 1) with
      | .ok child, .ok parent =>
        match vecAt child 1, vecAt child 0, vecAt parent 0 with
        | .ok c1, .ok c0, .ok p0 =>
          .ok { rows := st.rows ++ [critRow3 env self pt distToIP parent child c1 c0 p0]
                calls := st.calls ++ self._crits3.map (fun _ => (parent, child)) }
        | .error e, _, _ => .error e
        | _, .error e, _ => .error e
        | _, _, .error e => .error e
      | .error e, _ => .error e
      | _, .error e => .error e)
    (segments2.length + 1) 0 ⟨[], []⟩

/-- Lines 588-619: the loop over the 3-hit segments (4-hit criteria). -/
def critLoop4 {H F : Type} [LinearOrderedField F] (env : AnalyserEnv H F)
    (self : TrueTrackCritAnalyser H F) (pt distToIP : F) (segments3 : List (List H)) :
    Except Fault (CritLoopState H F) :=
  forLoop (sizeSub segments3.length 1)
    (fun j st =>
      match vecAt segments3 j, vecAt segments3 (j + 1) with
      | .ok child, .ok parent =>
        match vecAt child 2, vecAt child 1, vecAt child 0, vecAt parent 0 with
        | .ok c2, .ok c1, .ok c0, .ok p0 =>
          .ok { rows := st.rows ++ [critRow4 env self pt distToIP parent child c2 c1 c0 p0]
                calls := st.calls ++ self._crits4.map (fun _ => (parent, child)) }
        | .error e, _, _, _ => .error e
        | _, .error e, _, _ => .error e
        | _, _, .error e, _ => .error e
        | _, _, _, .error e => .error e
      | .error e, _ => .error e
      | _, .error e => .error e)
    (segments3.length + 1) 0 ⟨[], []⟩

/-- What the segment building and the three criterion loops record for one
track, given its hits after the erasure. -/
structure TrackRows (H F : Type) where
  rows2 : List (ValueMap F)
  rows3 : List (ValueMap F)
  rows4 : List (ValueMap F)
  calls2 : List (List H × List H)
  calls3 : List (List H × List H)
  calls4 : List (List H × List H)

/-- Lines 469-619: segments and criteria for the hits of one track. -/
def analyseHits {H F : Type} [LinearOrderedField F] (env : AnalyserEnv H F)
    (self : TrueTrackCritAnalyser H F) (pt distToIP : F) (hits : List H) :
    Except Fault (TrackRows H F) :=
  match buildSegments1 hits, buildSegments2 hits, buildSegments3 hits with
  | .ok segments1, .ok segments2, .ok segments3 =>
    match critLoop2 env self pt distToIP segments1,
      critLoop3 env self pt distToIP segments2,
      critLoop4 env self pt distToIP segments3 with
    | .ok st2, .ok st3, .ok st4 =>
      .ok ⟨st2.rows, st3.rows, st4.rows, st2.calls, st3.calls, st4.calls⟩
    | .error e, _, _ => .error e
    | _, .error e, _ => .error e
    | _, _, .error e => .error e
  | .error e, _, _ => .error e
  | _, .error e, _ => .error e
  | _, _, .error e => .error e

/-- What `processEvent` has collected so far. -/
structure AnalyserData (F : Type) where
  nUsedRelations : Nat
  rootDataVec2 : List (ValueMap F)
  rootDataVec3 : List (ValueMap F)
  rootDataVec4 : List (ValueMap F)
  rootDataVecKalman : List (ValueMap F)

/-- The body of the loop over the true tracks (lines 344-670) for one
relation. -/
def TrueTrackCritAnalyser.processRelation {H F : Type} [LinearOrderedField F]
    (env : AnalyserEnv H F) (self : TrueTrackCritAnalyser H F) (data : AnalyserData F)
    (rel : TrueTrack H F) : Except Fault (AnalyserData F) :=
  -- lines 396-410: the sorted hits of the track
  let hits0 := env.sortHits rel.trackerHits
  if self.isOfInterest env rel then
    -- lines 424-429
    let p := rel.mcp.momentum
    let pt := env.sqrt (p.1 * p.1 + p.2.1 * p.2.1)
    let vtx := rel.mcp.vertex
    let distToIP := env.sqrt (vtx.1 * vtx.1 + vtx.2.1 * vtx.2.1 + vtx.2.2 * vtx.2.2)
    -- lines 435-437
    let hits1 := env.virtualIPHit :: hits0
    match eraseCloseHits env hits1 with
    | .ok hits =>
      match analyseHits env self pt distToIP hits with
      | .ok rows =>
        -- lines 628-646
        let rootData0 : ValueMap F := []
        let rootData1 := rootData0.assign "chi2" rel.chi2
        let rootData2 := rootData1.assign "Ndf" rel.ndf
        let rootData3 := rootData2.assign "nHits" ((hits0.length : Nat) : F)
        let rootData4 := rootData3.assign "chi2prob" rel.chi2Prob
        let rootData5 := rootData4.assign "MCP_pt" pt
        let rootData6 := rootData5.assign "MCP_distToIP" distToIP
        .ok { nUsedRelations := data.nUsedRelations + 1
              rootDataVec2 := data.rootDataVec2 ++ rows.rows2
              rootDataVec3 := data.rootDataVec3 ++ rows.rows3
              rootDataVec4 := data.rootDataVec4 ++ rows.rows4
              rootDataVecKalman := data.rootDataVecKalman ++ [rootData6] }
      | .error e => .error e
    | .error e => .error e
  else .ok data

/-- The loop over all true tracks of the collection. -/
def TrueTrackCritAnalyser.processRelations {H F : Type} [LinearOrderedField F]
    (env : AnalyserEnv H F) (self : TrueTrackCritAnalyser H F) :
    AnalyserData F → List (TrueTrack H F) → Except Fault (AnalyserData F)
  | data, [] => .ok data
  | data, rel :: rest =>
    match self.processRelation env data rel with
    | .ok data' => TrueTrackCritAnalyser.processRelations env self data' rest
    | .error e => .error e

/-- What one call of `TrueTrackCritAnalyser::processEvent` leaves behind: the
processor and the data handed to `saveToRoot`. -/
structure AnalyserRun (H F : Type) where
  self : TrueTrackCritAnalyser H F
  data : AnalyserData F

/-- The method `TrueTrackCritAnalyser::processEvent( LCEvent * evt )`, given
what `getCollection` answers for the true-track collection (`none` is
`NULL`). -/
def TrueTrackCritAnalyser.processEvent {H F : Type} [LinearOrderedField F]
    (env : AnalyserEnv H F) (self : TrueTrackCritAnalyser H F)
    (col : Option (List (TrueTrack H F))) : Except Fault (AnalyserRun H F) :=
  match col with
  | some rels =>
    match self.processRelations env ⟨0, [], [], [], []⟩ rels with
    | .ok data => .ok ⟨{ self with _nEvt := self._nEvt + 1 }, data⟩
    | .error e => .error e
  | none => .ok ⟨{ self with _nEvt := self._nEvt + 1 }, ⟨0, [], [], [], []⟩⟩

/-- Segment `ext` reaches further outward than segment `base`: `ext` has a hit
that `base` has not and that lies later in the inside-out list `hits` than
every hit of `base`. -/
def extraHitFurtherOutward {H : Type} [DecidableEq H] (hits base ext : List H) : Prop :=
  ∃ extra ∈ ext, extra ∉ base ∧ ∀ h ∈ base, hits.indexOf h < hits.indexOf extra

/-- The decimal code of a sequence of layers, the first layer in the most
significant digit: the sum of `layer i * 10 ^ (k - 1 - i)` over the `k`
layers. -/
def layersCode : List Nat → Nat
  | [] => 0
  | l :: rest => l * 10 ^ rest.length + layersCode rest

/-- An environment for evaluating the analyser: hits are numbered, hit `h` lies
at `(h, h, 10 h)` on layer `h`, `distTo` is ten times the difference of the
numbers, the hits of a track come sorted, and the virtual hit is hit 0. -/
def numberedHits (F : Type) [LinearOrderedField F] (sqrt : F → F) : AnalyserEnv Nat F where
  hit :=
    { getX := fun h => (h : F)
      getY := fun h => (h : F)
      getZ := fun h => 10 * (h : F)
      getLayer := fun h => h
      distTo := fun a b => 10 * |(a : F) - (b : F)| }
  sqrt := sqrt
  sortHits := id
  virtualIPHit := 0

/-- The analyser with the default values of its parameters (lines 74-94) and
one criterion without values in each list. -/
def defaultAnalyser (F : Type) [LinearOrderedField F] : TrueTrackCritAnalyser Nat F where
  _chi2ProbCut := 5 / 1000
  _ptMin := 2 / 10
  _distToIPMax := 100
  _nHitsMin := 4
  _crits2 := [fun _ _ => []]
  _crits3 := [fun _ _ => []]
  _crits4 := [fun _ _ => []]
  _nEvt := 0

/-- One pass of the erase loop (lines 446-460) from the state `(hits, j)`:
`none` when the loop condition `j < hits.size()` fails, otherwise the state
after the body and the `j++` of the loop, or a fault. -/
def eraseStep {H F : Type} [LinearOrderedField F] (distTo : H → H → F) (distMin : F)
    (hits : List H) (j : Nat) : Option (Except Fault (List H × Nat)) :=
  if j < hits.length then
    match vecAt hits (unsignedPred j), vecAt hits j with
    | .ok hitA, .ok hitB =>
      let dist := distTo hitA hitB
      if dist < distMin then
        -- hits.erase( hits.begin() + j ); j--; and the j++ of the loop
        some (.ok (hits.eraseIdx j, unsignedPred j + 1))
      else
        some (.ok (hits, j + 1))
    | .error e, _ => some (.error e)
    | _, .error e => some (.error e)
  else none

/-- The states `(hits, j)` in which the erase loop tests its condition when it
is started on `hits0` at index 1. -/
inductive EraseReach {H F : Type} [LinearOrderedField F] (distTo : H → H → F) (distMin : F)
    (hits0 : List H) : List H → Nat → Prop where
  | start : EraseReach distTo distMin hits0 hits0 1
  | step {hits hits' : List H} {j j' : Nat} :
      EraseReach distTo distMin hits0 hits j →
      eraseStep distTo distMin hits j = some (.ok (hits', j')) →
      EraseReach distTo distMin hits0 hits' j'

/-- An environment for evaluating the analyser: hits are numbered by their
distance from the origin along the z axis, hit `h` lies at `(0, 0, h)` on
layer `h / 200`, `distTo` is the difference of the numbers, the hits of a track
come sorted, and the virtual hit is hit 0. -/
def lineHits (F : Type) [LinearOrderedField F] (sqrt : F → F) : AnalyserEnv Nat F where
  hit :=
    { getX := fun _ => 0
      getY := fun _ => 0
      getZ := fun h => (h : F)
      getLayer := fun h => h / 200
      distTo := fun a b => |(a : F) - (b : F)| }
  sqrt := sqrt
  sortHits := id
  virtualIPHit := 0

/-! ## The criterion in the arithmetic of `float` and `double`

A second embedding of `Crit3_2DAngle.cc` in which every operation is followed
by the rounding of the C++ type it is evaluated in: the hit coordinates, the
differences, the products and the sums of lines 39-62 are `float`; the
products and the quotient of lines 66 and 77, the argument of `cos` and the
recorded angle are `double`; the values of the map are `float`.  Each `float`
operation is rounded to `float` (no wider intermediate precision, no fused
multiply-add).  With the roundings taken as the identity this embedding is
`Crit3_2DAngle.areCompatible`. -/

/-- The roundings of the number types of `Crit3_2DAngle.cc`: `toFloat` is the
result of an operation or of a conversion in `float`, `toDouble` in `double`,
and `toMember` in the type of the data members `_cosAngleMin` and
`_cosAngleMax`, which are declared in a header that is not among the sources
(`float` or `double`).  A conversion from `float` to `double` is exact and is
not written. -/
structure Rounding (F : Type) where
  toFloat : F → F
  toDouble : F → F
  toMember : F → F

/-- The roundings of exact arithmetic. -/
def Rounding.exact (F : Type) : Rounding F :=
  { toFloat := id, toDouble := id, toMember := id }

/-- The integer nearest to `q`, a tie going to the even neighbour. -/
def roundHalfEven {F : Type} [LinearOrderedField F] [FloorRing F] (q : F) : Int :=
  let f := ⌊q⌋
  if q - f < 1 / 2 then f
  else if 1 / 2 < q - f then f + 1
  else if f % 2 = 0 then f
  else f + 1

/-- Rounding to the nearest binary floating-point number with `p` significant
bits, ties to even (the default rounding of IEEE 754 arithmetic): `p = 24` is
`float`, `p = 53` is `double`.  The exponent range is unbounded: overflow,
underflow and NaN are not modelled. -/
def roundToPrec {F : Type} [LinearOrderedField F] [FloorRing F] (p : Nat) (x : F) : F :=
  if x = 0 then 0
  else
    let e : Int := Int.log 2 |x| - ((p : Int) - 1)
    (roundHalfEven (x / 2 ^ e) : F) * 2 ^ e

/-- The roundings of IEEE 754 `float` and `double`, the data members having
`memberBits` significant bits (24 for `float`, 53 for `double`). -/
def ieee (F : Type) [LinearOrderedField F] [FloorRing F] (memberBits : Nat) : Rounding F :=
  { toFloat := roundToPrec 24
    toDouble := roundToPrec 53
    toMember := roundToPrec memberBits }

/-- The constant `M_PI` of `<cmath>`: the `double` nearest to pi. -/
def M_PI (F : Type) [LinearOrderedField F] : F :=
  884279719003555 / 2 ^ 48

/-- The functions of `<cmath>` in `double`: each returns the `double` nearest
to the exact value, and pi is `M_PI`. -/
def MathOps.inDouble {F : Type} [LinearOrderedField F] [FloorRing F] (m : MathOps F) :
    MathOps F :=
  { cos := fun x => roundToPrec 53 (m.cos x)
    acos := fun x => roundToPrec 53 (m.acos x)
    sqrt := fun x => roundToPrec 53 (m.sqrt x)
    pi := M_PI F }

/-- The constructor `Crit3_2DAngle::Crit3_2DAngle ( float angleMin, float angleMax )`
in rounded arithmetic: the arguments are converted to `float`, `angle * M_PI`
and the division by `180.` are evaluated in `double`, and the cosine is stored
in the data member. -/
def Crit3_2DAngle.newRounded {F : Type} [LinearOrderedField F] (r : Rounding F)
    (m : MathOps F) (angleMin angleMax : F) : Crit3_2DAngle F :=
  let angleMin := r.toFloat angleMin
  let angleMax := r.toFloat angleMax
  { _cosAngleMin := r.toMember (m.cos (r.toDouble (r.toDouble (angleMax * m.pi) / 180)))
    _cosAngleMax := r.toMember (m.cos (r.toDouble (r.toDouble (angleMin * m.pi) / 180)))
    _saveValues := false
    _map_name_value := [] }

/-- The method `Crit3_2DAngle::areCompatible( Segment* parent , Segment* child )`
in rounded arithmetic. -/
def Crit3_2DAngle.areCompatibleRounded {F : Type} [LinearOrderedField F] (r : Rounding F)
    (m : MathOps F) (self : Crit3_2DAngle F) (parent child : Segment F) : Run F :=
  match parent.autHits, child.autHits with
  -- line 31: both hit vectors have size 2; a, b are parent[0], parent[1], c is child[1]
  | [a, b], [_, c] =>
    -- lines 39-46: the coordinates are read into float variables
    let ax := r.toFloat a.x
    let ay := r.toFloat a.y
    let bx := r.toFloat b.x
    let by_ := r.toFloat b.y
    let cx := r.toFloat c.x
    let cy := r.toFloat c.y
    -- lines 49-54: float differences
    let ux := r.toFloat (bx - ax)
    let uy := r.toFloat (by_ - ay)
    let vx := r.toFloat (cx - bx)
    let vy := r.toFloat (cy - by_)
    -- lines 58-62: float products and sums, converted to double
    let numerator := r.toFloat (r.toFloat (ux * vx) + r.toFloat (uy * vy))
    let uSquared := r.toFloat (r.toFloat (ux * ux) + r.toFloat (uy * uy))
    let vSquared := r.toFloat (r.toFloat (vx * vx) + r.toFloat (vy * vy))
    -- line 66: a double product
    let denomSquared := r.toDouble (uSquared * vSquared)
    -- lines 68-73
    let map1 := saveNeutral self
    -- line 75
    if denomSquared > 0 then
      -- line 77: two double products and a double quotient
      let cosThetaSquared :=
        r.toDouble (r.toDouble (numerator * numerator) / r.toDouble (uSquared * vSquared))
      let divs1 := [(r.toDouble (numerator * numerator), r.toDouble (uSquared * vSquared))]
      -- line 82: the angle in double
      let angle := r.toDouble (r.toDouble (m.acos (m.sqrt cosThetaSquared) * 180) / m.pi)
      -- lines 79-84: the values of the map are float
      let map2 :=
        if self._saveValues then
          ((map1.assign "2DAngle_cos2DAngleSquared" (r.toFloat cosThetaSquared)).assign
            "2DAngle_2DAngle" (r.toFloat angle))
        else map1
      let divs2 :=
        if self._saveValues then
          divs1 ++ [(r.toDouble (m.acos (m.sqrt cosThetaSquared) * 180), m.pi)]
        else divs1
      let self2 := { self with _map_name_value := map2 }
      -- lines 86-87, then line 110: the product of the members is rounded to their type
      if cosThetaSquared < r.toMember (self._cosAngleMin * self._cosAngleMin) then
        ⟨.ok false, self2, parent, child, divs2⟩
      else if cosThetaSquared > r.toMember (self._cosAngleMax * self._cosAngleMax) then
        ⟨.ok false, self2, parent, child, divs2⟩
      else
        ⟨.ok true, self2, parent, child, divs2⟩
    else
      ⟨.ok true, { self with _map_name_value := map1 }, parent, child, []⟩
  -- lines 97-107: any other pair of sizes
  | _, _ =>
    ⟨.error (badSegmentLengthMessage parent.autHits.length child.autHits.length),
      self, parent, child, []⟩

/-- The float vector `q - p` of lines 49-54: the coordinates read into `float`
variables and their `float` differences. -/
def diffXYRounded {F : Type} [LinearOrderedField F] (r : Rounding F) (p q : AutHit F) : F × F :=
  (r.toFloat (r.toFloat q.x - r.toFloat p.x), r.toFloat (r.toFloat q.y - r.toFloat p.y))

/-- The float dot product of lines 58, 61 and 62. -/
def dotXYRounded {F : Type} [LinearOrderedField F] (r : Rounding F) (u v : F × F) : F :=
  r.toFloat (r.toFloat (u.1 * v.1) + r.toFloat (u.2 * v.2))

/-- The value of `denomSquared` (line 66). -/
def denomSquaredRounded {F : Type} [LinearOrderedField F] (r : Rounding F)
    (a b c : AutHit F) : F :=
  r.toDouble (dotXYRounded r (diffXYRounded r a b) (diffXYRounded r a b)
    * dotXYRounded r (diffXYRounded r b c) (diffXYRounded r b c))

/-- The value of `cosThetaSquared` (line 77). -/
def cosThetaSquaredRounded {F : Type} [LinearOrderedField F] (r : Rounding F)
    (a b c : AutHit F) : F :=
  r.toDouble
    (r.toDouble (dotXYRounded r (diffXYRounded r a b) (diffXYRounded r b c)
        * dotXYRounded r (diffXYRounded r a b) (diffXYRounded r b c))
      / r.toDouble (dotXYRounded r (diffXYRounded r a b) (diffXYRounded r a b)
        * dotXYRounded r (diffXYRounded r b c) (diffXYRounded r b c)))

/-- The angle that line 82 stores under "2DAngle_2DAngle" for a squared cosine
`c2`: `acos( sqrt( c2 ) ) * 180. / M_PI` in `double`, converted to `float`. -/
def recordedAngle {F : Type} [LinearOrderedField F] (r : Rounding F) (m : MathOps F)
    (c2 : F) : F :=
  r.toFloat (r.toDouble (r.toDouble (m.acos (m.sqrt c2) * 180) / m.pi))

/-- The coordinates `x` and `y` of a hit are `float` values. -/
def AutHit.isFloat {F : Type} (r : Rounding F) (h : AutHit F) : Prop :=
  r.toFloat h.x = h.x ∧ r.toFloat h.y = h.y

/-- The roundings are accurate to the unit roundoff of their type: the result
of a `float` operation differs from the exact value `x` by at most
`|x| / 2^24`, the result of a `double` operation by at most `|x| / 2^53`;
the data members are at least as accurate as `float`; and 1 is stored
exactly. -/
structure Rounding.Accurate (r : Rounding ℝ) : Prop where
  toFloat_err : ∀ x, |r.toFloat x - x| ≤ |x| / 2 ^ 24
  toDouble_err : ∀ x, |r.toDouble x - x| ≤ |x| / 2 ^ 53
  toMember_err : ∀ x, |r.toMember x - x| ≤ |x| / 2 ^ 24
  toDouble_one : r.toDouble 1 = 1
  toMember_one : r.toMember 1 = 1

/-- The functions of `<cmath>` are accurate: `cos` is within `2^-52` of the
cosine and `cos 0 = 1`, `M_PI` is within `2^-51` of pi, and on [0, 1] `sqrt`
is within `2^-52` of the square root and stays in [0, 1] and `acos` is within
`2^-50` of the arc cosine. -/
structure MathOps.Accurate (m : MathOps ℝ) : Prop where
  cos_err : ∀ x, |m.cos x - Real.cos x| ≤ 1 / 2 ^ 52
  cos_zero : m.cos 0 = 1
  pi_err : |m.pi - Real.pi| ≤ 1 / 2 ^ 51
  sqrt_err : ∀ x, 0 ≤ x → x ≤ 1 → |m.sqrt x - Real.sqrt x| ≤ 1 / 2 ^ 52
  sqrt_mem : ∀ x, 0 ≤ x → x ≤ 1 → 0 ≤ m.sqrt x ∧ m.sqrt x ≤ 1
  acos_err : ∀ y, 0 ≤ y → y ≤ 1 → |m.acos y - Real.arccos y| ≤ 1 / 2 ^ 50

/-! ## Unfolding lemmas -/

section Generic

variable {F : Type} [LinearOrderedField F]

/-- On two 2-hit segments the verdict is the one the window test gives on the
squared cosine, and `true` when the denominator is not positive. -/
theorem areCompatible_result_two (m : MathOps F) (self : Crit3_2DAngle F)
    (parent child : Segment F) (a b b' c : AutHit F)
    (hp : parent.autHits = [a, b]) (hc : child.autHits = [b', c]) :
    (self.areCompatible m parent child).result =
      .ok (if denomXY a b c > 0 then
              decide (¬ cosSqXY a b c < self._cosAngleMin * self._cosAngleMin ∧
                      ¬ cosSqXY a b c > self._cosAngleMax * self._cosAngleMax)
           else true) := by
  simp only [Crit3_2DAngle.areCompatible, hp, hc, denomXY, cosSqXY, dotXY, diffXY, normSqXY]
  split_ifs <;> simp_all

/-- A list of length two is a pair. -/
theorem length_two_iff {α : Type} (l : List α) : l.length = 2 ↔ ∃ x y, l = [x, y] := by
  constructor
  · intro h
    match l, h with
    | [x, y], _ => exact ⟨x, y, rfl⟩
  · rintro ⟨x, y, rfl⟩
    rfl

/-- On segments that are not both 2-hit segments the call raises and leaves
everything as it was. -/
theorem areCompatible_bad (m : MathOps F) (self : Crit3_2DAngle F)
    (parent child : Segment F)
    (h : ¬ (parent.autHits.length = 2 ∧ child.autHits.length = 2)) :
    self.areCompatible m parent child =
      ⟨.error (badSegmentLengthMessage parent.autHits.length child.autHits.length),
        self, parent, child, []⟩ := by
  unfold Crit3_2DAngle.areCompatible
  split
  · rename_i hp hc
    exact absurd ⟨by rw [hp]; rfl, by rw [hc]; rfl⟩ h
  · rfl

/-- Squared lengths are not negative. -/
theorem normSqXY_nonneg (u : F × F) : 0 ≤ normSqXY u := by
  unfold normSqXY
  nlinarith [mul_self_nonneg u.1, mul_self_nonneg u.2]

/-- A plane vector has squared length zero exactly when it is the zero vector. -/
theorem normSqXY_eq_zero (u : F × F) : normSqXY u = 0 ↔ u = (0, 0) := by
  unfold normSqXY
  constructor
  · intro h
    have h1 : u.1 * u.1 = 0 := by nlinarith [mul_self_nonneg u.1, mul_self_nonneg u.2]
    have h2 : u.2 * u.2 = 0 := by nlinarith [mul_self_nonneg u.1, mul_self_nonneg u.2]
    exact Prod.ext (mul_self_eq_zero.mp h1) (mul_self_eq_zero.mp h2)
  · intro h
    rw [h]
    simp

/-- The denominator is not negative. -/
theorem denomXY_nonneg (a b c : AutHit F) : 0 ≤ denomXY a b c :=
  mul_nonneg (normSqXY_nonneg _) (normSqXY_nonneg _)

/-- The divisions evaluated on two 2-hit segments with a denominator that is
not positive: none. -/
theorem areCompatible_divisions_zero (m : MathOps F) (self : Crit3_2DAngle F)
    (parent child : Segment F) (a b b' c : AutHit F)
    (hp : parent.autHits = [a, b]) (hc : child.autHits = [b', c])
    (h0 : ¬ denomXY a b c > 0) :
    (self.areCompatible m parent child).divisions = [] := by
  simp only [denomXY, dotXY, diffXY, normSqXY] at h0
  simp only [Crit3_2DAngle.areCompatible, hp, hc]
  rw [if_neg h0]

/-- The squared dot product is at most the product of the squared lengths. -/
theorem dotXY_sq_le (u v : F × F) : dotXY u v * dotXY u v ≤ normSqXY u * normSqXY v := by
  unfold dotXY normSqXY
  nlinarith [mul_self_nonneg (u.1 * v.2 - u.2 * v.1)]

/-- The squared cosine is not negative. -/
theorem cosSqXY_nonneg (a b c : AutHit F) : 0 ≤ cosSqXY a b c :=
  div_nonneg (mul_self_nonneg _) (mul_nonneg (normSqXY_nonneg _) (normSqXY_nonneg _))

/-- The squared cosine is at most one. -/
theorem cosSqXY_le_one (a b c : AutHit F) : cosSqXY a b c ≤ 1 :=
  div_le_one_of_le₀ (dotXY_sq_le _ _) (mul_nonneg (normSqXY_nonneg _) (normSqXY_nonneg _))

/-- Two non-zero vectors give a positive denominator. -/
theorem denomXY_pos (a b c : AutHit F) (hu : diffXY a b ≠ (0, 0)) (hv : diffXY b c ≠ (0, 0)) :
    0 < denomXY a b c := by
  have h1 : 0 < normSqXY (diffXY a b) :=
    lt_of_le_of_ne (normSqXY_nonneg _) (fun h => hu ((normSqXY_eq_zero _).mp h.symm))
  have h2 : 0 < normSqXY (diffXY b c) :=
    lt_of_le_of_ne (normSqXY_nonneg _) (fun h => hv ((normSqXY_eq_zero _).mp h.symm))
  exact mul_pos h1 h2

/-- The verdict on two 2-hit segments with a positive denominator, for a
criterion built by the constructor. -/
theorem areCompatible_result_window (m : MathOps F) (angleMin angleMax : F)
    (flag : Bool) (values : ValueMap F) (parent child : Segment F) (a b b' c : AutHit F)
    (hp : parent.autHits = [a, b]) (hc : child.autHits = [b', c])
    (hpos : 0 < denomXY a b c) :
    (((Crit3_2DAngle.new m angleMin angleMax).inState flag values).areCompatible m
        parent child).result =
      .ok (decide (m.cos (angleMax * m.pi / 180) ^ 2 ≤ cosSqXY a b c ∧
                   cosSqXY a b c ≤ m.cos (angleMin * m.pi / 180) ^ 2)) := by
  rw [areCompatible_result_two m _ parent child a b b' c hp hc, if_pos hpos]
  simp only [Crit3_2DAngle.inState, Crit3_2DAngle.new, not_lt, gt_iff_lt, pow_two]

/-- Reading a key just assigned gives the assigned value. -/
theorem ValueMap.find_assign_same {G : Type} (values : ValueMap G) (k : String) (v : G) :
    (values.assign k v).find k = some v := by
  induction values with
  | nil => simp [ValueMap.assign, ValueMap.find]
  | cons e rest ih =>
    obtain ⟨k', v'⟩ := e
    unfold ValueMap.assign
    split_ifs with h1 h2
    · simp [ValueMap.find]
    · simp [ValueMap.find]
    · simp [ValueMap.find, h1, ih]

/-- Assigning one key leaves the other keys as they were. -/
theorem ValueMap.find_assign_other {G : Type} (values : ValueMap G) (k k2 : String) (v : G)
    (hk : k2 ≠ k) : (values.assign k v).find k2 = values.find k2 := by
  induction values with
  | nil => simp [ValueMap.assign, ValueMap.find, hk]
  | cons e rest ih =>
    obtain ⟨k', v'⟩ := e
    unfold ValueMap.assign
    split_ifs with h1 h2
    · subst h1
      simp [ValueMap.find, hk]
    · simp [ValueMap.find, hk]
    · simp [ValueMap.find, ih]

/-- The two keys written by the criterion are different. -/
theorem keys_ne : ("2DAngle_cos2DAngleSquared" : String) ≠ "2DAngle_2DAngle" := by decide

/-- C1: `areCompatible` raises `BadSegmentLength` if and only if the parent or
the child segment does not have exactly 2 hits, and it returns a boolean if and
only if both have exactly 2 hits. -/
theorem C1_raises_iff_wrong_length (m : MathOps F) (self : Crit3_2DAngle F)
    (parent child : Segment F) :
    ((∃ msg, (self.areCompatible m parent child).result = .error msg) ↔
        (parent.autHits.length ≠ 2 ∨ child.autHits.length ≠ 2)) ∧
    ((∃ verdict, (self.areCompatible m parent child).result = .ok verdict) ↔
        (parent.autHits.length = 2 ∧ child.autHits.length = 2)) := by
  by_cases h : parent.autHits.length = 2 ∧ child.autHits.length = 2
  · obtain ⟨a, b, hp⟩ := (length_two_iff _).mp h.1
    obtain ⟨b', c, hc⟩ := (length_two_iff _).mp h.2
    rw [areCompatible_result_two m self parent child a b b' c hp hc]
    constructor
    · constructor
      · rintro ⟨msg, hmsg⟩
        cases hmsg
      · rintro (h1 | h1)
        · exact absurd h.1 h1
        · exact absurd h.2 h1
    · exact ⟨fun _ => h, fun _ => ⟨_, rfl⟩⟩
  · rw [areCompatible_bad m self parent child h]
    constructor
    · constructor
      · intro _
        by_contra hne
        push_neg at hne
        exact h hne
      · intro _
        exact ⟨_, rfl⟩
    · constructor
      · rintro ⟨verdict, hv⟩
        cases hv
      · intro h2
        exact absurd h2 h

/-- C2: on two 2-hit segments whose denominator `|u|^2 |v|^2` is zero (which
is the case exactly when `b - a` or `c - b` is the zero vector of the x-y
plane), `areCompatible` returns true whatever the configured window and the
state of the criterion, and evaluates no division. -/
theorem C2_zero_denominator_passes (m : MathOps F) (angleMin angleMax : F) (flag : Bool)
    (values : ValueMap F) (parent child : Segment F) (a b b' c : AutHit F)
    (hp : parent.autHits = [a, b]) (hc : child.autHits = [b', c])
    (h0 : denomXY a b c = 0) :
    (diffXY a b = (0, 0) ∨ diffXY b c = (0, 0)) ∧
    (((Crit3_2DAngle.new m angleMin angleMax).inState flag values).areCompatible m
        parent child).result = .ok true ∧
    (((Crit3_2DAngle.new m angleMin angleMax).inState flag values).areCompatible m
        parent child).divisions = [] := by
  have hnot : ¬ denomXY a b c > 0 := by rw [h0]; exact lt_irrefl 0
  refine ⟨?_, ?_, ?_⟩
  · unfold denomXY at h0
    rcases mul_eq_zero.mp h0 with h | h
    · exact Or.inl ((normSqXY_eq_zero _).mp h)
    · exact Or.inr ((normSqXY_eq_zero _).mp h)
  · rw [areCompatible_result_two m _ parent child a b b' c hp hc, if_neg hnot]
  · exact areCompatible_divisions_zero m _ parent child a b b' c hp hc hnot

/-- C7: the verdict of `areCompatible` does not depend on the instrumentation
flag: with `saveValues` enabled the call returns, or raises, exactly what it
returns or raises with `saveValues` disabled. -/
theorem C7_verdict_independent_of_saveValues (m : MathOps F) (self : Crit3_2DAngle F)
    (parent child : Segment F) :
    ((self.setSaveValues true).areCompatible m parent child).result =
      ((self.setSaveValues false).areCompatible m parent child).result := by
  by_cases h : parent.autHits.length = 2 ∧ child.autHits.length = 2
  · obtain ⟨a, b, hp⟩ := (length_two_iff _).mp h.1
    obtain ⟨b', c, hc⟩ := (length_two_iff _).mp h.2
    rw [areCompatible_result_two m _ parent child a b b' c hp hc,
      areCompatible_result_two m _ parent child a b b' c hp hc]
    rfl
  · rw [areCompatible_bad m _ parent child h, areCompatible_bad m _ parent child h]

/-- C9: `areCompatible` never mutates its segments: after every call, whether
it returned true, returned false or raised, the parent and the child segment
(their hits with their coordinates, their state, their parent and child links)
are what they were before; of the criterion object only the value map may have
changed. -/
theorem C9_segments_not_mutated (m : MathOps F) (self : Crit3_2DAngle F)
    (parent child : Segment F) :
    (self.areCompatible m parent child).parent = parent ∧
    (self.areCompatible m parent child).child = child ∧
    (self.areCompatible m parent child).self._cosAngleMin = self._cosAngleMin ∧
    (self.areCompatible m parent child).self._cosAngleMax = self._cosAngleMax ∧
    (self.areCompatible m parent child).self._saveValues = self._saveValues := by
  by_cases h : parent.autHits.length = 2 ∧ child.autHits.length = 2
  · obtain ⟨a, b, hp⟩ := (length_two_iff _).mp h.1
    obtain ⟨b', c, hc⟩ := (length_two_iff _).mp h.2
    simp only [Crit3_2DAngle.areCompatible, hp, hc]
    split_ifs <;> exact ⟨rfl, rfl, rfl, rfl, rfl⟩
  · rw [areCompatible_bad m _ parent child h]
    exact ⟨rfl, rfl, rfl, rfl, rfl⟩

/-- C10: when `areCompatible` raises `BadSegmentLength`, the message names the
expected length, 2 hits in each of the 2 segments, and the actual number of
hits of the parent and of the child segment that were passed. -/
theorem C10_message_names_lengths (m : MathOps F) (self : Crit3_2DAngle F)
    (parent child : Segment F) (msg : String)
    (h : (self.areCompatible m parent child).result = .error msg) :
    msg = "Crit3_2DAngle::This criterion needs 2 segments with 2 hits each, passed was a "
      ++ toString parent.autHits.length ++ " hit segment (parent) and a "
      ++ toString child.autHits.length ++ " hit segment (child)." := by
  by_cases h2 : parent.autHits.length = 2 ∧ child.autHits.length = 2
  · obtain ⟨a, b, hp⟩ := (length_two_iff _).mp h2.1
    obtain ⟨b', c, hc⟩ := (length_two_iff _).mp h2.2
    rw [areCompatible_result_two m _ parent child a b b' c hp hc] at h
    cases h
  · rw [areCompatible_bad m _ parent child h2] at h
    injection h with h
    rw [← h]
    rfl

/-! ## Claim C20 -/

/-- Mirroring the third hit through the second leaves the denominator as it is. -/
theorem denomXY_mirror (a b c c' : AutHit F) (hx : c'.x = 2 * b.x - c.x)
    (hy : c'.y = 2 * b.y - c.y) : denomXY a b c' = denomXY a b c := by
  simp only [denomXY, normSqXY, diffXY, hx, hy]
  ring

/-- Mirroring the third hit through the second leaves the squared cosine as it is. -/
theorem cosSqXY_mirror (a b c c' : AutHit F) (hx : c'.x = 2 * b.x - c.x)
    (hy : c'.y = 2 * b.y - c.y) : cosSqXY a b c' = cosSqXY a b c := by
  simp only [cosSqXY, dotXY, normSqXY, diffXY, hx, hy]
  congr 1 <;> ring

/-- Reversing the chain leaves the denominator as it is. -/
theorem denomXY_reverse (a b c : AutHit F) : denomXY c b a = denomXY a b c := by
  simp only [denomXY, normSqXY, diffXY]
  ring

/-- Reversing the chain leaves the squared cosine as it is. -/
theorem cosSqXY_reverse (a b c : AutHit F) : cosSqXY c b a = cosSqXY a b c := by
  simp only [cosSqXY, dotXY, normSqXY, diffXY]
  congr 1 <;> ring

/-- C20: `Crit3_2DAngle` cannot tell a bend angle `theta` from `180 - theta`:
for every window and state of the criterion and all hits `a`, `b`, `c`,
`areCompatible` gives the same verdict for the chain `(a, b, c)`, for the chain
`(a, b, c')` with `c' = 2b - c` the mirror image of `c` through `b` in the x-y
plane, and for the reversed chain `(c, b, a)`.  In particular a chain that
turns straight back passes whenever the straight chain does. -/
theorem C20_mirror_and_reverse_same_verdict (m : MathOps F) (self : Crit3_2DAngle F)
    (parent child childMirror parentRev childRev : Segment F)
    (a b b1 b2 b3 c c' : AutHit F)
    (hp : parent.autHits = [a, b]) (hc : child.autHits = [b1, c])
    (hm : childMirror.autHits = [b2, c'])
    (hx : c'.x = 2 * b.x - c.x) (hy : c'.y = 2 * b.y - c.y)
    (hpr : parentRev.autHits = [c, b]) (hcr : childRev.autHits = [b3, a]) :
    (self.areCompatible m parent childMirror).result
      = (self.areCompatible m parent child).result ∧
    (self.areCompatible m parentRev childRev).result
      = (self.areCompatible m parent child).result := by
  rw [areCompatible_result_two m self parent child a b b1 c hp hc,
    areCompatible_result_two m self parent childMirror a b b2 c' hp hm,
    areCompatible_result_two m self parentRev childRev c b b3 a hpr hcr,
    denomXY_mirror a b c c' hx hy, cosSqXY_mirror a b c c' hx hy,
    denomXY_reverse a b c, cosSqXY_reverse a b c]
  exact ⟨rfl, rfl⟩

end Generic

/-! ## Angles over the real numbers -/

section RealAngles

open Real

/-- Degrees against radians, upper side. -/
theorem deg_le_iff (t β : ℝ) : t * 180 / π ≤ β ↔ t ≤ β * π / 180 := by
  rw [div_le_iff₀ Real.pi_pos, le_div_iff₀ (by norm_num : (0 : ℝ) < 180)]

/-- Degrees against radians, lower side. -/
theorem le_deg_iff (t α : ℝ) : α ≤ t * 180 / π ↔ α * π / 180 ≤ t := by
  rw [le_div_iff₀ Real.pi_pos, div_le_iff₀ (by norm_num : (0 : ℝ) < 180)]

/-- An angle of [0, 90] degrees is in [0, pi/2] radians. -/
theorem rad_bounds (β : ℝ) (h0 : 0 ≤ β) (h1 : β ≤ 90) :
    0 ≤ β * π / 180 ∧ β * π / 180 ≤ π / 2 := by
  have hpi : 0 < π := Real.pi_pos
  constructor
  · positivity
  · nlinarith

/-- The arc cosine of a square root is in [0, pi/2]. -/
theorem arccos_sqrt_bounds (r : ℝ) : 0 ≤ arccos (√r) ∧ arccos (√r) ≤ π / 2 :=
  ⟨Real.arccos_nonneg _, Real.arccos_le_pi_div_two.mpr (Real.sqrt_nonneg r)⟩

/-- The cosine undoes the arc cosine on square roots of numbers up to one. -/
theorem cos_arccos_sqrt (r : ℝ) (hr1 : r ≤ 1) : cos (arccos (√r)) = √r :=
  Real.cos_arccos (by linarith [Real.sqrt_nonneg r]) (Real.sqrt_le_one.mpr hr1)

/-- The cosine reverses the order on [0, pi/2]. -/
theorem cos_le_cos_iff_of_mem (s t : ℝ) (hs0 : 0 ≤ s) (hs1 : s ≤ π / 2) (ht0 : 0 ≤ t)
    (ht1 : t ≤ π / 2) : cos s ≤ cos t ↔ t ≤ s := by
  have hpi : 0 < π := Real.pi_pos
  exact Real.strictAntiOn_cos.le_iff_le ⟨hs0, by linarith⟩ ⟨ht0, by linarith⟩

/-- The lower squared-cosine bound is the upper angle bound. -/
theorem upper_iff (r β : ℝ) (hr0 : 0 ≤ r) (hr1 : r ≤ 1) (h0 : 0 ≤ β) (h1 : β ≤ 90) :
    cos (β * π / 180) ^ 2 ≤ r ↔ arccos (√r) * 180 / π ≤ β := by
  obtain ⟨hb0, hb1⟩ := rad_bounds β h0 h1
  obtain ⟨ht0, ht1⟩ := arccos_sqrt_bounds r
  have hc : 0 ≤ cos (β * π / 180) := Real.cos_nonneg_of_mem_Icc ⟨by linarith, hb1⟩
  rw [deg_le_iff, ← cos_le_cos_iff_of_mem _ _ hb0 hb1 ht0 ht1, cos_arccos_sqrt r hr1,
    Real.le_sqrt hc hr0]

/-- The upper squared-cosine bound is the lower angle bound. -/
theorem lower_iff (r α : ℝ) (hr1 : r ≤ 1) (h0 : 0 ≤ α) (h1 : α ≤ 90) :
    r ≤ cos (α * π / 180) ^ 2 ↔ α ≤ arccos (√r) * 180 / π := by
  obtain ⟨hb0, hb1⟩ := rad_bounds α h0 h1
  obtain ⟨ht0, ht1⟩ := arccos_sqrt_bounds r
  have hc : 0 ≤ cos (α * π / 180) := Real.cos_nonneg_of_mem_Icc ⟨by linarith, hb1⟩
  rw [le_deg_iff, ← cos_le_cos_iff_of_mem _ _ ht0 ht1 hb0 hb1, cos_arccos_sqrt r hr1,
    Real.sqrt_le_left hc]

/-- The square root of the squared cosine is the absolute value of the cosine. -/
theorem sqrt_cosSqXY (a b c : AutHit ℝ) :
    √(cosSqXY a b c) =
      |dotXY (diffXY a b) (diffXY b c)
        / (√(normSqXY (diffXY a b)) * √(normSqXY (diffXY b c)))| := by
  unfold cosSqXY
  rw [Real.sqrt_div (mul_self_nonneg _), Real.sqrt_mul_self_eq_abs,
    Real.sqrt_mul (normSqXY_nonneg _), abs_div,
    abs_of_nonneg (mul_nonneg (Real.sqrt_nonneg _) (Real.sqrt_nonneg _))]

/-- Folding the angle of a cosine gives the angle of its absolute value. -/
theorem foldAngle_arccos (x : ℝ) :
    foldAngle (arccos x * 180 / π) = arccos |x| * 180 / π := by
  have hpi : 0 < π := Real.pi_pos
  unfold foldAngle
  rcases le_total 0 x with hx | hx
  · rw [abs_of_nonneg hx]
    have h1 : arccos x ≤ π / 2 := Real.arccos_le_pi_div_two.mpr hx
    have h2 : arccos x * 180 / π ≤ 90 := by
      rw [deg_le_iff]
      linarith
    exact min_eq_left (by linarith)
  · rw [abs_of_nonpos hx, Real.arccos_neg]
    have h1 : arccos (-x) ≤ π / 2 := Real.arccos_le_pi_div_two.mpr (by linarith)
    rw [Real.arccos_neg] at h1
    have h3 : (π - arccos x) * 180 / π = 180 - arccos x * 180 / π := by
      field_simp
      ring
    have h2 : (π - arccos x) * 180 / π ≤ 90 := by
      rw [deg_le_iff]
      linarith
    rw [h3] at h2 ⊢
    exact min_eq_right (by linarith)

/-- The angle the criterion measures, `acos (sqrt cosThetaSquared)` in degrees,
is the folded bend angle. -/
theorem measured_eq_foldAngle (a b c : AutHit ℝ) :
    arccos (√(cosSqXY a b c)) * 180 / π =
      foldAngle (bendAngle2D ⟨Real.cos, Real.arccos, Real.sqrt, Real.pi⟩ a b c) := by
  unfold bendAngle2D
  rw [foldAngle_arccos, sqrt_cosSqXY]

/-- In a window of [0, 90] degrees the verdict on a positive denominator is
true exactly when the measured angle lies in the window. -/
theorem areCompatible_true_iff_measured (angleMin angleMax : ℝ) (flag : Bool)
    (values : ValueMap ℝ) (parent child : Segment ℝ) (a b b' c : AutHit ℝ)
    (hp : parent.autHits = [a, b]) (hc : child.autHits = [b', c])
    (h0 : 0 ≤ angleMin) (hle : angleMin ≤ angleMax) (h90 : angleMax ≤ 90)
    (hpos : 0 < denomXY a b c) :
    (((Crit3_2DAngle.new ⟨Real.cos, Real.arccos, Real.sqrt, Real.pi⟩ angleMin
          angleMax).inState flag values).areCompatible
        ⟨Real.cos, Real.arccos, Real.sqrt, Real.pi⟩ parent child).result = .ok true ↔
      (angleMin ≤ arccos (√(cosSqXY a b c)) * 180 / π ∧
        arccos (√(cosSqXY a b c)) * 180 / π ≤ angleMax) := by
  rw [areCompatible_result_window _ angleMin angleMax flag values parent child a b b' c hp hc
    hpos]
  simp only [Except.ok.injEq, decide_eq_true_eq]
  rw [upper_iff _ _ (cosSqXY_nonneg a b c) (cosSqXY_le_one a b c) (by linarith) h90,
    lower_iff _ _ (cosSqXY_le_one a b c) h0 (by linarith)]
  exact and_comm

/-- On two 2-hit segments a verdict that is not true is false. -/
theorem areCompatible_false_of_not_true (m : MathOps ℝ) (self : Crit3_2DAngle ℝ)
    (parent child : Segment ℝ) (a b b' c : AutHit ℝ)
    (hp : parent.autHits = [a, b]) (hc : child.autHits = [b', c])
    (h : (self.areCompatible m parent child).result ≠ .ok true) :
    (self.areCompatible m parent child).result = .ok false := by
  rw [areCompatible_result_two m self parent child a b b' c hp hc] at h ⊢
  simp only [ne_eq, Except.ok.injEq, Bool.not_eq_true] at h
  rw [h]

/-! ## Straight and degenerate chains in exact arithmetic -/

/-- A straight chain with a non-zero first vector has squared cosine one. -/
theorem cosSqXY_straight (a b c : AutHit ℝ) (k : ℝ)
    (hs : diffXY b c = (k * (diffXY a b).1, k * (diffXY a b).2))
    (hd : 0 < denomXY a b c) : cosSqXY a b c = 1 := by
  unfold denomXY at hd
  unfold cosSqXY
  rw [div_eq_one_iff_eq hd.ne']
  rw [hs]
  unfold dotXY normSqXY
  ring

/-- With a zero vector the bend angle is the 90 degrees of `acos 0`. -/
theorem bendAngle2D_degenerate (a b c : AutHit ℝ) (hd : ¬ 0 < denomXY a b c) :
    bendAngle2D ⟨Real.cos, Real.arccos, Real.sqrt, Real.pi⟩ a b c = 90 := by
  have hpi : (π : ℝ) ≠ 0 := Real.pi_pos.ne'
  have h0 : denomXY a b c = 0 := le_antisymm (not_lt.mp hd) (denomXY_nonneg a b c)
  have hz : √(normSqXY (diffXY a b)) * √(normSqXY (diffXY b c)) = 0 := by
    rw [← Real.sqrt_mul (normSqXY_nonneg _)]
    unfold denomXY at h0
    rw [h0, Real.sqrt_zero]
  unfold bendAngle2D
  simp only [hz, div_zero, Real.arccos_zero]
  field_simp
  ring

/-! ## Claim C8 -/

/-- Witness of C2: the pair the analyser builds from the virtual hit alone. -/
theorem C2_zero_denominator_passes_witness :
    denomXY (hitXY (0 : ℝ) 0) (hitXY 0 0) (hitXY 0 0) = 0 ∧
    ((diffXY (hitXY (0 : ℝ) 0) (hitXY 0 0) = (0, 0) ∨
        diffXY (hitXY (0 : ℝ) 0) (hitXY 0 0) = (0, 0)) ∧
      (((Crit3_2DAngle.new ⟨Real.cos, Real.arccos, Real.sqrt, Real.pi⟩
          0 0).inState true []).areCompatible ⟨Real.cos, Real.arccos, Real.sqrt, Real.pi⟩
          (Segment.ofHits [hitXY 0 0, hitXY 0 0])
          (Segment.ofHits [hitXY 0 0, hitXY 0 0])).result = .ok true ∧
      (((Crit3_2DAngle.new ⟨Real.cos, Real.arccos, Real.sqrt, Real.pi⟩
          0 0).inState true []).areCompatible ⟨Real.cos, Real.arccos, Real.sqrt, Real.pi⟩
          (Segment.ofHits [hitXY 0 0, hitXY 0 0])
          (Segment.ofHits [hitXY 0 0, hitXY 0 0])).divisions = []) :=
  ⟨by simp [denomXY, normSqXY, diffXY, hitXY],
    C2_zero_denominator_passes ⟨Real.cos, Real.arccos, Real.sqrt, Real.pi⟩
        0 0 true [] _ _ (hitXY 0 0) (hitXY 0 0) (hitXY 0 0)
      (hitXY 0 0) rfl rfl (by simp [denomXY, normSqXY, diffXY, hitXY])⟩

/-- Witness of C10: a 1-hit parent and a 3-hit child. -/
theorem C10_message_names_lengths_witness :
    ((Crit3_2DAngle.new ⟨Real.cos, Real.arccos, Real.sqrt, Real.pi⟩
        0 0).areCompatible ⟨Real.cos, Real.arccos, Real.sqrt, Real.pi⟩
        (Segment.ofHits [hitXY 0 0])
        (Segment.ofHits [hitXY 0 0, hitXY 1 1, hitXY 2 2])).result =
      .error ("Crit3_2DAngle::This criterion needs 2 segments with 2 hits each, passed was a "
        ++ "1 hit segment (parent) and a 3 hit segment (child).") ∧
    ("Crit3_2DAngle::This criterion needs 2 segments with 2 hits each, passed was a "
        ++ "1 hit segment (parent) and a 3 hit segment (child).") =
      "Crit3_2DAngle::This criterion needs 2 segments with 2 hits each, passed was a "
      ++ toString (Segment.ofHits [hitXY (0 : ℝ) 0]).autHits.length
      ++ " hit segment (parent) and a "
      ++ toString (Segment.ofHits [hitXY (0 : ℝ) 0, hitXY 1 1, hitXY 2 2]).autHits.length
      ++ " hit segment (child)." :=
  ⟨by rfl,
    C10_message_names_lengths ⟨Real.cos, Real.arccos, Real.sqrt, Real.pi⟩
        (Crit3_2DAngle.new ⟨Real.cos, Real.arccos, Real.sqrt, Real.pi⟩ 0 0) _ _ _ (by rfl)⟩

/-! ## Claim C18 and the witness of C20 -/

/-- Witness of C20: the chain (0,0), (1,0), (2,1), its mirror image (0,0),
(1,0), (0,-1) and its reverse (2,1), (1,0), (0,0). -/
theorem C20_mirror_and_reverse_same_verdict_witness :
    ((hitXY (0 : ℝ) (-1)).x = 2 * (hitXY (1 : ℝ) 0).x - (hitXY (2 : ℝ) 1).x ∧
      (hitXY (0 : ℝ) (-1)).y = 2 * (hitXY (1 : ℝ) 0).y - (hitXY (2 : ℝ) 1).y) ∧
    (((Crit3_2DAngle.new ⟨Real.cos, Real.arccos, Real.sqrt, Real.pi⟩
        0 0).areCompatible ⟨Real.cos, Real.arccos, Real.sqrt, Real.pi⟩
          (Segment.ofHits [hitXY 0 0, hitXY 1 0])
          (Segment.ofHits [hitXY 1 0, hitXY 0 (-1)])).result
      = ((Crit3_2DAngle.new ⟨Real.cos, Real.arccos, Real.sqrt, Real.pi⟩
          0 0).areCompatible ⟨Real.cos, Real.arccos, Real.sqrt, Real.pi⟩
          (Segment.ofHits [hitXY 0 0, hitXY 1 0])
          (Segment.ofHits [hitXY 1 0, hitXY 2 1])).result ∧
    ((Crit3_2DAngle.new ⟨Real.cos, Real.arccos, Real.sqrt, Real.pi⟩
        0 0).areCompatible ⟨Real.cos, Real.arccos, Real.sqrt, Real.pi⟩
          (Segment.ofHits [hitXY 2 1, hitXY 1 0])
          (Segment.ofHits [hitXY 1 0, hitXY 0 0])).result
      = ((Crit3_2DAngle.new ⟨Real.cos, Real.arccos, Real.sqrt, Real.pi⟩
          0 0).areCompatible ⟨Real.cos, Real.arccos, Real.sqrt, Real.pi⟩
          (Segment.ofHits [hitXY 0 0, hitXY 1 0])
          (Segment.ofHits [hitXY 1 0, hitXY 2 1])).result) :=
  ⟨⟨by norm_num [hitXY], by norm_num [hitXY]⟩,
    C20_mirror_and_reverse_same_verdict ⟨Real.cos, Real.arccos, Real.sqrt, Real.pi⟩
        (Crit3_2DAngle.new ⟨Real.cos, Real.arccos, Real.sqrt, Real.pi⟩ 0 0) _ _ _ _ _
      (hitXY 0 0) (hitXY 1 0) (hitXY 1 0) (hitXY 1 0) (hitXY 1 0) (hitXY 2 1) (hitXY 0 (-1))
      rfl rfl rfl (by norm_num [hitXY]) (by norm_num [hitXY]) rfl rfl⟩

end RealAngles

/-! ## ForwardTracking::processEvent: claims C11, C12, C13 -/

section Tracking

variable {K H B A T : Type}

/-- With a hit collection, the tracks written are the candidates of
`getTracks`, all of them and nothing else. -/
theorem processEvent_output (ops : TrackingOps K H B A T) (self : ForwardTracking)
    (evt : LCEvent K T) (col : List K)
    (h : evt.getCollection self._FTDHitCollection = some col) :
    (self.processEvent ops evt).evt.added = evt.added ++ [(self._AutTrkCollection,
      ops.getTracks (ops.resetStates (ops.cleanBadConnections (ops.cleanBadStates
        (ops.doAutomaton (ops.addCriterion (ops.lengthenSegments (ops.get1SegAutomaton
          (ops.builderAddHitConnector (ops.builderAddCriterion (ops.segmentBuilder
            (col.map ops.autHit
              ++ [ops.virtualIPHit (-1), ops.virtualIPHit 1]))))))))))))] := by
  simp only [ForwardTracking.processEvent, h]

/-- With a hit collection, the calls on the builder and the automaton. -/
theorem processEvent_calls (ops : TrackingOps K H B A T) (self : ForwardTracking)
    (evt : LCEvent K T) (col : List K)
    (h : evt.getCollection self._FTDHitCollection = some col) :
    (self.processEvent ops evt).calls =
      [.builderAddCriterion, .builderAddHitConnector, .get1SegAutomaton,
        .lengthenSegments, .addCriterion, .doAutomaton, .cleanBadStates,
        .cleanBadConnections, .resetStates, .getTracks] := by
  simp only [ForwardTracking.processEvent, h]

/-- C11: for every event with a hit collection `processEvent` drives the
automaton in this order: the criterion and the hit connector are registered
with the builder, the 1-segment automaton is built, then `lengthenSegments`,
the 3-hit criterion is added, `doAutomaton`, `cleanBadStates`,
`cleanBadConnections`, `resetStates`, `getTracks`; every call is made once, so
`cleanBadConnections` never comes before `cleanBadStates` nor `resetStates`
before `cleanBadConnections`; the tracks written are those of `getTracks` on
the automaton so treated. -/
theorem C11_automaton_driven_in_order (ops : TrackingOps K H B A T) (self : ForwardTracking)
    (evt : LCEvent K T) (col : List K)
    (h : evt.getCollection self._FTDHitCollection = some col) :
    (self.processEvent ops evt).calls =
      [.builderAddCriterion, .builderAddHitConnector, .get1SegAutomaton,
        .lengthenSegments, .addCriterion, .doAutomaton, .cleanBadStates,
        .cleanBadConnections, .resetStates, .getTracks] ∧
    (self.processEvent ops evt).calls.Nodup ∧
    (self.processEvent ops evt).calls.indexOf .cleanBadStates
      < (self.processEvent ops evt).calls.indexOf .cleanBadConnections ∧
    (self.processEvent ops evt).calls.indexOf .cleanBadConnections
      < (self.processEvent ops evt).calls.indexOf .resetStates ∧
    (self.processEvent ops evt).calls.indexOf .resetStates
      < (self.processEvent ops evt).calls.indexOf .getTracks ∧
    (self.processEvent ops evt).evt.added = evt.added ++ [(self._AutTrkCollection,
      ops.getTracks (ops.resetStates (ops.cleanBadConnections (ops.cleanBadStates
        (ops.doAutomaton (ops.addCriterion (ops.lengthenSegments (ops.get1SegAutomaton
          (ops.builderAddHitConnector (ops.builderAddCriterion (ops.segmentBuilder
            (col.map ops.autHit
              ++ [ops.virtualIPHit (-1), ops.virtualIPHit 1]))))))))))))] := by
  rw [processEvent_calls ops self evt col h]
  exact ⟨rfl, by decide, by decide, by decide, by decide,
    processEvent_output ops self evt col h⟩

/-- C12, as amended: for every event with a hit collection the tracks that
`processEvent` writes to the output collection are the candidates returned by
`getTracks` on the cleaned automaton, all of them, in their order; no subset of
them is selected.  Whatever the hits of a track are (`hitsOf`), two written
tracks share a hit exactly when the two candidates do, so the written tracks
are pairwise hit-disjoint if and only if the candidates of the automaton
are. -/
theorem C12_output_is_all_candidates (ops : TrackingOps K H B A T) (self : ForwardTracking)
    (evt : LCEvent K T) (col : List K)
    (h : evt.getCollection self._FTDHitCollection = some col)
    {X : Type} (hitsOf : T → List X) :
    ∃ written : List T,
      (self.processEvent ops evt).evt.added
        = evt.added ++ [(self._AutTrkCollection, written)] ∧
      written = ops.getTracks (ops.resetStates (ops.cleanBadConnections (ops.cleanBadStates
        (ops.doAutomaton (ops.addCriterion (ops.lengthenSegments (ops.get1SegAutomaton
          (ops.builderAddHitConnector (ops.builderAddCriterion (ops.segmentBuilder
            (col.map ops.autHit
              ++ [ops.virtualIPHit (-1), ops.virtualIPHit 1]))))))))))) ∧
      (hitDisjoint (written.map hitsOf) ↔
        hitDisjoint ((ops.getTracks (ops.resetStates (ops.cleanBadConnections
          (ops.cleanBadStates (ops.doAutomaton (ops.addCriterion (ops.lengthenSegments
            (ops.get1SegAutomaton (ops.builderAddHitConnector (ops.builderAddCriterion
              (ops.segmentBuilder (col.map ops.autHit
                ++ [ops.virtualIPHit (-1), ops.virtualIPHit 1])))))))))))).map hitsOf)) :=
  ⟨_, processEvent_output ops self evt col h, rfl, Iff.rfl⟩

/-- C13: for an event whose hit collection is missing (`getCollection` gives
`NULL`) `processEvent` makes no call on a segment builder or an automaton,
leaves the event as it was, so that no track is added, and raises the event
counter by exactly one; the run has no error outcome. -/
theorem C13_missing_collection (ops : TrackingOps K H B A T) (self : ForwardTracking)
    (evt : LCEvent K T) (h : evt.getCollection self._FTDHitCollection = none) :
    (self.processEvent ops evt).calls = [] ∧
    (self.processEvent ops evt).evt.added = evt.added ∧
    (self.processEvent ops evt).evt.getCollection = evt.getCollection ∧
    (self.processEvent ops evt).self._nEvt = self._nEvt + 1 ∧
    (self.processEvent ops evt).self._nRun = self._nRun := by
  refine ⟨?_, ?_, ?_, ?_, ?_⟩ <;> simp only [ForwardTracking.processEvent, h]

end Tracking

/-- Witness of C11: three hits in the collection "FTDTrackerHits". -/
theorem C11_automaton_driven_in_order_witness :
    (⟨fun name => if name = "FTDTrackerHits" then some [1, 2, 3] else none, []⟩ :
        LCEvent Nat (List Nat)).getCollection
      (⟨"FTDTrackerHits", "AutTracks", 0, 0⟩ : ForwardTracking)._FTDHitCollection
      = some [1, 2, 3] ∧
    ((ForwardTracking.processEvent forkingOps ⟨"FTDTrackerHits", "AutTracks", 0, 0⟩
        ⟨fun name => if name = "FTDTrackerHits" then some [1, 2, 3] else none, []⟩).calls =
      [.builderAddCriterion, .builderAddHitConnector, .get1SegAutomaton,
        .lengthenSegments, .addCriterion, .doAutomaton, .cleanBadStates,
        .cleanBadConnections, .resetStates, .getTracks]) :=
  ⟨rfl, (C11_automaton_driven_in_order forkingOps ⟨"FTDTrackerHits", "AutTracks", 0, 0⟩
    ⟨fun name => if name = "FTDTrackerHits" then some [1, 2, 3] else none, []⟩ [1, 2, 3]
    rfl).1⟩

/-- C12 as stated fails: `processEvent` writes every candidate of `getTracks`
and runs no subset finder.  On the collection of hits 1, 2, 3, with an
automaton whose candidates are the chains 1-2 and 1-3, both are written,
and the two written tracks share hit 1. -/
theorem C12_counterexample :
    (ForwardTracking.processEvent forkingOps ⟨"FTDTrackerHits", "AutTracks", 0, 0⟩
        ⟨fun name => if name = "FTDTrackerHits" then some [1, 2, 3] else none, []⟩).evt.added
      = [("AutTracks", [[1, 2], [1, 3]])] ∧
    ¬ hitDisjoint [[1, 2], [1, 3]] := by
  constructor
  · rfl
  · unfold hitDisjoint
    simp

/-- Witness of C12 (amended): the collection of hits 1, 2, 3 and the automaton
whose candidates are the chains 1-2 and 1-3, a track being its list of hits. -/
theorem C12_output_is_all_candidates_witness :
    (⟨fun name => if name = "FTDTrackerHits" then some [1, 2, 3] else none, []⟩ :
        LCEvent Nat (List Nat)).getCollection
      (⟨"FTDTrackerHits", "AutTracks", 0, 0⟩ : ForwardTracking)._FTDHitCollection
      = some [1, 2, 3] ∧
    ∃ written : List (List Nat),
      (ForwardTracking.processEvent forkingOps ⟨"FTDTrackerHits", "AutTracks", 0, 0⟩
        ⟨fun name => if name = "FTDTrackerHits" then some [1, 2, 3] else none, []⟩).evt.added
        = [] ++ [("AutTracks", written)] ∧
      written = [[1, 2], [1, 3]] ∧
      (hitDisjoint (written.map id) ↔ hitDisjoint (([[1, 2], [1, 3]] : List (List Nat)).map id)) :=
  ⟨rfl, C12_output_is_all_candidates forkingOps ⟨"FTDTrackerHits", "AutTracks", 0, 0⟩
    ⟨fun name => if name = "FTDTrackerHits" then some [1, 2, 3] else none, []⟩ [1, 2, 3]
    rfl id⟩

/-- Witness of C13: an event without the collection "FTDTrackerHits". -/
theorem C13_missing_collection_witness :
    (⟨fun _ => none, []⟩ : LCEvent Nat (List Nat)).getCollection
      (⟨"FTDTrackerHits", "AutTracks", 0, 7⟩ : ForwardTracking)._FTDHitCollection = none ∧
    ((ForwardTracking.processEvent forkingOps ⟨"FTDTrackerHits", "AutTracks", 0, 7⟩
        ⟨fun _ => none, []⟩).calls = [] ∧
    (ForwardTracking.processEvent forkingOps ⟨"FTDTrackerHits", "AutTracks", 0, 7⟩
        ⟨fun _ => none, []⟩).evt.added = [] ∧
    (ForwardTracking.processEvent forkingOps ⟨"FTDTrackerHits", "AutTracks", 0, 7⟩
        ⟨fun _ => none, []⟩).self._nEvt = 7 + 1) :=
  ⟨rfl, (C13_missing_collection forkingOps ⟨"FTDTrackerHits", "AutTracks", 0, 7⟩
      ⟨fun _ => none, []⟩ rfl).1,
    (C13_missing_collection forkingOps ⟨"FTDTrackerHits", "AutTracks", 0, 7⟩
      ⟨fun _ => none, []⟩ rfl).2.1,
    (C13_missing_collection forkingOps ⟨"FTDTrackerHits", "AutTracks", 0, 7⟩
      ⟨fun _ => none, []⟩ rfl).2.2.2.1⟩

/-! ## TrueTrackCritAnalyser: the loops in closed form -/

section Loops

/-- A loop whose body never faults below the bound folds its steps over the
indices, given fuel for every index. -/
theorem forLoop_fold {σ : Type} (bound : Nat) (body : Nat → σ → Except Fault σ)
    (step : Nat → σ → σ) (hbody : ∀ i s, i < bound → body i s = .ok (step i s)) :
    ∀ (fuel j : Nat) (s : σ), bound ≤ j + fuel →
      forLoop bound body fuel j s
        = .ok ((List.range' j (bound - j)).foldl (fun s i => step i s) s) := by
  intro fuel
  induction fuel with
  | zero =>
    intro j s h
    have hj : ¬ j < bound := by omega
    have h0 : bound - j = 0 := by omega
    simp [forLoop, hj, h0]
  | succ fuel ih =>
    intro j s h
    by_cases hj : j < bound
    · have h1 : bound - j = (bound - (j + 1)) + 1 := by omega
      rw [forLoop, if_pos hj, hbody j s hj]
      simp only []
      rw [ih (j + 1) (step j s) (by omega), h1, List.range'_succ, List.foldl_cons]
    · have h0 : bound - j = 0 := by omega
      simp [forLoop, hj, h0]

/-- Folding "append one element" over indices appends their images. -/
theorem foldl_append_singleton {β : Type} (f : Nat → β) (l : List Nat) (acc : List β) :
    l.foldl (fun s i => s ++ [f i]) acc = acc ++ l.map f := by
  induction l generalizing acc with
  | nil => simp
  | cons i l ih => simp [ih]

/-- An index inside the vector reads the element there. -/
theorem vecAt_eq_getD {α : Type} (v : List α) (i : Nat) (d : α) (h : i < v.length) :
    vecAt v i = .ok (v.getD i d) := by
  simp [vecAt, List.getD, List.getElem?_eq_getElem h]

/-- An index outside the vector faults. -/
theorem vecAt_outOfRange {α : Type} (v : List α) (i : Nat) (h : v.length ≤ i) :
    vecAt v i = .error .outOfRange := by
  simp [vecAt, List.getElem?_eq_none h]

/-- Reading a vector that lists the images of `0, ..., m - 1`. -/
theorem vecAt_map_range {β : Type} (f : Nat → β) (m i : Nat) (h : i < m) :
    vecAt ((List.range' 0 m).map f) i = .ok (f i) := by
  simp [vecAt, List.getElem?_map, List.getElem?_range' _ _ h]

/-- The 1-hit segments in closed form. -/
theorem buildSegments1_eq {H : Type} (hits : List H) (d : H) :
    buildSegments1 hits
      = .ok ((List.range' 0 hits.length).map (fun i => [hits.getD i d])) := by
  unfold buildSegments1
  rw [forLoop_fold hits.length _ (fun i s => s ++ [[hits.getD i d]])
    (fun i s hi => by simp only [vecAt_eq_getD hits i d hi]) _ 0 [] (by omega)]
  simp [foldl_append_singleton]

/-- The 2-hit segments in closed form, for at least one hit. -/
theorem buildSegments2_eq {H : Type} (hits : List H) (d : H) (hn : 1 ≤ hits.length) :
    buildSegments2 hits
      = .ok ((List.range' 0 (hits.length - 1)).map
          (fun i => [hits.getD (i + 1) d, hits.getD i d])) := by
  unfold buildSegments2
  have hb : sizeSub hits.length 1 = hits.length - 1 := by simp [sizeSub, hn]
  rw [hb, forLoop_fold (hits.length - 1) _
    (fun i s => s ++ [[hits.getD (i + 1) d, hits.getD i d]])
    (fun i s hi => by
      simp only [vecAt_eq_getD hits (i + 1) d (by omega), vecAt_eq_getD hits i d (by omega)])
    _ 0 [] (by omega)]
  simp [foldl_append_singleton]

/-- The 3-hit segments in closed form, for at least two hits. -/
theorem buildSegments3_eq {H : Type} (hits : List H) (d : H) (hn : 2 ≤ hits.length) :
    buildSegments3 hits
      = .ok ((List.range' 0 (hits.length - 2)).map
          (fun i => [hits.getD (i + 2) d, hits.getD (i + 1) d, hits.getD i d])) := by
  unfold buildSegments3
  have hb : sizeSub hits.length 2 = hits.length - 2 := by simp [sizeSub, hn]
  rw [hb, forLoop_fold (hits.length - 2) _
    (fun i s => s ++ [[hits.getD (i + 2) d, hits.getD (i + 1) d, hits.getD i d]])
    (fun i s hi => by
      simp only [vecAt_eq_getD hits (i + 2) d (by omega),
        vecAt_eq_getD hits (i + 1) d (by omega), vecAt_eq_getD hits i d (by omega)])
    _ 0 [] (by omega)]
  simp [foldl_append_singleton]

/-- Folding "one row and its calls" over indices appends rows and calls. -/
theorem foldl_rows_calls {H F : Type} (r : Nat → ValueMap F)
    (c : Nat → List (List H × List H)) (l : List Nat) (st : CritLoopState H F) :
    l.foldl (fun s i => ({ rows := s.rows ++ [r i], calls := s.calls ++ c i } :
        CritLoopState H F)) st
      = { rows := st.rows ++ l.map r, calls := st.calls ++ l.flatMap c } := by
  induction l generalizing st with
  | nil => simp
  | cons i l ih => simp [ih]

/-- The loop of the 2-hit criteria in closed form, on the 1-hit segments of at
least one hit. -/
theorem critLoop2_eq {H F : Type} [LinearOrderedField F] (env : AnalyserEnv H F)
    (self : TrueTrackCritAnalyser H F) (pt distToIP : F) (hits : List H) (d : H) (n : Nat)
    (hn : 1 ≤ n) :
    critLoop2 env self pt distToIP ((List.range' 0 n).map (fun i => [hits.getD i d]))
      = .ok
        { rows := (List.range' 0 (n - 1)).map (fun i =>
            critRow2 env self pt distToIP [hits.getD (i + 1) d] [hits.getD i d]
              (hits.getD i d) (hits.getD (i + 1) d))
          calls := (List.range' 0 (n - 1)).flatMap (fun i =>
            self._crits2.map (fun _ => ([hits.getD (i + 1) d], [hits.getD i d]))) } := by
  unfold critLoop2
  have hl : ((List.range' 0 n).map (fun i => [hits.getD i d])).length = n := by simp
  have hb : sizeSub n 1 = n - 1 := by simp [sizeSub, hn]
  rw [hl, hb]
  refine (forLoop_fold (n - 1) _
    (fun i (s : CritLoopState H F) => CritLoopState.mk
      (s.rows ++ [critRow2 env self pt distToIP [hits.getD (i + 1) d]
        [hits.getD i d] (hits.getD i d) (hits.getD (i + 1) d)])
                  (s.calls
                    ++ self._crits2.map (fun _ => ([hits.getD (i + 1) d], [hits.getD i d]))))
    ?_ (n + 1) 0 (⟨[], []⟩ : CritLoopState H F) (by omega)).trans ?_
  · intro i s hi
    simp only [vecAt_map_range (fun i => [hits.getD i d]) n i (by omega),
      vecAt_map_range (fun i => [hits.getD i d]) n (i + 1) (by omega)]
    rfl
  · rw [foldl_rows_calls]
    simp

/-- The loop of the 3-hit criteria in closed form, on the 2-hit segments of at
least two hits. -/
theorem critLoop3_eq {H F : Type} [LinearOrderedField F] (env : AnalyserEnv H F)
    (self : TrueTrackCritAnalyser H F) (pt distToIP : F) (hits : List H) (d : H) (n : Nat)
    (hn : 1 ≤ n) :
    critLoop3 env self pt distToIP
        ((List.range' 0 n).map (fun i => [hits.getD (i + 1) d, hits.getD i d]))
      = .ok
        { rows := (List.range' 0 (n - 1)).map (fun i =>
            critRow3 env self pt distToIP [hits.getD (i + 2) d, hits.getD (i + 1) d]
              [hits.getD (i + 1) d, hits.getD i d]
              (hits.getD i d) (hits.getD (i + 1) d) (hits.getD (i + 2) d))
          calls := (List.range' 0 (n - 1)).flatMap (fun i =>
            self._crits3.map (fun _ => ([hits.getD (i + 2) d, hits.getD (i + 1) d],
              [hits.getD (i + 1) d, hits.getD i d]))) } := by
  unfold critLoop3
  have hl : ((List.range' 0 n).map
      (fun i => [hits.getD (i + 1) d, hits.getD i d])).length = n := by simp
  have hb : sizeSub n 1 = n - 1 := by simp [sizeSub, hn]
  rw [hl, hb]
  refine (forLoop_fold (n - 1) _
    (fun i (s : CritLoopState H F) => CritLoopState.mk (s.rows ++ [critRow3 env self pt distToIP
        [hits.getD (i + 2) d, hits.getD (i + 1) d] [hits.getD (i + 1) d, hits.getD i d]
        (hits.getD i d) (hits.getD (i + 1) d) (hits.getD (i + 2) d)])
                  (s.calls
                    ++ self._crits3.map (fun _ => ([hits.getD (i + 2) d, hits.getD (i + 1) d],
                      [hits.getD (i + 1) d, hits.getD i d]))))
    ?_ (n + 1) 0 (⟨[], []⟩ : CritLoopState H F) (by omega)).trans ?_
  · intro i s hi
    simp only [vecAt_map_range (fun i => [hits.getD (i + 1) d, hits.getD i d]) n i (by omega),
      vecAt_map_range (fun i => [hits.getD (i + 1) d, hits.getD i d]) n (i + 1) (by omega)]
    rfl
  · rw [foldl_rows_calls]
    simp

/-- The loop of the 4-hit criteria in closed form, on the 3-hit segments of at
least three hits. -/
theorem critLoop4_eq {H F : Type} [LinearOrderedField F] (env : AnalyserEnv H F)
    (self : TrueTrackCritAnalyser H F) (pt distToIP : F) (hits : List H) (d : H) (n : Nat)
    (hn : 1 ≤ n) :
    critLoop4 env self pt distToIP
        ((List.range' 0 n).map
          (fun i => [hits.getD (i + 2) d, hits.getD (i + 1) d, hits.getD i d]))
      = .ok
        { rows := (List.range' 0 (n - 1)).map (fun i =>
            critRow4 env self pt distToIP
              [hits.getD (i + 3) d, hits.getD (i + 2) d, hits.getD (i + 1) d]
              [hits.getD (i + 2) d, hits.getD (i + 1) d, hits.getD i d]
              (hits.getD i d) (hits.getD (i + 1) d) (hits.getD (i + 2) d)
              (hits.getD (i + 3) d))
          calls := (List.range' 0 (n - 1)).flatMap (fun i =>
            self._crits4.map (fun _ =>
              ([hits.getD (i + 3) d, hits.getD (i + 2) d, hits.getD (i + 1) d],
                [hits.getD (i + 2) d, hits.getD (i + 1) d, hits.getD i d]))) } := by
  unfold critLoop4
  have hl : ((List.range' 0 n).map
      (fun i => [hits.getD (i + 2) d, hits.getD (i + 1) d, hits.getD i d])).length = n := by
    simp
  have hb : sizeSub n 1 = n - 1 := by simp [sizeSub, hn]
  rw [hl, hb]
  refine (forLoop_fold (n - 1) _
    (fun i (s : CritLoopState H F) => CritLoopState.mk (s.rows ++ [critRow4 env self pt distToIP
        [hits.getD (i + 3) d, hits.getD (i + 2) d, hits.getD (i + 1) d]
        [hits.getD (i + 2) d, hits.getD (i + 1) d, hits.getD i d]
        (hits.getD i d) (hits.getD (i + 1) d) (hits.getD (i + 2) d) (hits.getD (i + 3) d)])
                  (s.calls
                    ++ self._crits4.map (fun _ =>
                      ([hits.getD (i + 3) d, hits.getD (i + 2) d, hits.getD (i + 1) d],
                        [hits.getD (i + 2) d, hits.getD (i + 1) d, hits.getD i d]))))
    ?_ (n + 1) 0 (⟨[], []⟩ : CritLoopState H F) (by omega)).trans ?_
  · intro i s hi
    simp only [
      vecAt_map_range (fun i => [hits.getD (i + 2) d, hits.getD (i + 1) d, hits.getD i d])
        n i (by omega),
      vecAt_map_range (fun i => [hits.getD (i + 2) d, hits.getD (i + 1) d, hits.getD i d])
        n (i + 1) (by omega)]
    rfl
  · rw [foldl_rows_calls]
    simp

/-- Segments and criteria of at least three hits in closed form. -/
theorem analyseHits_eq {H F : Type} [LinearOrderedField F] (env : AnalyserEnv H F)
    (self : TrueTrackCritAnalyser H F) (pt distToIP : F) (hits : List H) (d : H)
    (hn : 3 ≤ hits.length) :
    analyseHits env self pt distToIP hits
      = .ok
        { rows2 := (List.range' 0 (hits.length - 1)).map (fun i =>
            critRow2 env self pt distToIP [hits.getD (i + 1) d] [hits.getD i d]
              (hits.getD i d) (hits.getD (i + 1) d))
          rows3 := (List.range' 0 (hits.length - 2)).map (fun i =>
            critRow3 env self pt distToIP [hits.getD (i + 2) d, hits.getD (i + 1) d]
              [hits.getD (i + 1) d, hits.getD i d]
              (hits.getD i d) (hits.getD (i + 1) d) (hits.getD (i + 2) d))
          rows4 := (List.range' 0 (hits.length - 3)).map (fun i =>
            critRow4 env self pt distToIP
              [hits.getD (i + 3) d, hits.getD (i + 2) d, hits.getD (i + 1) d]
              [hits.getD (i + 2) d, hits.getD (i + 1) d, hits.getD i d]
              (hits.getD i d) (hits.getD (i + 1) d) (hits.getD (i + 2) d)
              (hits.getD (i + 3) d))
          calls2 := (List.range' 0 (hits.length - 1)).flatMap (fun i =>
            self._crits2.map (fun _ => ([hits.getD (i + 1) d], [hits.getD i d])))
          calls3 := (List.range' 0 (hits.length - 2)).flatMap (fun i =>
            self._crits3.map (fun _ => ([hits.getD (i + 2) d, hits.getD (i + 1) d],
              [hits.getD (i + 1) d, hits.getD i d])))
          calls4 := (List.range' 0 (hits.length - 3)).flatMap (fun i =>
            self._crits4.map (fun _ =>
              ([hits.getD (i + 3) d, hits.getD (i + 2) d, hits.getD (i + 1) d],
                [hits.getD (i + 2) d, hits.getD (i + 1) d, hits.getD i d]))) } := by
  unfold analyseHits
  rw [buildSegments1_eq hits d, buildSegments2_eq hits d (by omega),
    buildSegments3_eq hits d (by omega)]
  simp only []
  rw [critLoop2_eq env self pt distToIP hits d hits.length (by omega),
    critLoop3_eq env self pt distToIP hits d (hits.length - 1) (by omega),
    critLoop4_eq env self pt distToIP hits d (hits.length - 2) (by omega)]
  simp only [Nat.sub_sub]

/-- With fewer than three hits the segment building or a criterion loop indexes
outside a vector. -/
theorem analyseHits_fault {H F : Type} [LinearOrderedField F] (env : AnalyserEnv H F)
    (self : TrueTrackCritAnalyser H F) (pt distToIP : F) (hits : List H)
    (hn : hits.length < 3) :
    analyseHits env self pt distToIP hits = .error .outOfRange := by
  match hits, hn with
  | [], _ => rfl
  | [_], _ => rfl
  | [_, _], _ => rfl

/-- A run of `analyseHits` that returns has at least three hits. -/
theorem analyseHits_ok_length {H F : Type} [LinearOrderedField F] (env : AnalyserEnv H F)
    (self : TrueTrackCritAnalyser H F) (pt distToIP : F) (hits : List H)
    (rows : TrackRows H F) (h : analyseHits env self pt distToIP hits = .ok rows) :
    3 ≤ hits.length := by
  by_contra hn
  rw [analyseHits_fault env self pt distToIP hits (by omega)] at h
  cases h

end Loops

/-! ## Claim C15: the layers code -/

section Layers

variable {H F : Type} [LinearOrderedField F]

/-- A hit read with `getElem?` is the hit read with a default. -/
theorem getD_of_getElem? {α : Type} (l : List α) (i : Nat) (x d : α) (h : l[i]? = some x) :
    l.getD i d = x := by
  simp [List.getD, h]

/-- An index that reads a hit lies inside the list. -/
theorem lt_length_of_getElem? {α : Type} (l : List α) (i : Nat) (x : α) (h : l[i]? = some x) :
    i < l.length := by
  by_contra hn
  rw [List.getElem?_eq_none (by omega)] at h
  cases h

/-- Reading the list of the images of `0, ..., m - 1`. -/
theorem getElem?_map_range {β : Type} (f : Nat → β) (m i : Nat) (h : i < m) :
    ((List.range' 0 m).map f)[i]? = some (f i) := by
  simp [List.getElem?_map, List.getElem?_range' _ _ h]

/-- The "layers" entry of a 2-hit row. -/
theorem critRow2_layers (env : AnalyserEnv H F) (self : TrueTrackCritAnalyser H F)
    (pt distToIP : F) (parent child : List H) (childHit parentHit : H) :
    (critRow2 env self pt distToIP parent child childHit parentHit).find "layers"
      = some ((layersCode [env.hit.getLayer childHit, env.hit.getLayer parentHit] : Nat) : F) := by
  unfold critRow2
  simp only []
  rw [ValueMap.find_assign_other _ _ _ _ (by decide), ValueMap.find_assign_same]
  simp [layersCode]

/-- The "layers" entry of a 3-hit row. -/
theorem critRow3_layers (env : AnalyserEnv H F) (self : TrueTrackCritAnalyser H F)
    (pt distToIP : F) (parent child : List H) (c1 c0 p0 : H) :
    (critRow3 env self pt distToIP parent child c1 c0 p0).find "layers"
      = some ((layersCode [env.hit.getLayer c1, env.hit.getLayer c0,
          env.hit.getLayer p0] : Nat) : F) := by
  unfold critRow3
  simp only []
  rw [ValueMap.find_assign_same]
  simp [layersCode]
  ring

/-- The "layers" entry of a 4-hit row. -/
theorem critRow4_layers (env : AnalyserEnv H F) (self : TrueTrackCritAnalyser H F)
    (pt distToIP : F) (parent child : List H) (c2 c1 c0 p0 : H) :
    (critRow4 env self pt distToIP parent child c2 c1 c0 p0).find "layers"
      = some ((layersCode [env.hit.getLayer c2, env.hit.getLayer c1, env.hit.getLayer c0,
          env.hit.getLayer p0] : Nat) : F) := by
  unfold critRow4
  simp only []
  rw [ValueMap.find_assign_same]
  simp [layersCode]
  ring

/-- The code of layers up to 9 has as many digits as there are layers. -/
theorem layersCode_lt (ls : List Nat) (h : ∀ l ∈ ls, l ≤ 9) :
    layersCode ls < 10 ^ ls.length := by
  induction ls with
  | nil => simp [layersCode]
  | cons l rest ih =>
    have h1 : l ≤ 9 := h l (List.mem_cons_self _ _)
    have h2 := ih (fun x hx => h x (List.mem_cons_of_mem _ hx))
    simp only [layersCode, List.length_cons, pow_succ]
    nlinarith [Nat.pow_pos (n := rest.length) (show 0 < 10 by norm_num)]

/-- The code determines layers up to 9. -/
theorem layersCode_injective (ls ls' : List Nat) (hlen : ls.length = ls'.length)
    (h : ∀ l ∈ ls, l ≤ 9) (h' : ∀ l ∈ ls', l ≤ 9) (hc : layersCode ls = layersCode ls') :
    ls = ls' := by
  induction ls generalizing ls' with
  | nil =>
    cases ls' with
    | nil => rfl
    | cons _ _ => simp at hlen
  | cons l rest ih =>
    cases ls' with
    | nil => simp at hlen
    | cons l' rest' =>
      have hlen' : rest.length = rest'.length := by simpa using hlen
      have hr := layersCode_lt rest (fun x hx => h x (List.mem_cons_of_mem _ hx))
      have hr' := layersCode_lt rest' (fun x hx => h' x (List.mem_cons_of_mem _ hx))
      simp only [layersCode] at hc
      rw [← hlen'] at hc hr'
      have hpos : 0 < 10 ^ rest.length := Nat.pow_pos (by norm_num)
      have hl : l = l' := by
        rcases Nat.lt_trichotomy l l' with hlt | heq | hgt
        · have : (l + 1) * 10 ^ rest.length ≤ l' * 10 ^ rest.length :=
            Nat.mul_le_mul_right _ hlt
          nlinarith
        · exact heq
        · have : (l' + 1) * 10 ^ rest.length ≤ l * 10 ^ rest.length :=
            Nat.mul_le_mul_right _ hgt
          nlinarith
      subst hl
      have hrest : layersCode rest = layersCode rest' := by omega
      rw [ih rest' hlen' (fun x hx => h x (List.mem_cons_of_mem _ hx))
        (fun x hx => h' x (List.mem_cons_of_mem _ hx)) hrest]

/-- C15: in every run that records rows, the "layers" value of the 2-, 3- and
4-hit row at position `j` of the hit list is the decimal code of the layers of
the hits `j, j+1, ...` used, the innermost hit in the most significant digit
(the sum of `layer (hits[j+i]) * 10 ^ (k - 1 - i)`), and for layers in 0..9 the
code determines the `k` layers. -/
theorem C15_layers_is_decimal_code (env : AnalyserEnv H F) (self : TrueTrackCritAnalyser H F)
    (pt distToIP : F) (hits : List H) (rows : TrackRows H F)
    (h : analyseHits env self pt distToIP hits = .ok rows) :
    (∀ j h0 h1, hits[j]? = some h0 → hits[j + 1]? = some h1 →
      ∃ row, rows.rows2[j]? = some row ∧
        row.find "layers"
          = some ((layersCode [env.hit.getLayer h0, env.hit.getLayer h1] : Nat) : F)) ∧
    (∀ j h0 h1 h2, hits[j]? = some h0 → hits[j + 1]? = some h1 → hits[j + 2]? = some h2 →
      ∃ row, rows.rows3[j]? = some row ∧
        row.find "layers"
          = some ((layersCode [env.hit.getLayer h0, env.hit.getLayer h1,
              env.hit.getLayer h2] : Nat) : F)) ∧
    (∀ j h0 h1 h2 h3, hits[j]? = some h0 → hits[j + 1]? = some h1 →
      hits[j + 2]? = some h2 → hits[j + 3]? = some h3 →
      ∃ row, rows.rows4[j]? = some row ∧
        row.find "layers"
          = some ((layersCode [env.hit.getLayer h0, env.hit.getLayer h1,
              env.hit.getLayer h2, env.hit.getLayer h3] : Nat) : F)) ∧
    (∀ ls ls' : List Nat, ls.length = ls'.length →
      (∀ l ∈ ls, l ≤ 9) → (∀ l ∈ ls', l ≤ 9) →
      ((layersCode ls : Nat) : F) = ((layersCode ls' : Nat) : F) → ls = ls') := by
  have hn := analyseHits_ok_length env self pt distToIP hits rows h
  refine ⟨?_, ?_, ?_, ?_⟩
  · intro j h0 h1 e0 e1
    rw [analyseHits_eq env self pt distToIP hits h0 hn] at h
    injection h with h
    subst h
    have hj := lt_length_of_getElem? hits (j + 1) h1 e1
    refine ⟨_, getElem?_map_range _ _ j (by omega), ?_⟩
    rw [critRow2_layers, getD_of_getElem? hits j h0 h0 e0,
      getD_of_getElem? hits (j + 1) h1 h0 e1]
  · intro j h0 h1 h2 e0 e1 e2
    rw [analyseHits_eq env self pt distToIP hits h0 hn] at h
    injection h with h
    subst h
    have hj := lt_length_of_getElem? hits (j + 2) h2 e2
    refine ⟨_, getElem?_map_range _ _ j (by omega), ?_⟩
    rw [critRow3_layers, getD_of_getElem? hits j h0 h0 e0,
      getD_of_getElem? hits (j + 1) h1 h0 e1, getD_of_getElem? hits (j + 2) h2 h0 e2]
  · intro j h0 h1 h2 h3 e0 e1 e2 e3
    rw [analyseHits_eq env self pt distToIP hits h0 hn] at h
    injection h with h
    subst h
    have hj := lt_length_of_getElem? hits (j + 3) h3 e3
    refine ⟨_, getElem?_map_range _ _ j (by omega), ?_⟩
    rw [critRow4_layers, getD_of_getElem? hits j h0 h0 e0,
      getD_of_getElem? hits (j + 1) h1 h0 e1, getD_of_getElem? hits (j + 2) h2 h0 e2,
      getD_of_getElem? hits (j + 3) h3 h0 e3]
  · intro ls ls' hlen hl hl' hc
    exact layersCode_injective ls ls' hlen hl hl' (Nat.cast_injective hc)

/-- Witness of C15: the hits 0, 1, 2, 3 on the layers 0, 1, 2, 3. -/
theorem C15_layers_is_decimal_code_witness :
    ∃ rows, analyseHits (numberedHits ℝ Real.sqrt) (defaultAnalyser ℝ) 0 0 [0, 1, 2, 3]
        = .ok rows ∧
      ∃ row, rows.rows2[0]? = some row ∧
        row.find "layers"
          = some ((layersCode [(numberedHits ℝ Real.sqrt).hit.getLayer 0,
              (numberedHits ℝ Real.sqrt).hit.getLayer 1] : Nat) : ℝ) :=
  ⟨_, analyseHits_eq (numberedHits ℝ Real.sqrt) (defaultAnalyser ℝ) 0 0 [0, 1, 2, 3] 0
      (by decide),
    (C15_layers_is_decimal_code (numberedHits ℝ Real.sqrt) (defaultAnalyser ℝ) 0 0
      [0, 1, 2, 3] _
      (analyseHits_eq (numberedHits ℝ Real.sqrt) (defaultAnalyser ℝ) 0 0 [0, 1, 2, 3] 0
        (by decide))).1 0 0 1 rfl rfl⟩

end Layers

/-! ## Claim C16: the pairs handed to the 3-hit and 4-hit criteria -/

section Pairs

variable {H F : Type} [LinearOrderedField F]

/-- In a list without repetition a hit read at an index has that index. -/
theorem indexOf_of_getElem? [DecidableEq H] (hits : List H) (hnd : hits.Nodup) (i : Nat)
    (x : H) (h : hits[i]? = some x) : hits.indexOf x = i := by
  obtain ⟨hi, hx⟩ := List.getElem?_eq_some.mp h
  rw [← hx]
  exact List.indexOf_getElem hnd i hi

/-- In a list without repetition hits read at different indices differ. -/
theorem ne_of_getElem? (hits : List H) (hnd : hits.Nodup) (i j : Nat) (x y : H)
    (hx : hits[i]? = some x) (hy : hits[j]? = some y) (hij : i ≠ j) : x ≠ y := by
  obtain ⟨hi, hx⟩ := List.getElem?_eq_some.mp hx
  obtain ⟨hj, hy⟩ := List.getElem?_eq_some.mp hy
  rw [← hx, ← hy]
  exact fun h => hij ((List.Nodup.getElem_inj_iff hnd).mp h)

/-- A hit read with a default inside the list is read with `getElem?`. -/
theorem getElem?_of_getD (hits : List H) (i : Nat) (d : H) (h : i < hits.length) :
    hits[i]? = some (hits.getD i d) := by
  simp [List.getD, List.getElem?_eq_getElem h]

/-- C16, as amended: for every `(parent, child)` pair of 2-hit or 3-hit
segments that `processEvent` hands to a 3-hit or 4-hit criterion, the two
segments are windows of the inside-out hit list one position apart and share
all but one hit position, the child `hits[j], ..` and the parent
`hits[j+1], ..`, outer hit first: it is the parent that reaches one hit
further outward (its extra hit lies later in the list than every hit of the
child), and the extra hit of the child lies further inward than every hit of
the parent. -/
theorem C16_parent_is_child_shifted_outward [DecidableEq H] (env : AnalyserEnv H F)
    (self : TrueTrackCritAnalyser H F) (pt distToIP : F) (hits : List H)
    (rows : TrackRows H F) (h : analyseHits env self pt distToIP hits = .ok rows)
    (hnd : hits.Nodup) :
    (∀ parent child, (parent, child) ∈ rows.calls3 →
      ∃ j h0 h1 h2, hits[j]? = some h0 ∧ hits[j + 1]? = some h1 ∧ hits[j + 2]? = some h2 ∧
        child = [h1, h0] ∧ parent = [h2, h1] ∧
        extraHitFurtherOutward hits child parent ∧
        ¬ extraHitFurtherOutward hits parent child) ∧
    (∀ parent child, (parent, child) ∈ rows.calls4 →
      ∃ j h0 h1 h2 h3, hits[j]? = some h0 ∧ hits[j + 1]? = some h1 ∧
        hits[j + 2]? = some h2 ∧ hits[j + 3]? = some h3 ∧
        child = [h2, h1, h0] ∧ parent = [h3, h2, h1] ∧
        extraHitFurtherOutward hits child parent ∧
        ¬ extraHitFurtherOutward hits parent child) := by
  have hn := analyseHits_ok_length env self pt distToIP hits rows h
  obtain ⟨d, _⟩ : ∃ d, hits[0]? = some d := ⟨hits[0], List.getElem?_eq_getElem (by omega)⟩
  rw [analyseHits_eq env self pt distToIP hits d hn] at h
  injection h with h
  subst h
  constructor
  · intro parent child hmem
    simp only [List.mem_flatMap, List.mem_map, List.mem_range'_1, Prod.mk.injEq] at hmem
    obtain ⟨j, ⟨_, hj⟩, _, _, hp, hc⟩ := hmem
    have e0 := getElem?_of_getD hits j d (by omega)
    have e1 := getElem?_of_getD hits (j + 1) d (by omega)
    have e2 := getElem?_of_getD hits (j + 2) d (by omega)
    have i0 := indexOf_of_getElem? hits hnd j _ e0
    have i1 := indexOf_of_getElem? hits hnd (j + 1) _ e1
    have i2 := indexOf_of_getElem? hits hnd (j + 2) _ e2
    have n20 := ne_of_getElem? hits hnd (j + 2) j _ _ e2 e0 (by omega)
    have n21 := ne_of_getElem? hits hnd (j + 2) (j + 1) _ _ e2 e1 (by omega)
    refine ⟨j, _, _, _, e0, e1, e2, hc.symm, hp.symm, ?_, ?_⟩
    · rw [← hp, ← hc]
      refine ⟨hits.getD (j + 2) d, List.mem_cons_self _ _, ?_, ?_⟩
      · simp only [List.mem_cons, List.not_mem_nil, or_false, not_or]
        exact ⟨n21, n20⟩
      · intro x hx
        simp only [List.mem_cons, List.mem_singleton, List.not_mem_nil, or_false] at hx
        rcases hx with rfl | rfl <;> omega
    · rw [← hp, ← hc]
      rintro ⟨extra, hex, _, hlt⟩
      have h2 := hlt (hits.getD (j + 2) d) (List.mem_cons_self _ _)
      simp only [List.mem_cons, List.mem_singleton, List.not_mem_nil, or_false] at hex
      rcases hex with rfl | rfl <;> omega
  · intro parent child hmem
    simp only [List.mem_flatMap, List.mem_map, List.mem_range'_1, Prod.mk.injEq] at hmem
    obtain ⟨j, ⟨_, hj⟩, _, _, hp, hc⟩ := hmem
    have e0 := getElem?_of_getD hits j d (by omega)
    have e1 := getElem?_of_getD hits (j + 1) d (by omega)
    have e2 := getElem?_of_getD hits (j + 2) d (by omega)
    have e3 := getElem?_of_getD hits (j + 3) d (by omega)
    have i0 := indexOf_of_getElem? hits hnd j _ e0
    have i1 := indexOf_of_getElem? hits hnd (j + 1) _ e1
    have i2 := indexOf_of_getElem? hits hnd (j + 2) _ e2
    have i3 := indexOf_of_getElem? hits hnd (j + 3) _ e3
    have n30 := ne_of_getElem? hits hnd (j + 3) j _ _ e3 e0 (by omega)
    have n31 := ne_of_getElem? hits hnd (j + 3) (j + 1) _ _ e3 e1 (by omega)
    have n32 := ne_of_getElem? hits hnd (j + 3) (j + 2) _ _ e3 e2 (by omega)
    refine ⟨j, _, _, _, _, e0, e1, e2, e3, hc.symm, hp.symm, ?_, ?_⟩
    · rw [← hp, ← hc]
      refine ⟨hits.getD (j + 3) d, List.mem_cons_self _ _, ?_, ?_⟩
      · simp only [List.mem_cons, List.not_mem_nil, or_false, not_or]
        exact ⟨n32, n31, n30⟩
      · intro x hx
        simp only [List.mem_cons, List.mem_singleton, List.not_mem_nil, or_false] at hx
        rcases hx with rfl | rfl | rfl <;> omega
    · rw [← hp, ← hc]
      rintro ⟨extra, hex, _, hlt⟩
      have h3 := hlt (hits.getD (j + 3) d) (List.mem_cons_self _ _)
      simp only [List.mem_cons, List.mem_singleton, List.not_mem_nil, or_false] at hex
      rcases hex with rfl | rfl | rfl <;> omega

end Pairs

/-- C16 as stated fails.  On the hits 0, 1, 2, 3 a 3-hit criterion is handed
the parent (2, 1) and the child (1, 0): the hit the child has and the parent
has not is hit 0, the innermost of all, not a hit further outward than the
hits of the parent. -/
theorem C16_counterexample :
    ∃ rows, analyseHits (numberedHits ℝ Real.sqrt) (defaultAnalyser ℝ) 0 0 [0, 1, 2, 3]
        = .ok rows ∧
      (([2, 1], [1, 0]) : List Nat × List Nat) ∈ rows.calls3 ∧
      ¬ extraHitFurtherOutward [0, 1, 2, 3] [2, 1] [1, 0] := by
  refine ⟨_, analyseHits_eq (numberedHits ℝ Real.sqrt) (defaultAnalyser ℝ) 0 0 [0, 1, 2, 3] 0
    (by decide), ?_, ?_⟩
  · simp only [List.mem_flatMap, List.mem_map, List.mem_range'_1, Prod.mk.injEq]
    exact ⟨0, by decide, _, List.mem_cons_self _ _, rfl, rfl⟩
  · unfold extraHitFurtherOutward
    decide

/-- Witness of C16 (amended): the hits 0, 1, 2, 3. -/
theorem C16_parent_is_child_shifted_outward_witness :
    ∃ rows, analyseHits (numberedHits ℝ Real.sqrt) (defaultAnalyser ℝ) 0 0 [0, 1, 2, 3]
        = .ok rows ∧
      ([0, 1, 2, 3] : List Nat).Nodup ∧
      ∀ parent child, (parent, child) ∈ rows.calls3 →
        ∃ j h0 h1 h2, ([0, 1, 2, 3] : List Nat)[j]? = some h0 ∧
          ([0, 1, 2, 3] : List Nat)[j + 1]? = some h1 ∧
          ([0, 1, 2, 3] : List Nat)[j + 2]? = some h2 ∧
          child = [h1, h0] ∧ parent = [h2, h1] ∧
          extraHitFurtherOutward [0, 1, 2, 3] child parent ∧
          ¬ extraHitFurtherOutward [0, 1, 2, 3] parent child :=
  ⟨_, analyseHits_eq (numberedHits ℝ Real.sqrt) (defaultAnalyser ℝ) 0 0 [0, 1, 2, 3] 0
      (by decide), by decide,
    (C16_parent_is_child_shifted_outward (numberedHits ℝ Real.sqrt) (defaultAnalyser ℝ) 0 0
      [0, 1, 2, 3] _
      (analyseHits_eq (numberedHits ℝ Real.sqrt) (defaultAnalyser ℝ) 0 0 [0, 1, 2, 3] 0
        (by decide)) (by decide)).1⟩

/-! ## Claim C14: the tracks of interest -/

section Interest

variable {H F : Type} [LinearOrderedField F]

/-- The flag `isOfInterest` stays true exactly when the four bounds hold, the
boundary values included. -/
theorem isOfInterest_iff (env : AnalyserEnv H F) (self : TrueTrackCritAnalyser H F)
    (rel : TrueTrack H F) :
    self.isOfInterest env rel = true ↔
      (env.sqrt (rel.mcp.vertex.1 * rel.mcp.vertex.1 + rel.mcp.vertex.2.1 * rel.mcp.vertex.2.1
          + rel.mcp.vertex.2.2 * rel.mcp.vertex.2.2) ≤ self._distToIPMax ∧
        self._ptMin ≤ env.sqrt (rel.mcp.momentum.1 * rel.mcp.momentum.1
          + rel.mcp.momentum.2.1 * rel.mcp.momentum.2.1) ∧
        self._nHitsMin ≤ (rel.trackerHits.length : Int) ∧
        self._chi2ProbCut ≤ rel.chi2Prob) := by
  simp only [TrueTrackCritAnalyser.isOfInterest]
  split_ifs with h1 h2 h3 h4 <;> simp_all [not_lt, not_le]

/-- A track that fails one of the four tests leaves the data as they are. -/
theorem processRelation_skipped (env : AnalyserEnv H F) (self : TrueTrackCritAnalyser H F)
    (data : AnalyserData F) (rel : TrueTrack H F)
    (h : self.isOfInterest env rel = false) :
    self.processRelation env data rel = .ok data := by
  simp [TrueTrackCritAnalyser.processRelation, h]

end Interest

/-! ## Claim C17: the erasure of close hits -/

section Erasure

variable {H F : Type} [LinearOrderedField F]

/-- The erase loop at the index behind the hits kept so far computes `keepFar`
on the hits still to come, given fuel for each of them. -/
theorem eraseLoop_eq (distTo : H → H → F) (distMin : F) :
    ∀ (post pre : List H) (last : H) (fuel : Nat), post.length ≤ fuel →
      eraseLoop distTo distMin fuel (pre ++ last :: post) (pre.length + 1)
        = .ok (pre ++ last :: keepFar distTo distMin last post) := by
  intro post
  induction post with
  | nil =>
    intro pre last fuel _
    cases fuel <;> simp [eraseLoop, keepFar]
  | cons h t ih =>
    intro pre last fuel hfuel
    obtain ⟨fuel, rfl⟩ : ∃ f, fuel = f + 1 := ⟨fuel - 1, by simp at hfuel; omega⟩
    have hlen : pre.length + 1 < (pre ++ last :: h :: t).length := by simp
    have hA : vecAt (pre ++ last :: h :: t) (unsignedPred (pre.length + 1)) = .ok last := by
      have e : (pre ++ last :: h :: t)[pre.length]? = some last := by
        rw [List.getElem?_append_right (le_refl _)]
        simp
      have hp : unsignedPred (pre.length + 1) = pre.length := by simp [unsignedPred]
      rw [hp, vecAt, e]
    have hB : vecAt (pre ++ last :: h :: t) (pre.length + 1) = .ok h := by
      have e : (pre ++ last :: h :: t)[pre.length + 1]? = some h := by
        rw [List.getElem?_append_right (by omega)]
        simp
      rw [vecAt, e]
    have hpred : unsignedPred (pre.length + 1) + 1 = pre.length + 1 := by
      simp [unsignedPred]
    have herase : (pre ++ last :: h :: t).eraseIdx (pre.length + 1) = pre ++ last :: t := by
      rw [List.eraseIdx_append_of_length_le (by omega)]
      simp
    rw [eraseLoop, if_pos hlen, hA, hB]
    simp only []
    by_cases hd : distTo last h < distMin
    · rw [if_pos hd, herase, hpred, ih pre last fuel (by simp at hfuel; omega)]
      simp [keepFar, hd]
    · rw [if_neg hd]
      have := ih (pre ++ [last]) h fuel (by simp at hfuel; omega)
      simp only [List.length_append, List.length_singleton, List.append_assoc,
        List.singleton_append] at this
      rw [this]
      simp [keepFar, hd]

/-- The erasure of a list that starts with `first` keeps `first` and then the
hits `keepFar` keeps. -/
theorem eraseCloseHits_eq (env : AnalyserEnv H F) (first : H) (rest : List H) :
    eraseCloseHits env (first :: rest)
      = .ok (first :: keepFar env.hit.distTo 5 first rest) := by
  have := eraseLoop_eq env.hit.distTo 5 rest [] first ((first :: rest).length + 1)
    (by simp; omega)
  simpa [eraseCloseHits] using this

/-- The hits kept are a sublist of the hits given. -/
theorem keepFar_sublist (distTo : H → H → F) (distMin : F) (last : H) (l : List H) :
    (keepFar distTo distMin last l).Sublist l := by
  induction l generalizing last with
  | nil => simp [keepFar]
  | cons h t ih =>
    unfold keepFar
    split_ifs
    · exact (ih last).cons h
    · exact (ih h).cons₂ h

/-- Neighbours among the hits kept are at least `distMin` apart. -/
theorem keepFar_chain (distTo : H → H → F) (distMin : F) (last : H) (l : List H) :
    List.Chain (fun a b => distMin ≤ distTo a b) last (keepFar distTo distMin last l) := by
  induction l generalizing last with
  | nil => simp [keepFar]
  | cons h t ih =>
    unfold keepFar
    split_ifs with hd
    · exact ih last
    · exact List.Chain.cons (not_lt.mp hd) (ih h)

/-- Keeping the far hits of the hits kept changes nothing. -/
theorem keepFar_idem (distTo : H → H → F) (distMin : F) (last : H) (l : List H) :
    keepFar distTo distMin last (keepFar distTo distMin last l)
      = keepFar distTo distMin last l := by
  induction l generalizing last with
  | nil => simp [keepFar]
  | cons h t ih =>
    by_cases hd : distTo last h < distMin
    · simp only [keepFar, hd, if_true]
      exact ih last
    · simp only [keepFar, hd, if_false]
      rw [ih h]

/-- C17: for every non-empty hit list the erasure of close hits returns; its
result is a sublist of the input in the order of the input, starts with the
first hit of the input (the virtual hit), has every two neighbours at distance
at least 5 (`distMin`) from each other, and is left as it is by a second
erasure. -/
theorem C17_erasure_keeps_far_hits (env : AnalyserEnv H F) (hits : List H)
    (hne : hits ≠ []) :
    ∃ result, eraseCloseHits env hits = .ok result ∧
      result.Sublist hits ∧
      result.head? = hits.head? ∧
      List.Chain' (fun a b => 5 ≤ env.hit.distTo a b) result ∧
      eraseCloseHits env result = .ok result := by
  obtain ⟨first, rest, rfl⟩ := List.exists_cons_of_ne_nil hne
  refine ⟨first :: keepFar env.hit.distTo 5 first rest, eraseCloseHits_eq env first rest,
    (keepFar_sublist _ _ first rest).cons₂ first, rfl, keepFar_chain _ _ first rest, ?_⟩
  rw [eraseCloseHits_eq, keepFar_idem]

/-- Witness of C17: the hits 0, 1, 2, 3. -/
theorem C17_erasure_keeps_far_hits_witness :
    ([0, 1, 2, 3] : List Nat) ≠ [] ∧
    ∃ result, eraseCloseHits (numberedHits ℝ Real.sqrt) [0, 1, 2, 3] = .ok result ∧
      result.Sublist [0, 1, 2, 3] ∧
      result.head? = ([0, 1, 2, 3] : List Nat).head? ∧
      List.Chain' (fun a b => 5 ≤ (numberedHits ℝ Real.sqrt).hit.distTo a b) result ∧
      eraseCloseHits (numberedHits ℝ Real.sqrt) result = .ok result :=
  ⟨by decide, C17_erasure_keeps_far_hits (numberedHits ℝ Real.sqrt) [0, 1, 2, 3] (by decide)⟩

/-- The erasure of the empty list returns the empty list. -/
theorem eraseCloseHits_nil (env : AnalyserEnv H F) : eraseCloseHits env [] = .ok [] := by
  simp [eraseCloseHits, eraseLoop]

/-- The fuel given to the erase loop is never used up. -/
theorem eraseCloseHits_fuel (env : AnalyserEnv H F) (hits : List H) :
    eraseCloseHits env hits ≠ .error .outOfFuel := by
  cases hits with
  | nil => rw [eraseCloseHits_nil]; exact fun h => by cases h
  | cons first rest => rw [eraseCloseHits_eq]; exact fun h => by cases h

/-- The fuel given to the segment building and to the criterion loops is never
used up. -/
theorem analyseHits_fuel (env : AnalyserEnv H F) (self : TrueTrackCritAnalyser H F)
    (pt distToIP : F) (hits : List H) :
    analyseHits env self pt distToIP hits ≠ .error .outOfFuel := by
  by_cases hn : 3 ≤ hits.length
  · obtain ⟨d, _⟩ : ∃ d, hits[0]? = some d := ⟨hits[0], List.getElem?_eq_getElem (by omega)⟩
    rw [analyseHits_eq env self pt distToIP hits d hn]
    exact fun h => by cases h
  · rw [analyseHits_fault env self pt distToIP hits (by omega)]
    exact fun h => by cases h

end Erasure


/-! ## Claim C22: the erase loop pass by pass -/

section ErasePasses

variable {H F : Type} [LinearOrderedField F]

/-- The erase loop with fuel makes one pass and goes on with the fuel left. -/
theorem eraseLoop_succ (distTo : H → H → F) (distMin : F) (fuel : Nat) (hits : List H)
    (j : Nat) :
    eraseLoop distTo distMin (fuel + 1) hits j =
      match eraseStep distTo distMin hits j with
      | none => .ok hits
      | some (.ok (hits', j')) => eraseLoop distTo distMin fuel hits' j'
      | some (.error e) => .error e := by
  unfold eraseStep
  rw [eraseLoop]
  by_cases hj : j < hits.length
  · simp only [if_pos hj]
    cases vecAt hits (unsignedPred j) with
    | error e => cases vecAt hits j <;> rfl
    | ok hitA =>
      cases vecAt hits j with
      | error e => rfl
      | ok hitB =>
        simp only []
        split_ifs <;> rfl
  · simp only [if_neg hj]

/-- From an index of at least 1 inside the vector, a pass reads two valid
positions and either erases one hit or advances the index. -/
theorem eraseStep_of_pos (distTo : H → H → F) (distMin : F) (hits : List H) (j : Nat)
    (h1 : 1 ≤ j) (hj : j < hits.length) :
    unsignedPred j + 1 = j ∧
    (∃ hitA hitB, vecAt hits (unsignedPred j) = .ok hitA ∧ vecAt hits j = .ok hitB) ∧
    ∃ hits' j', eraseStep distTo distMin hits j = some (.ok (hits', j')) ∧
      ((hits'.length + 1 = hits.length ∧ j' = j) ∨ (hits' = hits ∧ j' = j + 1)) ∧
      hits'.length - j' < hits.length - j := by
  have hp : unsignedPred j = j - 1 := by
    unfold unsignedPred
    rw [if_neg (by omega)]
  have hj1 : j - 1 < hits.length := by omega
  have hA : vecAt hits (unsignedPred j) = .ok hits[j - 1] := by
    rw [hp, vecAt, List.getElem?_eq_getElem hj1]
  have hB : vecAt hits j = .ok hits[j] := by
    rw [vecAt, List.getElem?_eq_getElem hj]
  refine ⟨by omega, ⟨_, _, hA, hB⟩, ?_⟩
  unfold eraseStep
  rw [if_pos hj, hA, hB]
  simp only []
  by_cases hd : distTo hits[j - 1] hits[j] < distMin
  · rw [if_pos hd]
    refine ⟨_, _, rfl, Or.inl ⟨?_, by omega⟩, ?_⟩
    · rw [List.length_eraseIdx, if_pos hj]
      omega
    · rw [List.length_eraseIdx, if_pos hj]
      omega
  · rw [if_neg hd]
    exact ⟨_, _, rfl, Or.inr ⟨rfl, rfl⟩, by omega⟩

/-- The index of the erase loop never falls below 1. -/
theorem EraseReach.one_le (distTo : H → H → F) (distMin : F) (hits0 hits : List H) (j : Nat)
    (h : EraseReach distTo distMin hits0 hits j) : 1 ≤ j := by
  induction h with
  | start => exact le_refl 1
  | step hr hs ih =>
    rename_i hitsA hitsB jA jB
    by_cases hj : jA < hitsA.length
    · obtain ⟨_, _, hits', j', he, hcase, _⟩ := eraseStep_of_pos distTo distMin hitsA jA ih hj
      rw [he] at hs
      injection hs with hs
      injection hs with hs
      injection hs with h1 h2
      subst h2
      rcases hcase with ⟨_, hj'⟩ | ⟨_, hj'⟩
      · omega
      · omega
    · simp [eraseStep, hj] at hs

/-- The erase loop on any list returns, whatever fuel of at least the length of
the list less one it is given. -/
theorem eraseLoop_returns (distTo : H → H → F) (distMin : F) (hits0 : List H) :
    ∃ result, ∀ fuel, hits0.length ≤ fuel + 1 →
      eraseLoop distTo distMin fuel hits0 1 = .ok result := by
  cases hits0 with
  | nil =>
    refine ⟨[], fun fuel _ => ?_⟩
    cases fuel <;> simp [eraseLoop]
  | cons first rest =>
    refine ⟨first :: keepFar distTo distMin first rest, fun fuel hf => ?_⟩
    have := eraseLoop_eq distTo distMin rest [] first fuel (by simp at hf; omega)
    simpa using this

/-- C22: the erase loop terminates for every hit list: it returns with the fuel
`hits.size() + 1` and with any fuel from `hits.size() - 1` on, and it is the
repetition of single passes.  In every state in which it tests its condition
the index `j` is at least 1; when the body runs, `j - 1` does not wrap, `hits[j-1]`
and `hits[j]` are inside the vector, and the pass either erases one hit and
leaves `j` (decremented, then incremented) or leaves the hits and advances `j`,
so that `hits.size() - j` goes down by one. -/
theorem C22_erase_loop_terminates (env : AnalyserEnv H F) (hits0 : List H) :
    (∃ result, eraseCloseHits env hits0 = .ok result ∧
      ∀ fuel, hits0.length ≤ fuel + 1 →
        eraseLoop env.hit.distTo 5 fuel hits0 1 = .ok result) ∧
    (∀ fuel hits j,
      eraseLoop env.hit.distTo 5 (fuel + 1) hits j =
        match eraseStep env.hit.distTo 5 hits j with
        | none => .ok hits
        | some (.ok (hits', j')) => eraseLoop env.hit.distTo 5 fuel hits' j'
        | some (.error e) => .error e) ∧
    (∀ hits j, EraseReach env.hit.distTo 5 hits0 hits j →
      1 ≤ j ∧
      (j < hits.length →
        unsignedPred j + 1 = j ∧
        (∃ hitA hitB, vecAt hits (unsignedPred j) = .ok hitA ∧ vecAt hits j = .ok hitB) ∧
        ∃ hits' j', eraseStep env.hit.distTo 5 hits j = some (.ok (hits', j')) ∧
          ((hits'.length + 1 = hits.length ∧ j' = j) ∨ (hits' = hits ∧ j' = j + 1)) ∧
          hits'.length - j' < hits.length - j)) := by
  refine ⟨?_, fun fuel hits j => eraseLoop_succ env.hit.distTo 5 fuel hits j, ?_⟩
  · obtain ⟨result, hres⟩ := eraseLoop_returns env.hit.distTo 5 hits0
    exact ⟨result, hres (hits0.length + 1) (by omega), hres⟩
  · intro hits j hr
    have h1 := EraseReach.one_le env.hit.distTo 5 hits0 hits j hr
    exact ⟨h1, fun hj => eraseStep_of_pos env.hit.distTo 5 hits j h1 hj⟩

end ErasePasses

/-- Witness of C22: the hits 0, 1, 2, 3. -/
theorem C22_erase_loop_terminates_witness :
    ∃ result, eraseCloseHits (numberedHits ℝ Real.sqrt) [0, 1, 2, 3] = .ok result ∧
      ∀ fuel, ([0, 1, 2, 3] : List Nat).length ≤ fuel + 1 →
        eraseLoop (numberedHits ℝ Real.sqrt).hit.distTo 5 fuel [0, 1, 2, 3] 1 = .ok result :=
  (C22_erase_loop_terminates (numberedHits ℝ Real.sqrt) [0, 1, 2, 3]).1

/-! ## Claim C21: segments and criterion loops on few hits -/

section FewHits

variable {H F : Type} [LinearOrderedField F]

/-- With at least three hits the segment building and the criterion loops
return and record `n - 1`, `n - 2` and `n - 3` rows. -/
theorem analyseHits_row_counts (env : AnalyserEnv H F) (self : TrueTrackCritAnalyser H F)
    (pt distToIP : F) (hits : List H) (hn : 3 ≤ hits.length) :
    ∃ rows, analyseHits env self pt distToIP hits = .ok rows ∧
      rows.rows2.length = hits.length - 1 ∧
      rows.rows3.length = hits.length - 2 ∧
      rows.rows4.length = hits.length - 3 := by
  obtain ⟨d, _⟩ : ∃ d, hits[0]? = some d := ⟨hits[0], List.getElem?_eq_getElem (by omega)⟩
  refine ⟨_, analyseHits_eq env self pt distToIP hits d hn, ?_, ?_, ?_⟩ <;> simp

/-- A track of interest with fewer than three hits left after the erasure ends
with an access outside a vector. -/
theorem processRelation_fault (env : AnalyserEnv H F) (self : TrueTrackCritAnalyser H F)
    (data : AnalyserData F) (rel : TrueTrack H F) (hits : List H)
    (hi : self.isOfInterest env rel = true)
    (he : eraseCloseHits env (env.virtualIPHit :: env.sortHits rel.trackerHits) = .ok hits)
    (hn : hits.length < 3) :
    self.processRelation env data rel = .error .outOfRange := by
  simp only [TrueTrackCritAnalyser.processRelation, hi, if_true, he]
  rw [analyseHits_fault env self _ _ hits hn]

/-- A track of interest with at least three hits left after the erasure is
used: the run returns, the track is counted once, it gets one row of the fit
and `n - 1`, `n - 2` and `n - 3` rows of the criteria. -/
theorem processRelation_used (env : AnalyserEnv H F) (self : TrueTrackCritAnalyser H F)
    (data : AnalyserData F) (rel : TrueTrack H F) (hits : List H)
    (hi : self.isOfInterest env rel = true)
    (he : eraseCloseHits env (env.virtualIPHit :: env.sortHits rel.trackerHits) = .ok hits)
    (hn : 3 ≤ hits.length) :
    ∃ data', self.processRelation env data rel = .ok data' ∧
      data'.nUsedRelations = data.nUsedRelations + 1 ∧
      data'.rootDataVecKalman.length = data.rootDataVecKalman.length + 1 ∧
      data'.rootDataVec2.length = data.rootDataVec2.length + (hits.length - 1) ∧
      data'.rootDataVec3.length = data.rootDataVec3.length + (hits.length - 2) ∧
      data'.rootDataVec4.length = data.rootDataVec4.length + (hits.length - 3) := by
  obtain ⟨rows, hrows, h2, h3, h4⟩ := analyseHits_row_counts env self
    (env.sqrt (rel.mcp.momentum.1 * rel.mcp.momentum.1
      + rel.mcp.momentum.2.1 * rel.mcp.momentum.2.1))
    (env.sqrt (rel.mcp.vertex.1 * rel.mcp.vertex.1 + rel.mcp.vertex.2.1 * rel.mcp.vertex.2.1
      + rel.mcp.vertex.2.2 * rel.mcp.vertex.2.2)) hits hn
  simp only [TrueTrackCritAnalyser.processRelation, hi, if_true, he, hrows]
  refine ⟨_, rfl, rfl, ?_, ?_, ?_, ?_⟩ <;> simp [h2, h3, h4]

end FewHits

/-- C14 fails on the code.  With the default parameters, the true track of the
four hits 500, 501, 502, 503 (vertex at the origin, transverse momentum 1,
chi2 probability 1) meets all four bounds, so `isOfInterest` stays true; the
erasure leaves the virtual hit and hit 500, the 4-hit loop reads `segments3[0]`
outside the vector, and the track is neither counted nor recorded.  The track
of the four hits 100, 200, 300, 400, with the same particle and fit, is used:
it is counted once and gets one row of the fit and 4, 3 and 2 rows of the
criteria. -/
theorem C14_track_of_interest_not_recorded :
    ((Real.sqrt ((0 : ℝ) * 0 + 0 * 0 + 0 * 0) ≤ (defaultAnalyser ℝ)._distToIPMax ∧
        (defaultAnalyser ℝ)._ptMin ≤ Real.sqrt ((1 : ℝ) * 1 + 0 * 0) ∧
        (defaultAnalyser ℝ)._nHitsMin ≤ (([500, 501, 502, 503] : List Nat).length : Int) ∧
        (defaultAnalyser ℝ)._chi2ProbCut ≤ (1 : ℝ)) ∧
      (defaultAnalyser ℝ).isOfInterest (lineHits ℝ Real.sqrt)
        ⟨⟨(0, 0, 0), (1, 0, 0)⟩, [500, 501, 502, 503], 0, 0, 1⟩ = true ∧
      eraseCloseHits (lineHits ℝ Real.sqrt) [0, 500, 501, 502, 503] = .ok [0, 500] ∧
      (defaultAnalyser ℝ).processRelation (lineHits ℝ Real.sqrt) ⟨0, [], [], [], []⟩
        ⟨⟨(0, 0, 0), (1, 0, 0)⟩, [500, 501, 502, 503], 0, 0, 1⟩ = .error .outOfRange) ∧
    ((defaultAnalyser ℝ).isOfInterest (lineHits ℝ Real.sqrt)
        ⟨⟨(0, 0, 0), (1, 0, 0)⟩, [100, 200, 300, 400], 0, 0, 1⟩ = true ∧
      ∃ data', (defaultAnalyser ℝ).processRelation (lineHits ℝ Real.sqrt) ⟨0, [], [], [], []⟩
          ⟨⟨(0, 0, 0), (1, 0, 0)⟩, [100, 200, 300, 400], 0, 0, 1⟩ = .ok data' ∧
        data'.nUsedRelations = 1 ∧
        data'.rootDataVecKalman.length = 1 ∧
        data'.rootDataVec2.length = 4 ∧
        data'.rootDataVec3.length = 3 ∧
        data'.rootDataVec4.length = 2) := by
  have hi1 : (defaultAnalyser ℝ).isOfInterest (lineHits ℝ Real.sqrt)
      ⟨⟨(0, 0, 0), (1, 0, 0)⟩, [500, 501, 502, 503], 0, 0, 1⟩ = true := by
    simp [TrueTrackCritAnalyser.isOfInterest, defaultAnalyser, lineHits]
    norm_num
  have hi2 : (defaultAnalyser ℝ).isOfInterest (lineHits ℝ Real.sqrt)
      ⟨⟨(0, 0, 0), (1, 0, 0)⟩, [100, 200, 300, 400], 0, 0, 1⟩ = true := by
    simp [TrueTrackCritAnalyser.isOfInterest, defaultAnalyser, lineHits]
    norm_num
  have he1 : eraseCloseHits (lineHits ℝ Real.sqrt) [0, 500, 501, 502, 503] = .ok [0, 500] := by
    rw [eraseCloseHits_eq]
    simp [keepFar, lineHits]
    norm_num
  have he2 : eraseCloseHits (lineHits ℝ Real.sqrt) [0, 100, 200, 300, 400]
      = .ok [0, 100, 200, 300, 400] := by
    rw [eraseCloseHits_eq]
    simp [keepFar, lineHits]
    norm_num
  refine ⟨⟨?_, hi1, he1, ?_⟩, hi2, ?_⟩
  · exact (isOfInterest_iff (lineHits ℝ Real.sqrt) (defaultAnalyser ℝ)
      ⟨⟨(0, 0, 0), (1, 0, 0)⟩, [500, 501, 502, 503], 0, 0, 1⟩).mp hi1
  · exact processRelation_fault (lineHits ℝ Real.sqrt) (defaultAnalyser ℝ) _ _ [0, 500] hi1 he1
      (by decide)
  · obtain ⟨data', hrun, h1, h2, h3, h4, h5⟩ :=
      processRelation_used (lineHits ℝ Real.sqrt) (defaultAnalyser ℝ) ⟨0, [], [], [], []⟩
        ⟨⟨(0, 0, 0), (1, 0, 0)⟩, [100, 200, 300, 400], 0, 0, 1⟩ [0, 100, 200, 300, 400]
        hi2 he2 (by decide)
    exact ⟨data', hrun, h1, h2, h3, h4, h5⟩

/-- C21 fails on the code.  With the default parameters, a true track of the
four hits 220, 221, 222, 223 is of interest; after the erasure the virtual hit
and hit 220 are left (`n = 2`), `segments3` is empty, the bound
`segments3.size() - 1` of the 4-hit loop wraps to `2^64 - 1` and `segments3[0]`
lies outside the vector.  For the four hits 1, 2, 3, 4 only the virtual hit is
left (`n = 1`), the bound `hits.size() - 2` wraps and `hits[2]` lies outside
the vector. -/
theorem C21_few_hits_index_out_of_range :
    ((defaultAnalyser ℝ).isOfInterest (lineHits ℝ Real.sqrt)
        ⟨⟨(0, 0, 0), (1, 0, 0)⟩, [220, 221, 222, 223], 0, 0, 1⟩ = true ∧
      eraseCloseHits (lineHits ℝ Real.sqrt) [0, 220, 221, 222, 223] = .ok [0, 220] ∧
      buildSegments3 ([0, 220] : List Nat) = .ok [] ∧
      sizeSub ([] : List (List Nat)).length 1 = 2 ^ 64 - 1 ∧
      critLoop4 (lineHits ℝ Real.sqrt) (defaultAnalyser ℝ) 1 0 [] = .error .outOfRange ∧
      (defaultAnalyser ℝ).processRelation (lineHits ℝ Real.sqrt) ⟨0, [], [], [], []⟩
        ⟨⟨(0, 0, 0), (1, 0, 0)⟩, [220, 221, 222, 223], 0, 0, 1⟩ = .error .outOfRange) ∧
    ((defaultAnalyser ℝ).isOfInterest (lineHits ℝ Real.sqrt)
        ⟨⟨(0, 0, 0), (1, 0, 0)⟩, [1, 2, 3, 4], 0, 0, 1⟩ = true ∧
      eraseCloseHits (lineHits ℝ Real.sqrt) [0, 1, 2, 3, 4] = .ok [0] ∧
      sizeSub ([0] : List Nat).length 2 = 2 ^ 64 - 1 ∧
      buildSegments3 ([0] : List Nat) = .error .outOfRange ∧
      (defaultAnalyser ℝ).processRelation (lineHits ℝ Real.sqrt) ⟨0, [], [], [], []⟩
        ⟨⟨(0, 0, 0), (1, 0, 0)⟩, [1, 2, 3, 4], 0, 0, 1⟩ = .error .outOfRange) := by
  have hi1 : (defaultAnalyser ℝ).isOfInterest (lineHits ℝ Real.sqrt)
      ⟨⟨(0, 0, 0), (1, 0, 0)⟩, [220, 221, 222, 223], 0, 0, 1⟩ = true := by
    simp [TrueTrackCritAnalyser.isOfInterest, defaultAnalyser, lineHits]
    norm_num
  have hi2 : (defaultAnalyser ℝ).isOfInterest (lineHits ℝ Real.sqrt)
      ⟨⟨(0, 0, 0), (1, 0, 0)⟩, [1, 2, 3, 4], 0, 0, 1⟩ = true := by
    simp [TrueTrackCritAnalyser.isOfInterest, defaultAnalyser, lineHits]
    norm_num
  have he1 : eraseCloseHits (lineHits ℝ Real.sqrt) [0, 220, 221, 222, 223] = .ok [0, 220] := by
    rw [eraseCloseHits_eq]
    simp [keepFar, lineHits]
    norm_num
  have he2 : eraseCloseHits (lineHits ℝ Real.sqrt) [0, 1, 2, 3, 4] = .ok [0] := by
    rw [eraseCloseHits_eq]
    simp [keepFar, lineHits]
    norm_num
  refine ⟨⟨hi1, he1, rfl, rfl, rfl, ?_⟩, hi2, he2, rfl, rfl, ?_⟩
  · exact processRelation_fault (lineHits ℝ Real.sqrt) (defaultAnalyser ℝ) _ _ [0, 220] hi1 he1
      (by decide)
  · exact processRelation_fault (lineHits ℝ Real.sqrt) (defaultAnalyser ℝ) _ _ [0] hi2 he2
      (by decide)

/-! ## Rounding to `float` and `double` -/

section RoundingLemmas

variable {F : Type} [LinearOrderedField F] [FloorRing F]

/-- The nearest integer is within one half. -/
theorem roundHalfEven_sub_le (q : F) : |((roundHalfEven q : Int) : F) - q| ≤ 1 / 2 := by
  have h1 : ((⌊q⌋ : Int) : F) ≤ q := Int.floor_le q
  have h2 : q < (⌊q⌋ : F) + 1 := Int.lt_floor_add_one q
  unfold roundHalfEven
  simp only []
  rw [abs_le]
  split_ifs with ha hb hc
  · constructor <;> linarith
  · push_cast
    constructor <;> linarith
  · have : q - (⌊q⌋ : F) = 1 / 2 := le_antisymm (not_lt.mp hb) (not_lt.mp ha)
    constructor <;> linarith
  · have : q - (⌊q⌋ : F) = 1 / 2 := le_antisymm (not_lt.mp hb) (not_lt.mp ha)
    push_cast
    constructor <;> linarith

/-- An integer is its own nearest integer. -/
theorem roundHalfEven_intCast (n : Int) : roundHalfEven (n : F) = n := by
  unfold roundHalfEven
  simp

/-- The binade of a number between two consecutive powers of two. -/
theorem log_two_abs_eq (x : F) (k : Int) (hlo : (2 : F) ^ k ≤ |x|) (hhi : |x| < (2 : F) ^ (k + 1)) :
    Int.log 2 |x| = k := by
  have hpos : 0 < |x| := lt_of_lt_of_le (zpow_pos (by norm_num) k) hlo
  have h1 : k ≤ Int.log 2 |x| := by
    rw [← Int.zpow_le_iff_le_log (by norm_num) hpos]
    simpa using hlo
  have h2 : Int.log 2 |x| < k + 1 := by
    rw [← Int.lt_zpow_iff_log_lt (by norm_num) hpos]
    simpa using hhi
  omega

/-- The rounding of a number of a known binade. -/
theorem roundToPrec_eq (p : Nat) (x : F) (k n : Int) (hlo : (2 : F) ^ k ≤ |x|)
    (hhi : |x| < (2 : F) ^ (k + 1))
    (hn : roundHalfEven (x / 2 ^ (k - ((p : Int) - 1))) = n) :
    roundToPrec p x = (n : F) * 2 ^ (k - ((p : Int) - 1)) := by
  have hpos : 0 < |x| := lt_of_lt_of_le (zpow_pos (by norm_num) k) hlo
  have hx : x ≠ 0 := abs_pos.mp hpos
  unfold roundToPrec
  rw [if_neg hx]
  simp only []
  rw [log_two_abs_eq x k hlo hhi, hn]

/-- Zero is rounded to zero. -/
theorem roundToPrec_zero (p : Nat) : roundToPrec p (0 : F) = 0 := by
  simp [roundToPrec]

/-- The rounding error is at most the unit roundoff times the magnitude. -/
theorem roundToPrec_err (p : Nat) (x : F) : |roundToPrec p x - x| ≤ |x| / 2 ^ p := by
  by_cases hx : x = 0
  · simp [hx, roundToPrec]
  have hpos : 0 < |x| := abs_pos.mpr hx
  unfold roundToPrec
  rw [if_neg hx]
  simp only []
  obtain ⟨e, he⟩ : ∃ e : Int, e = Int.log 2 |x| - ((p : Int) - 1) := ⟨_, rfl⟩
  rw [← he]
  have h2e : (0 : F) < 2 ^ e := zpow_pos (by norm_num) e
  have hq := roundHalfEven_sub_le (x / 2 ^ e)
  have hlog : (2 : F) ^ (Int.log 2 |x|) ≤ |x| := by
    simpa using Int.zpow_log_le_self (b := 2) (by norm_num) hpos
  have hsplit : (2 : F) ^ (Int.log 2 |x|) = 2 ^ e * 2 ^ p / 2 := by
    have : Int.log 2 |x| = e + ((p : Int) - 1) := by omega
    rw [this, zpow_add₀ (by norm_num), zpow_sub₀ (by norm_num), zpow_natCast, zpow_one]
    ring
  have hdiff : (roundHalfEven (x / 2 ^ e) : F) * 2 ^ e - x
      = ((roundHalfEven (x / 2 ^ e) : F) - x / 2 ^ e) * 2 ^ e := by
    field_simp
  rw [hdiff, abs_mul, abs_of_pos h2e, le_div_iff₀ (by positivity)]
  rw [hsplit] at hlog
  have h2p : (0 : F) < 2 ^ p := by positivity
  calc |(roundHalfEven (x / 2 ^ e) : F) - x / 2 ^ e| * 2 ^ e * 2 ^ p
      ≤ 1 / 2 * 2 ^ e * 2 ^ p := by gcongr
    _ = 2 ^ e * 2 ^ p / 2 := by ring
    _ ≤ |x| := hlog

/-- A number with at most `p` significant bits is its own rounding. -/
theorem roundToPrec_exact (p : Nat) (m j : Int) (h : |m| < 2 ^ p) :
    roundToPrec p ((m : F) * 2 ^ j) = (m : F) * 2 ^ j := by
  by_cases hm : m = 0
  · simp [hm, roundToPrec]
  have h2j : (0 : F) < 2 ^ j := zpow_pos (by norm_num) j
  have hmF : (m : F) ≠ 0 := Int.cast_ne_zero.mpr hm
  have hx : (m : F) * 2 ^ j ≠ 0 := mul_ne_zero hmF h2j.ne'
  have hpos : 0 < |(m : F) * 2 ^ j| := abs_pos.mpr hx
  have habs : |(m : F) * 2 ^ j| < (2 : F) ^ ((p : Int) + j) := by
    rw [abs_mul, abs_of_pos h2j, zpow_add₀ (by norm_num), zpow_natCast]
    have : |(m : F)| < 2 ^ p := by exact_mod_cast h
    exact mul_lt_mul_of_pos_right this h2j
  have hk : Int.log 2 |(m : F) * 2 ^ j| < (p : Int) + j := by
    rw [← Int.lt_zpow_iff_log_lt (by norm_num) hpos]
    simpa using habs
  unfold roundToPrec
  rw [if_neg hx]
  simp only []
  obtain ⟨e, he⟩ : ∃ e : Int, e = Int.log 2 |(m : F) * 2 ^ j| - ((p : Int) - 1) := ⟨_, rfl⟩
  rw [← he]
  obtain ⟨d, hd⟩ : ∃ d : Nat, (d : Int) = j - e := ⟨(j - e).toNat, Int.toNat_of_nonneg (by omega)⟩
  have hq : (m : F) * 2 ^ j / 2 ^ e = ((m * 2 ^ d : Int) : F) := by
    rw [← mul_div_assoc', ← zpow_sub₀ (by norm_num), ← hd]
    push_cast
    rw [zpow_natCast]
  rw [hq, roundHalfEven_intCast]
  push_cast
  rw [mul_assoc, ← zpow_natCast, ← zpow_add₀ (by norm_num), hd]
  congr 2
  omega

/-- An integer below `2^p` in magnitude is its own rounding. -/
theorem roundToPrec_intCast (p : Nat) (m : Int) (h : |m| < 2 ^ p) :
    roundToPrec p (m : F) = (m : F) := by
  simpa using roundToPrec_exact (F := F) p m 0 h

/-- The rounding of a positive number is positive. -/
theorem roundToPrec_pos (p : Nat) (hp : 1 ≤ p) (x : F) (hx : 0 < x) : 0 < roundToPrec p x := by
  have h := roundToPrec_err p x
  rw [abs_of_pos hx] at h
  have h2 : (2 : F) ≤ 2 ^ p := by
    calc (2 : F) = 2 ^ 1 := by norm_num
      _ ≤ 2 ^ p := pow_le_pow_right₀ (by norm_num) hp
  have h3 : x / 2 ^ p ≤ x / 2 := div_le_div_of_nonneg_left hx.le (by norm_num) h2
  have h4 := (abs_le.mp (h.trans h3)).1
  linarith

/-- The rounding of a negative number is negative. -/
theorem roundToPrec_neg (p : Nat) (hp : 1 ≤ p) (x : F) (hx : x < 0) : roundToPrec p x < 0 := by
  have h := roundToPrec_err p x
  rw [abs_of_neg hx] at h
  have h2 : (2 : F) ≤ 2 ^ p := by
    calc (2 : F) = 2 ^ 1 := by norm_num
      _ ≤ 2 ^ p := pow_le_pow_right₀ (by norm_num) hp
  have h3 : -x / 2 ^ p ≤ -x / 2 := div_le_div_of_nonneg_left (by linarith) (by norm_num) h2
  have h4 := (abs_le.mp (h.trans h3)).2
  linarith

/-- The nearest integer of a number closer than one half to `n` is `n`. -/
theorem roundHalfEven_of_near (q : F) (n : Int) (h : |q - n| < 1 / 2) : roundHalfEven q = n := by
  rw [abs_lt] at h
  unfold roundHalfEven
  simp only []
  by_cases hq : (n : F) ≤ q
  · have hf : ⌊q⌋ = n := Int.floor_eq_iff.mpr ⟨hq, by linarith⟩
    rw [hf, if_pos (by linarith)]
  · have hf : ⌊q⌋ = n - 1 := Int.floor_eq_iff.mpr ⟨by push_cast; linarith, by push_cast; linarith⟩
    rw [hf]
    push_cast
    rw [if_neg (by linarith), if_pos (by linarith)]
    ring

/-- The rounding of a number of a known binade, away from a tie. -/
theorem roundToPrec_of_near (p : Nat) (x : F) (k n : Int) (hlo : (2 : F) ^ k ≤ |x|)
    (hhi : |x| < (2 : F) ^ (k + 1))
    (h : |x / 2 ^ (k - ((p : Int) - 1)) - n| < 1 / 2) :
    roundToPrec p x = (n : F) * 2 ^ (k - ((p : Int) - 1)) :=
  roundToPrec_eq p x k n hlo hhi (roundHalfEven_of_near _ n h)

end RoundingLemmas

/-! ## The criterion in rounded arithmetic: unfolding -/

section RoundedModel

variable {G : Type} [LinearOrderedField G]

/-- The verdict of the rounded `areCompatible` on two 2-hit segments. -/
theorem areCompatibleRounded_result_two (r : Rounding G) (m : MathOps G)
    (self : Crit3_2DAngle G) (parent child : Segment G) (a b b' c : AutHit G)
    (hp : parent.autHits = [a, b]) (hc : child.autHits = [b', c]) :
    (self.areCompatibleRounded r m parent child).result =
      .ok (if denomSquaredRounded r a b c > 0 then
              decide (¬ cosThetaSquaredRounded r a b c
                          < r.toMember (self._cosAngleMin * self._cosAngleMin) ∧
                      ¬ cosThetaSquaredRounded r a b c
                          > r.toMember (self._cosAngleMax * self._cosAngleMax))
           else true) := by
  simp only [Crit3_2DAngle.areCompatibleRounded, hp, hc, denomSquaredRounded,
    cosThetaSquaredRounded, dotXYRounded, diffXYRounded]
  split_ifs <;> simp_all

/-- The criterion object after the rounded `areCompatible` on two 2-hit
segments. -/
theorem areCompatibleRounded_self_two (r : Rounding G) (m : MathOps G)
    (self : Crit3_2DAngle G) (parent child : Segment G) (a b b' c : AutHit G)
    (hp : parent.autHits = [a, b]) (hc : child.autHits = [b', c]) :
    (self.areCompatibleRounded r m parent child).self =
      { self with
        _map_name_value :=
          if denomSquaredRounded r a b c > 0 then
            if self._saveValues then
              (((saveNeutral self).assign "2DAngle_cos2DAngleSquared"
                  (r.toFloat (cosThetaSquaredRounded r a b c))).assign
                "2DAngle_2DAngle" (recordedAngle r m (cosThetaSquaredRounded r a b c)))
            else saveNeutral self
          else saveNeutral self } := by
  simp only [Crit3_2DAngle.areCompatibleRounded, hp, hc, denomSquaredRounded,
    cosThetaSquaredRounded, dotXYRounded, diffXYRounded, recordedAngle]
  split_ifs <;> rfl

/-- The values in the map after the rounded `areCompatible` with
instrumentation on. -/
theorem areCompatibleRounded_recorded (r : Rounding G) (m : MathOps G)
    (self : Crit3_2DAngle G) (parent child : Segment G) (a b b' c : AutHit G)
    (hp : parent.autHits = [a, b]) (hc : child.autHits = [b', c])
    (hs : self._saveValues = true) :
    ((self.areCompatibleRounded r m parent child).self.getMapOfValues.find
        "2DAngle_cos2DAngleSquared"
        = some (if denomSquaredRounded r a b c > 0 then
            r.toFloat (cosThetaSquaredRounded r a b c) else 1)) ∧
    ((self.areCompatibleRounded r m parent child).self.getMapOfValues.find "2DAngle_2DAngle"
        = some (if denomSquaredRounded r a b c > 0 then
            recordedAngle r m (cosThetaSquaredRounded r a b c) else 0)) := by
  rw [areCompatibleRounded_self_two r m self parent child a b b' c hp hc]
  simp only [Crit3_2DAngle.getMapOfValues, saveNeutral, hs, if_true]
  split_ifs with hd
  · exact ⟨by rw [ValueMap.find_assign_other _ _ _ _ keys_ne, ValueMap.find_assign_same],
      ValueMap.find_assign_same _ _ _⟩
  · exact ⟨by rw [ValueMap.find_assign_other _ _ _ _ keys_ne, ValueMap.find_assign_same],
      ValueMap.find_assign_same _ _ _⟩

/-- With the roundings of exact arithmetic the rounded constructor is the
constructor of the exact embedding. -/
theorem newRounded_exact (m : MathOps G) (angleMin angleMax : G) :
    Crit3_2DAngle.newRounded (Rounding.exact G) m angleMin angleMax
      = Crit3_2DAngle.new m angleMin angleMax := rfl

/-- With the roundings of exact arithmetic the rounded `areCompatible` is the
`areCompatible` of the exact embedding. -/
theorem areCompatibleRounded_exact (m : MathOps G) (self : Crit3_2DAngle G)
    (parent child : Segment G) :
    self.areCompatibleRounded (Rounding.exact G) m parent child
      = self.areCompatible m parent child := by
  unfold Crit3_2DAngle.areCompatibleRounded Crit3_2DAngle.areCompatible Rounding.exact
  rfl

end RoundedModel

/-! ## The IEEE roundings are accurate -/

section Accuracy

/-- The rounding of a number of [0, 1] stays in [0, 1]. -/
theorem roundToPrec_mem_unit {F : Type} [LinearOrderedField F] [FloorRing F] (p : Nat)
    (hp : 1 ≤ p) (x : F) (h0 : 0 ≤ x) (h1 : x ≤ 1) :
    0 ≤ roundToPrec p x ∧ roundToPrec p x ≤ 1 := by
  have hone : roundToPrec p (1 : F) = 1 := by
    have h : |(1 : Int)| < 2 ^ p := by
      rw [abs_one]
      exact_mod_cast Nat.one_lt_two_pow (by omega)
    simpa using roundToPrec_intCast (F := F) p 1 h
  rcases h0.eq_or_lt with rfl | hpos
  · rw [roundToPrec_zero]
    exact ⟨le_refl 0, zero_le_one⟩
  refine ⟨(roundToPrec_pos p hp x hpos).le, ?_⟩
  rcases h1.eq_or_lt with rfl | hlt
  · rw [hone]
  have hx : x ≠ 0 := hpos.ne'
  have habs : |x| = x := abs_of_pos hpos
  have hL : Int.log 2 |x| < 0 := by
    rw [← Int.lt_zpow_iff_log_lt (by norm_num) (abs_pos.mpr hx), habs]
    simpa using hlt
  have hup : |x| < (2 : F) ^ (Int.log 2 |x| + 1) := by
    simpa using Int.lt_zpow_succ_log_self (b := 2) (by norm_num) |x|
  unfold roundToPrec
  rw [if_neg hx]
  simp only []
  obtain ⟨e, he⟩ : ∃ e : Int, e = Int.log 2 |x| - ((p : Int) - 1) := ⟨_, rfl⟩
  rw [← he]
  have h2e : (0 : F) < 2 ^ e := zpow_pos (by norm_num) e
  have hsplit : (2 : F) ^ (Int.log 2 |x| + 1) = 2 ^ p * 2 ^ e := by
    have : Int.log 2 |x| + 1 = (p : Int) + e := by omega
    rw [this, zpow_add₀ (by norm_num), zpow_natCast]
  have hq : x / 2 ^ e < 2 ^ p := by
    rw [div_lt_iff₀ h2e, ← hsplit]
    calc x = |x| := habs.symm
      _ < _ := hup
  have hn := (abs_le.mp (roundHalfEven_sub_le (x / 2 ^ e))).2
  have hnle : roundHalfEven (x / 2 ^ e) ≤ 2 ^ p := by
    have h3 : ((roundHalfEven (x / 2 ^ e) : Int) : F) < ((2 ^ p + 1 : Int) : F) := by
      push_cast
      linarith
    have h4 := Int.cast_lt.mp h3
    omega
  have hnF : ((roundHalfEven (x / 2 ^ e) : Int) : F) ≤ 2 ^ p := by exact_mod_cast hnle
  calc ((roundHalfEven (x / 2 ^ e) : Int) : F) * 2 ^ e ≤ 2 ^ p * 2 ^ e :=
        mul_le_mul_of_nonneg_right hnF h2e.le
    _ = (2 : F) ^ (Int.log 2 |x| + 1) := hsplit.symm
    _ ≤ 2 ^ (0 : Int) := zpow_le_zpow_right₀ (by norm_num) (by omega)
    _ = 1 := zpow_zero 2

/-- One is its own rounding. -/
theorem roundToPrec_one {F : Type} [LinearOrderedField F] [FloorRing F] (p : Nat)
    (hp : 1 ≤ p) : roundToPrec p (1 : F) = 1 := by
  have h : |(1 : Int)| < 2 ^ p := by
    rw [abs_one]
    exact_mod_cast Nat.one_lt_two_pow (by omega)
  simpa using roundToPrec_intCast (F := F) p 1 h

/-- The IEEE roundings are accurate, whether the data members are `float` or
more precise. -/
theorem ieee_accurate (memberBits : Nat) (hb : 24 ≤ memberBits) :
    (ieee ℝ memberBits).Accurate where
  toFloat_err := fun x => roundToPrec_err 24 x
  toDouble_err := fun x => roundToPrec_err 53 x
  toMember_err := fun x =>
    (roundToPrec_err memberBits x).trans
      (div_le_div_of_nonneg_left (abs_nonneg x) (by positivity)
        (pow_le_pow_right₀ (by norm_num) hb))
  toDouble_one := roundToPrec_one 53 (by norm_num)
  toMember_one := roundToPrec_one memberBits (by omega)

/-- The constant `M_PI` is within `2^-51` of pi, and below it. -/
theorem M_PI_bounds : M_PI ℝ < Real.pi ∧ Real.pi - M_PI ℝ ≤ 1 / 2 ^ 51 := by
  have h1 := Real.pi_gt_d20
  have h2 := Real.pi_lt_d20
  norm_num at h1 h2
  unfold M_PI
  constructor
  · norm_num
    linarith
  · norm_num
    linarith

/-- The correctly rounded functions of `<cmath>` are accurate. -/
theorem inDouble_accurate :
    (MathOps.inDouble ⟨Real.cos, Real.arccos, Real.sqrt, Real.pi⟩).Accurate where
  cos_err := fun x => by
    show |roundToPrec 53 (Real.cos x) - Real.cos x| ≤ 1 / 2 ^ 52
    have h := roundToPrec_err 53 (Real.cos x)
    have h1 : |Real.cos x| ≤ 1 := Real.abs_cos_le_one x
    calc |roundToPrec 53 (Real.cos x) - Real.cos x| ≤ |Real.cos x| / 2 ^ 53 := h
      _ ≤ 1 / 2 ^ 53 := div_le_div_of_nonneg_right h1 (by positivity)
      _ ≤ 1 / 2 ^ 52 := by norm_num
  cos_zero := by
    show roundToPrec 53 (Real.cos 0) = 1
    rw [Real.cos_zero]
    exact roundToPrec_one 53 (by norm_num)
  pi_err := by
    show |M_PI ℝ - Real.pi| ≤ 1 / 2 ^ 51
    rw [abs_sub_comm, abs_of_pos (sub_pos.mpr M_PI_bounds.1)]
    exact M_PI_bounds.2
  sqrt_err := fun x h0 h1 => by
    show |roundToPrec 53 (Real.sqrt x) - Real.sqrt x| ≤ 1 / 2 ^ 52
    have h := roundToPrec_err 53 (Real.sqrt x)
    have h2 : |Real.sqrt x| ≤ 1 := by
      rw [abs_of_nonneg (Real.sqrt_nonneg x)]
      exact Real.sqrt_le_one.mpr h1
    calc |roundToPrec 53 (Real.sqrt x) - Real.sqrt x| ≤ |Real.sqrt x| / 2 ^ 53 := h
      _ ≤ 1 / 2 ^ 53 := div_le_div_of_nonneg_right h2 (by positivity)
      _ ≤ 1 / 2 ^ 52 := by norm_num
  sqrt_mem := fun x _ h1 =>
    roundToPrec_mem_unit 53 (by norm_num) (Real.sqrt x) (Real.sqrt_nonneg x)
      (Real.sqrt_le_one.mpr h1)
  acos_err := fun y _ _ => by
    show |roundToPrec 53 (Real.arccos y) - Real.arccos y| ≤ 1 / 2 ^ 50
    have h := roundToPrec_err 53 (Real.arccos y)
    have h2 : |Real.arccos y| ≤ 4 := by
      rw [abs_of_nonneg (Real.arccos_nonneg y)]
      exact (Real.arccos_le_pi y).trans (by linarith [Real.pi_lt_four])
    calc |roundToPrec 53 (Real.arccos y) - Real.arccos y| ≤ |Real.arccos y| / 2 ^ 53 := h
      _ ≤ 4 / 2 ^ 53 := div_le_div_of_nonneg_right h2 (by positivity)
      _ ≤ 1 / 2 ^ 50 := by norm_num

end Accuracy

/-! ## Angles a tenth of a degree apart -/

section Trig

open Real

/-- The sine is bounded by its argument. -/
theorem abs_sin_le_abs (t : ℝ) : |sin t| ≤ |t| := by
  have key : ∀ s : ℝ, 0 ≤ s → |sin s| ≤ s := by
    intro s hs
    rw [abs_le]
    constructor
    · by_cases hpi : s ≤ π
      · linarith [Real.sin_nonneg_of_nonneg_of_le_pi hs hpi]
      · linarith [Real.neg_one_le_sin s, Real.pi_gt_three]
    · exact Real.sin_le hs
  rcases le_total 0 t with h | h
  · rw [abs_of_nonneg h]
    exact key t h
  · have := key (-t) (by linarith)
    rw [Real.sin_neg, abs_neg] at this
    rw [abs_of_nonpos h]
    exact this

/-- The cosine is 1-Lipschitz. -/
theorem abs_cos_sub_cos_le (x y : ℝ) : |cos x - cos y| ≤ |x - y| := by
  rw [Real.cos_sub_cos, abs_mul, abs_mul]
  have h1 : |sin ((x + y) / 2)| ≤ 1 := Real.abs_sin_le_one _
  have h2 : |sin ((x - y) / 2)| ≤ |(x - y) / 2| := abs_sin_le_abs _
  have h3 : |(x - y) / 2| = |x - y| / 2 := by rw [abs_div]; norm_num
  have h4 : |(-2 : ℝ)| = 2 := by norm_num
  rw [h4]
  have h5 : 0 ≤ |sin ((x + y) / 2)| := abs_nonneg _
  have h6 : 0 ≤ |sin ((x - y) / 2)| := abs_nonneg _
  nlinarith

/-- The difference of two squared cosines as a product of sines. -/
theorem cos_sq_sub_cos_sq (x y : ℝ) : cos x ^ 2 - cos y ^ 2 = sin (x + y) * sin (y - x) := by
  rw [Real.sin_add, Real.sin_sub]
  have hx := Real.sin_sq_add_cos_sq x
  have hy := Real.sin_sq_add_cos_sq y
  linear_combination -(cos x ^ 2) * hy + (cos y ^ 2) * hx

/-- Two angles of [0, pi/2] that are `tau` apart have squared cosines that are
`sin tau ^ 2` apart. -/
theorem cos_sq_gap (x y τ : ℝ) (hx : 0 ≤ x) (hτ : 0 ≤ τ) (hxy : x + τ ≤ y) (hy : y ≤ π / 2) :
    sin τ ^ 2 ≤ cos x ^ 2 - cos y ^ 2 := by
  have hpi : 0 < π := Real.pi_pos
  have h1 : sin τ ≤ sin (y - x) :=
    Real.sin_le_sin_of_le_of_le_pi_div_two (by linarith) (by linarith) (by linarith)
  have h0 : 0 ≤ sin τ := Real.sin_nonneg_of_nonneg_of_le_pi hτ (by linarith)
  have h2 : sin (y - x) ≤ sin (x + y) := by
    by_cases hs : x + y ≤ π / 2
    · exact Real.sin_le_sin_of_le_of_le_pi_div_two (by linarith) hs (by linarith)
    · rw [← Real.sin_pi_sub (x + y)]
      exact Real.sin_le_sin_of_le_of_le_pi_div_two (by linarith) (by linarith) (by linarith)
  rw [cos_sq_sub_cos_sq]
  nlinarith

/-- A tenth of a degree: `sin (pi / 1800) ^ 2` is at least `3 / 10^6`. -/
theorem sin_sq_tenth_degree : (3 : ℝ) / 10 ^ 6 ≤ sin (π / 1800) ^ 2 := by
  have h1 := Real.pi_gt_d6
  have h2 := Real.pi_lt_d6
  norm_num at h1 h2
  have hx0 : 0 < π / 1800 := by positivity
  have hx1 : π / 1800 ≤ 1 := by linarith
  have h := Real.sin_gt_sub_cube hx0 hx1
  have hlo : (1745 : ℝ) / 10 ^ 6 ≤ π / 1800 := by linarith
  have hhi : π / 1800 ≤ (1746 : ℝ) / 10 ^ 6 := by linarith
  have hcube : (π / 1800) ^ 3 ≤ ((1746 : ℝ) / 10 ^ 6) ^ 3 :=
    pow_le_pow_left₀ hx0.le hhi 3
  have hs : (1744 : ℝ) / 10 ^ 6 ≤ sin (π / 1800) := by
    norm_num at hcube ⊢
    linarith
  nlinarith

/-- Nine hundredths of a degree: `sin (pi / 2000) ^ 2` is at least
`24 / 10^7`. -/
theorem sin_sq_nine_hundredths : (24 : ℝ) / 10 ^ 7 ≤ sin (π / 2000) ^ 2 := by
  have h1 := Real.pi_gt_d6
  have h2 := Real.pi_lt_d6
  norm_num at h1 h2
  have hx0 : 0 < π / 2000 := by positivity
  have hx1 : π / 2000 ≤ 1 := by linarith
  have h := Real.sin_gt_sub_cube hx0 hx1
  have hlo : (1570 : ℝ) / 10 ^ 6 ≤ π / 2000 := by linarith
  have hhi : π / 2000 ≤ (1571 : ℝ) / 10 ^ 6 := by linarith
  have hcube : (π / 2000) ^ 3 ≤ ((1571 : ℝ) / 10 ^ 6) ^ 3 :=
    pow_le_pow_left₀ hx0.le hhi 3
  have hs : (1569 : ℝ) / 10 ^ 6 ≤ sin (π / 2000) := by
    norm_num at hcube ⊢
    linarith
  nlinarith

end Trig

/-! ## The rounding errors of the squared cosine and of the stored bounds -/

section ErrChain

/-- The product of two approximations. -/
theorem relerr_mul (a a' b b' α β : ℝ) (ha : |a' - a| ≤ α * |a|) (hb : |b' - b| ≤ β * |b|)
    (hα : 0 ≤ α) : |a' * b' - a * b| ≤ (α + β + α * β) * |a * b| := by
  have e : a' * b' - a * b = (a' - a) * b + a * (b' - b) + (a' - a) * (b' - b) := by ring
  have h1 : |(a' - a) * b| ≤ α * |a| * |b| := by
    rw [abs_mul]
    exact mul_le_mul_of_nonneg_right ha (abs_nonneg b)
  have h2 : |a * (b' - b)| ≤ |a| * (β * |b|) := by
    rw [abs_mul]
    exact mul_le_mul_of_nonneg_left hb (abs_nonneg a)
  have h3 : |(a' - a) * (b' - b)| ≤ α * |a| * (β * |b|) := by
    rw [abs_mul]
    exact mul_le_mul ha hb (abs_nonneg _) (mul_nonneg hα (abs_nonneg a))
  rw [e, abs_mul a b]
  calc |(a' - a) * b + a * (b' - b) + (a' - a) * (b' - b)|
      ≤ |(a' - a) * b| + |a * (b' - b)| + |(a' - a) * (b' - b)| := abs_add_three _ _ _
    _ ≤ α * |a| * |b| + |a| * (β * |b|) + α * |a| * (β * |b|) := by linarith
    _ = (α + β + α * β) * (|a| * |b|) := by ring

/-- The rounding of an approximation. -/
theorem relerr_round (R : ℝ → ℝ) (k : Nat) (hR : ∀ x, |R x - x| ≤ |x| / 2 ^ k)
    (x x' α : ℝ) (h : |x' - x| ≤ α * |x|) :
    |R x' - x| ≤ (α + (1 + α) / 2 ^ k) * |x| := by
  have h2k : (0 : ℝ) < 2 ^ k := by positivity
  have h1 : |x'| ≤ (1 + α) * |x| := by
    have : |x'| ≤ |x' - x| + |x| := by
      have := abs_add (x' - x) x
      simpa using this
    linarith
  have h2 : |R x' - x'| ≤ (1 + α) * |x| / 2 ^ k :=
    (hR x').trans (div_le_div_of_nonneg_right h1 h2k.le)
  have h3 : |R x' - x| ≤ |R x' - x'| + |x' - x| := by
    have := abs_add (R x' - x') (x' - x)
    simpa using this
  calc |R x' - x| ≤ |R x' - x'| + |x' - x| := h3
    _ ≤ (1 + α) * |x| / 2 ^ k + α * |x| := by linarith
    _ = (α + (1 + α) / 2 ^ k) * |x| := by ring

/-- The float dot product of two float vectors whose components carry one
rounding each. -/
theorem dot_err (R : ℝ → ℝ) (hR : ∀ x, |R x - x| ≤ |x| / 2 ^ 24)
    (ux uy vx vy ux' uy' vx' vy' : ℝ)
    (hux : |ux' - ux| ≤ |ux| / 2 ^ 24) (huy : |uy' - uy| ≤ |uy| / 2 ^ 24)
    (hvx : |vx' - vx| ≤ |vx| / 2 ^ 24) (hvy : |vy' - vy| ≤ |vy| / 2 ^ 24) :
    |R (R (ux' * vx') + R (uy' * vy')) - (ux * vx + uy * vy)|
      ≤ 24 / 10 ^ 8 * (|ux * vx| + |uy * vy|) := by
  have e : ∀ t : ℝ, t / 2 ^ 24 = 1 / 2 ^ 24 * t := fun t => by ring
  rw [e] at hux huy hvx hvy
  have hx1 := relerr_mul ux ux' vx vx' _ _ hux hvx (by positivity)
  have hy1 := relerr_mul uy uy' vy vy' _ _ huy hvy (by positivity)
  have hx2 := relerr_round R 24 hR _ _ _ hx1
  have hy2 := relerr_round R 24 hR _ _ _ hy1
  have hPx : 0 ≤ |ux * vx| := abs_nonneg _
  have hPy : 0 ≤ |uy * vy| := abs_nonneg _
  have hx3 : |R (ux' * vx') - ux * vx| ≤ 18 / 10 ^ 8 * |ux * vx| :=
    hx2.trans (mul_le_mul_of_nonneg_right (by norm_num) hPx)
  have hy3 : |R (uy' * vy') - uy * vy| ≤ 18 / 10 ^ 8 * |uy * vy| :=
    hy2.trans (mul_le_mul_of_nonneg_right (by norm_num) hPy)
  have hs : |R (ux' * vx') + R (uy' * vy') - (ux * vx + uy * vy)|
      ≤ 18 / 10 ^ 8 * (|ux * vx| + |uy * vy|) := by
    have : R (ux' * vx') + R (uy' * vy') - (ux * vx + uy * vy)
        = (R (ux' * vx') - ux * vx) + (R (uy' * vy') - uy * vy) := by ring
    rw [this]
    exact (abs_add _ _).trans (by linarith)
  have hs2 : |R (ux' * vx') + R (uy' * vy')| ≤ (1 + 18 / 10 ^ 8) * (|ux * vx| + |uy * vy|) := by
    have h1 : |R (ux' * vx') + R (uy' * vy')|
        ≤ |R (ux' * vx') + R (uy' * vy') - (ux * vx + uy * vy)| + |ux * vx + uy * vy| := by
      have := abs_add (R (ux' * vx') + R (uy' * vy') - (ux * vx + uy * vy)) (ux * vx + uy * vy)
      simpa using this
    have h2 : |ux * vx + uy * vy| ≤ |ux * vx| + |uy * vy| := abs_add _ _
    linarith
  have hr := hR (R (ux' * vx') + R (uy' * vy'))
  have hr2 : |R (R (ux' * vx') + R (uy' * vy')) - (R (ux' * vx') + R (uy' * vy'))|
      ≤ (1 + 18 / 10 ^ 8) * (|ux * vx| + |uy * vy|) / 2 ^ 24 :=
    hr.trans (div_le_div_of_nonneg_right hs2 (by positivity))
  have h3 : |R (R (ux' * vx') + R (uy' * vy')) - (ux * vx + uy * vy)|
      ≤ |R (R (ux' * vx') + R (uy' * vy')) - (R (ux' * vx') + R (uy' * vy'))|
        + |R (ux' * vx') + R (uy' * vy') - (ux * vx + uy * vy)| := by
    have := abs_add (R (R (ux' * vx') + R (uy' * vy')) - (R (ux' * vx') + R (uy' * vy')))
      (R (ux' * vx') + R (uy' * vy') - (ux * vx + uy * vy))
    simpa using this
  have hsum : 0 ≤ |ux * vx| + |uy * vy| := by positivity
  calc |R (R (ux' * vx') + R (uy' * vy')) - (ux * vx + uy * vy)|
      ≤ (1 + 18 / 10 ^ 8) * (|ux * vx| + |uy * vy|) / 2 ^ 24
        + 18 / 10 ^ 8 * (|ux * vx| + |uy * vy|) := by linarith
    _ = ((1 + 18 / 10 ^ 8) / 2 ^ 24 + 18 / 10 ^ 8) * (|ux * vx| + |uy * vy|) := by ring
    _ ≤ 24 / 10 ^ 8 * (|ux * vx| + |uy * vy|) :=
        mul_le_mul_of_nonneg_right (by norm_num) hsum

/-- The error of a quotient whose numerator and denominator are known up to
a fraction of the exact denominator `P`. -/
theorem quot_core (n M D P : ℝ) (hP : 0 < P) (hM0 : 0 ≤ M) (hM1 : M ≤ P)
    (hn : |n - M| ≤ 50 / 10 ^ 8 * P) (hD : |D - P| ≤ 49 / 10 ^ 8 * P) :
    0 < D ∧ |n / D - M / P| ≤ 995 / 10 ^ 9 := by
  have hDlo : (1 - 49 / 10 ^ 8) * P ≤ D := by
    have := (abs_le.mp hD).1
    linarith
  have hDpos : 0 < D := lt_of_lt_of_le (by positivity) hDlo
  refine ⟨hDpos, ?_⟩
  rw [div_sub_div _ _ hDpos.ne' hP.ne', abs_div, abs_of_pos (mul_pos hDpos hP),
    div_le_iff₀ (mul_pos hDpos hP)]
  have e : n * P - D * M = (n - M) * P - (D - P) * M := by ring
  have h1 : |(n - M) * P| ≤ 50 / 10 ^ 8 * P * P := by
    rw [abs_mul, abs_of_pos hP]
    exact mul_le_mul_of_nonneg_right hn hP.le
  have h2 : |(D - P) * M| ≤ 49 / 10 ^ 8 * P * P := by
    rw [abs_mul, abs_of_nonneg hM0]
    calc |D - P| * M ≤ 49 / 10 ^ 8 * P * M := mul_le_mul_of_nonneg_right hD hM0
      _ ≤ 49 / 10 ^ 8 * P * P := mul_le_mul_of_nonneg_left hM1 (by positivity)
  have h3 : |(n - M) * P - (D - P) * M| ≤ |(n - M) * P| + |(D - P) * M| := abs_sub _ _
  have h4 : (1 - 49 / 10 ^ 8) * P * P ≤ D * P := mul_le_mul_of_nonneg_right hDlo hP.le
  have hPP : 0 ≤ P * P := by positivity
  rw [e]
  calc |(n - M) * P - (D - P) * M| ≤ 99 / 10 ^ 8 * (P * P) := by linarith
    _ ≤ 995 / 10 ^ 9 * (1 - 49 / 10 ^ 8) * (P * P) :=
        mul_le_mul_of_nonneg_right (by norm_num) hPP
    _ = 995 / 10 ^ 9 * ((1 - 49 / 10 ^ 8) * P * P) := by ring
    _ ≤ 995 / 10 ^ 9 * (D * P) := mul_le_mul_of_nonneg_left h4 (by norm_num)

/-- The squared cosine in double arithmetic, from approximations of the dot
product `N` and of the squared lengths `A` and `B`: the denominator stays
positive and the quotient is within `10^-6` of `N^2 / (A B)`. -/
theorem quot_err (R : ℝ → ℝ) (hR : ∀ x, |R x - x| ≤ |x| / 2 ^ 53)
    (N N' A A' B B' S : ℝ) (hA : 0 < A) (hB : 0 < B) (hNS : |N| ≤ S)
    (hSAB : S ^ 2 ≤ A * B)
    (hN' : |N' - N| ≤ 24 / 10 ^ 8 * S) (hA' : |A' - A| ≤ 24 / 10 ^ 8 * A)
    (hB' : |B' - B| ≤ 24 / 10 ^ 8 * B) :
    0 < R (A' * B') ∧ |R (R (N' * N') / R (A' * B')) - N * N / (A * B)| ≤ 1 / 10 ^ 6 := by
  have hP : 0 < A * B := mul_pos hA hB
  have hS0 : 0 ≤ S := (abs_nonneg N).trans hNS
  -- the denominator
  have hAabs : |A' - A| ≤ 24 / 10 ^ 8 * |A| := by rwa [abs_of_pos hA]
  have hBabs : |B' - B| ≤ 24 / 10 ^ 8 * |B| := by rwa [abs_of_pos hB]
  have hAB := relerr_mul A A' B B' _ _ hAabs hBabs (by norm_num)
  have hD0 := relerr_round R 53 hR _ _ _ hAB
  rw [abs_of_pos hP] at hD0
  have hD : |R (A' * B') - A * B| ≤ 49 / 10 ^ 8 * (A * B) :=
    hD0.trans (mul_le_mul_of_nonneg_right (by norm_num) hP.le)
  have hDlo : (1 - 49 / 10 ^ 8) * (A * B) ≤ R (A' * B') := by
    have := (abs_le.mp hD).1
    linarith
  have hDpos : 0 < R (A' * B') := lt_of_lt_of_le (by positivity) hDlo
  refine ⟨hDpos, ?_⟩
  -- the numerator
  have hNN0 : N * N ≤ A * B := by
    have : N * N ≤ S ^ 2 := by
      rw [← abs_mul_abs_self N, pow_two]
      exact mul_le_mul hNS hNS (abs_nonneg N) hS0
    linarith
  have hNN1 : 0 ≤ N * N := mul_self_nonneg N
  have hsum : |N' + N| ≤ (2 + 24 / 10 ^ 8) * S := by
    have h1 : |N' + N| ≤ |N' - N| + |2 * N| := by
      have := abs_add (N' - N) (2 * N)
      have e : N' - N + 2 * N = N' + N := by ring
      rwa [e] at this
    have h2 : |2 * N| = 2 * |N| := by rw [abs_mul]; norm_num
    linarith
  have hNN : |N' * N' - N * N| ≤ 49 / 10 ^ 8 * (A * B) := by
    have e : N' * N' - N * N = (N' - N) * (N' + N) := by ring
    rw [e, abs_mul]
    have h1 : |N' - N| * |N' + N| ≤ 24 / 10 ^ 8 * S * ((2 + 24 / 10 ^ 8) * S) :=
      mul_le_mul hN' hsum (abs_nonneg _) (by positivity)
    have h2 : 24 / 10 ^ 8 * S * ((2 + 24 / 10 ^ 8) * S)
        = 24 / 10 ^ 8 * (2 + 24 / 10 ^ 8) * S ^ 2 := by ring
    have h3 : 24 / 10 ^ 8 * (2 + 24 / 10 ^ 8) * S ^ 2 ≤ 49 / 10 ^ 8 * S ^ 2 :=
      mul_le_mul_of_nonneg_right (by norm_num) (sq_nonneg S)
    have h4 : (49 : ℝ) / 10 ^ 8 * S ^ 2 ≤ 49 / 10 ^ 8 * (A * B) :=
      mul_le_mul_of_nonneg_left hSAB (by norm_num)
    linarith
  have hNN' : |N' * N'| ≤ (1 + 49 / 10 ^ 8) * (A * B) := by
    have h1 : |N' * N'| ≤ |N' * N' - N * N| + |N * N| := by
      have := abs_add (N' * N' - N * N) (N * N)
      simpa using this
    rw [abs_of_nonneg hNN1] at h1
    linarith
  have hn2 : |R (N' * N') - N * N| ≤ 50 / 10 ^ 8 * (A * B) := by
    have h1 := hR (N' * N')
    have h2 : |R (N' * N') - N * N| ≤ |R (N' * N') - N' * N'| + |N' * N' - N * N| := by
      have := abs_add (R (N' * N') - N' * N') (N' * N' - N * N)
      simpa using this
    have h3 : |N' * N'| / 2 ^ 53 ≤ (1 + 49 / 10 ^ 8) * (A * B) / 2 ^ 53 :=
      div_le_div_of_nonneg_right hNN' (by positivity)
    have h4 : (1 + 49 / 10 ^ 8) * (A * B) / 2 ^ 53 ≤ 1 / 10 ^ 8 * (A * B) := by
      have e : (1 + 49 / 10 ^ 8) * (A * B) / 2 ^ 53 = (1 + 49 / 10 ^ 8) / 2 ^ 53 * (A * B) := by
        ring
      rw [e]
      exact mul_le_mul_of_nonneg_right (by norm_num) hP.le
    linarith
  -- the quotient
  have hq : |R (N' * N') / R (A' * B') - N * N / (A * B)| ≤ 995 / 10 ^ 9 :=
    (quot_core _ _ _ _ hP hNN1 hNN0 hn2 hD).2
  have hc1 : N * N / (A * B) ≤ 1 := by
    rw [div_le_one hP]
    exact hNN0
  have hc0 : 0 ≤ N * N / (A * B) := div_nonneg hNN1 hP.le
  have hqabs : |R (N' * N') / R (A' * B')| ≤ 2 := by
    have h1 : |R (N' * N') / R (A' * B')|
        ≤ |R (N' * N') / R (A' * B') - N * N / (A * B)| + |N * N / (A * B)| := by
      have := abs_add (R (N' * N') / R (A' * B') - N * N / (A * B)) (N * N / (A * B))
      simpa using this
    rw [abs_of_nonneg hc0] at h1
    linarith
  have hr := hR (R (N' * N') / R (A' * B'))
  have hr2 : |R (N' * N') / R (A' * B')| / 2 ^ 53 ≤ 1 / 10 ^ 9 := by
    rw [div_le_iff₀ (by positivity)]
    calc |R (N' * N') / R (A' * B')| ≤ 2 := hqabs
      _ ≤ 1 / 10 ^ 9 * 2 ^ 53 := by norm_num
  have h3 : |R (R (N' * N') / R (A' * B')) - N * N / (A * B)|
      ≤ |R (R (N' * N') / R (A' * B')) - R (N' * N') / R (A' * B')|
        + |R (N' * N') / R (A' * B') - N * N / (A * B)| := by
    have := abs_add (R (R (N' * N') / R (A' * B')) - R (N' * N') / R (A' * B'))
      (R (N' * N') / R (A' * B') - N * N / (A * B))
    simpa using this
  calc |R (R (N' * N') / R (A' * B')) - N * N / (A * B)|
      ≤ 1 / 10 ^ 9 + 995 / 10 ^ 9 := by linarith
    _ ≤ 1 / 10 ^ 6 := by norm_num

end ErrChain

section StoredBound

open Real

/-- The argument of `cos` in the constructor is within `1.3 / 10^7` of the
angle in radians. -/
theorem angle_arg_err (Rf Rd : ℝ → ℝ) (mpi : ℝ)
    (hRf : ∀ x, |Rf x - x| ≤ |x| / 2 ^ 24) (hRd : ∀ x, |Rd x - x| ≤ |x| / 2 ^ 53)
    (hpi : |mpi - π| ≤ 1 / 2 ^ 51) (ang : ℝ) (h0 : 0 ≤ ang) (h90 : ang ≤ 90) :
    |Rd (Rd (Rf ang * mpi) / 180) - ang * π / 180| ≤ 13 / 10 ^ 8 := by
  have hpi3 := Real.pi_gt_three
  have hpi4 := Real.pi_lt_four
  have ha := hRf ang
  rw [abs_of_nonneg h0] at ha
  have ha1 : |Rf ang - ang| ≤ 90 / 2 ^ 24 :=
    ha.trans (div_le_div_of_nonneg_right h90 (by positivity))
  have ha2 := abs_le.mp ha1
  have hpi2 := abs_le.mp hpi
  have hx1 : |Rf ang * mpi - ang * π| ≤ 22 / 10 ^ 6 := by
    have e : Rf ang * mpi - ang * π = Rf ang * (mpi - π) + (Rf ang - ang) * π := by ring
    have h1 : |Rf ang * (mpi - π)| ≤ 91 * (1 / 2 ^ 51) := by
      rw [abs_mul]
      exact mul_le_mul (abs_le.mpr ⟨by linarith, by linarith⟩) hpi (abs_nonneg _) (by norm_num)
    have h2 : |(Rf ang - ang) * π| ≤ 90 / 2 ^ 24 * 4 := by
      rw [abs_mul, abs_of_pos Real.pi_pos]
      exact mul_le_mul ha1 hpi4.le Real.pi_pos.le (by norm_num)
    rw [e]
    calc |Rf ang * (mpi - π) + (Rf ang - ang) * π|
        ≤ |Rf ang * (mpi - π)| + |(Rf ang - ang) * π| := abs_add _ _
      _ ≤ 91 * (1 / 2 ^ 51) + 90 / 2 ^ 24 * 4 := by linarith
      _ ≤ 22 / 10 ^ 6 := by norm_num
  have hangpi : |ang * π| ≤ 360 := by
    rw [abs_mul, abs_of_nonneg h0, abs_of_pos Real.pi_pos]
    nlinarith
  have hx1abs : |Rf ang * mpi| ≤ 361 := by
    have h1 : |Rf ang * mpi| ≤ |Rf ang * mpi - ang * π| + |ang * π| := by
      have := abs_add (Rf ang * mpi - ang * π) (ang * π)
      simpa using this
    linarith
  have hx1' : |Rd (Rf ang * mpi) - Rf ang * mpi| ≤ 361 / 2 ^ 53 :=
    (hRd _).trans (div_le_div_of_nonneg_right hx1abs (by positivity))
  have hx1r : |Rd (Rf ang * mpi) - ang * π| ≤ 23 / 10 ^ 6 := by
    have h1 : |Rd (Rf ang * mpi) - ang * π|
        ≤ |Rd (Rf ang * mpi) - Rf ang * mpi| + |Rf ang * mpi - ang * π| := by
      have := abs_add (Rd (Rf ang * mpi) - Rf ang * mpi) (Rf ang * mpi - ang * π)
      simpa using this
    calc |Rd (Rf ang * mpi) - ang * π| ≤ 361 / 2 ^ 53 + 22 / 10 ^ 6 := by linarith
      _ ≤ 23 / 10 ^ 6 := by norm_num
  have hx2 : |Rd (Rf ang * mpi) / 180 - ang * π / 180| ≤ 23 / 10 ^ 6 / 180 := by
    rw [← sub_div, abs_div, abs_of_pos (by norm_num : (0 : ℝ) < 180)]
    exact div_le_div_of_nonneg_right hx1r (by norm_num)
  have hbeta : |ang * π / 180| ≤ 2 := by
    rw [abs_div, abs_of_pos (by norm_num : (0 : ℝ) < 180), div_le_iff₀ (by norm_num)]
    linarith
  have hx2abs : |Rd (Rf ang * mpi) / 180| ≤ 3 := by
    have h1 : |Rd (Rf ang * mpi) / 180|
        ≤ |Rd (Rf ang * mpi) / 180 - ang * π / 180| + |ang * π / 180| := by
      have := abs_add (Rd (Rf ang * mpi) / 180 - ang * π / 180) (ang * π / 180)
      simpa using this
    have : (23 : ℝ) / 10 ^ 6 / 180 ≤ 1 := by norm_num
    linarith
  have hy : |Rd (Rd (Rf ang * mpi) / 180) - Rd (Rf ang * mpi) / 180| ≤ 3 / 2 ^ 53 :=
    (hRd _).trans (div_le_div_of_nonneg_right hx2abs (by positivity))
  have h1 : |Rd (Rd (Rf ang * mpi) / 180) - ang * π / 180|
      ≤ |Rd (Rd (Rf ang * mpi) / 180) - Rd (Rf ang * mpi) / 180|
        + |Rd (Rf ang * mpi) / 180 - ang * π / 180| := by
    have := abs_add (Rd (Rd (Rf ang * mpi) / 180) - Rd (Rf ang * mpi) / 180)
      (Rd (Rf ang * mpi) / 180 - ang * π / 180)
    simpa using this
  calc |Rd (Rd (Rf ang * mpi) / 180) - ang * π / 180|
      ≤ 3 / 2 ^ 53 + 23 / 10 ^ 6 / 180 := by linarith
    _ ≤ 13 / 10 ^ 8 := by norm_num

/-- The square of a stored cosine, rounded to the type of the data members, is
within `5 / 10^7` of the squared cosine of the angle whenever the argument of
`cos` is within `1.3 / 10^7` of the angle in radians. -/
theorem stored_sq_err (Rm cosl : ℝ → ℝ)
    (hRm : ∀ x, |Rm x - x| ≤ |x| / 2 ^ 24) (hcos : ∀ x, |cosl x - cos x| ≤ 1 / 2 ^ 52)
    (y β : ℝ) (hy : |y - β| ≤ 13 / 10 ^ 8) :
    |Rm (Rm (cosl y) * Rm (cosl y)) - cos β ^ 2| ≤ 5 / 10 ^ 7 := by
  have hcb := abs_le.mp (Real.abs_cos_le_one β)
  have hcl : |cosl y - cos β| ≤ 131 / 10 ^ 9 := by
    have h1 : |cosl y - cos β| ≤ |cosl y - cos y| + |cos y - cos β| := by
      have := abs_add (cosl y - cos y) (cos y - cos β)
      simpa using this
    have h2 := hcos y
    have h3 := (abs_cos_sub_cos_le y β).trans hy
    calc |cosl y - cos β| ≤ 1 / 2 ^ 52 + 13 / 10 ^ 8 := by linarith
      _ ≤ 131 / 10 ^ 9 := by norm_num
  have hcl2 := abs_le.mp hcl
  have hclabs : |cosl y| ≤ 1 + 131 / 10 ^ 9 := abs_le.mpr ⟨by linarith, by linarith⟩
  have hcm0 : |Rm (cosl y) - cosl y| ≤ (1 + 131 / 10 ^ 9) / 2 ^ 24 :=
    (hRm _).trans (div_le_div_of_nonneg_right hclabs (by positivity))
  have hcm : |Rm (cosl y) - cos β| ≤ 2 / 10 ^ 7 := by
    have h1 : |Rm (cosl y) - cos β| ≤ |Rm (cosl y) - cosl y| + |cosl y - cos β| := by
      have := abs_add (Rm (cosl y) - cosl y) (cosl y - cos β)
      simpa using this
    calc |Rm (cosl y) - cos β| ≤ (1 + 131 / 10 ^ 9) / 2 ^ 24 + 131 / 10 ^ 9 := by linarith
      _ ≤ 2 / 10 ^ 7 := by norm_num
  have hcm2 := abs_le.mp hcm
  have hsum : |Rm (cosl y) + cos β| ≤ 2 + 2 / 10 ^ 7 :=
    abs_le.mpr ⟨by linarith, by linarith⟩
  have hsq : |Rm (cosl y) * Rm (cosl y) - cos β ^ 2| ≤ 41 / 10 ^ 8 := by
    have e : Rm (cosl y) * Rm (cosl y) - cos β ^ 2
        = (Rm (cosl y) - cos β) * (Rm (cosl y) + cos β) := by ring
    rw [e, abs_mul]
    calc |Rm (cosl y) - cos β| * |Rm (cosl y) + cos β|
        ≤ 2 / 10 ^ 7 * (2 + 2 / 10 ^ 7) := mul_le_mul hcm hsum (abs_nonneg _) (by norm_num)
      _ ≤ 41 / 10 ^ 8 := by norm_num
  have hsqabs : |Rm (cosl y) * Rm (cosl y)| ≤ 1 + 41 / 10 ^ 8 := by
    have h1 : |Rm (cosl y) * Rm (cosl y)|
        ≤ |Rm (cosl y) * Rm (cosl y) - cos β ^ 2| + |cos β ^ 2| := by
      have := abs_add (Rm (cosl y) * Rm (cosl y) - cos β ^ 2) (cos β ^ 2)
      simpa using this
    have h2 : |cos β ^ 2| ≤ 1 := by
      rw [abs_of_nonneg (sq_nonneg _)]
      nlinarith
    linarith
  have hr : |Rm (Rm (cosl y) * Rm (cosl y)) - Rm (cosl y) * Rm (cosl y)|
      ≤ (1 + 41 / 10 ^ 8) / 2 ^ 24 :=
    (hRm _).trans (div_le_div_of_nonneg_right hsqabs (by positivity))
  have h1 : |Rm (Rm (cosl y) * Rm (cosl y)) - cos β ^ 2|
      ≤ |Rm (Rm (cosl y) * Rm (cosl y)) - Rm (cosl y) * Rm (cosl y)|
        + |Rm (cosl y) * Rm (cosl y) - cos β ^ 2| := by
    have := abs_add (Rm (Rm (cosl y) * Rm (cosl y)) - Rm (cosl y) * Rm (cosl y))
      (Rm (cosl y) * Rm (cosl y) - cos β ^ 2)
    simpa using this
  calc |Rm (Rm (cosl y) * Rm (cosl y)) - cos β ^ 2|
      ≤ (1 + 41 / 10 ^ 8) / 2 ^ 24 + 41 / 10 ^ 8 := by linarith
    _ ≤ 5 / 10 ^ 7 := by norm_num

end StoredBound

/-! ## The rounded criterion against the exact angle -/

section Tolerance

open Real

/-- The squared length of a non-zero plane vector is positive. -/
theorem normSqXY_pos (u : ℝ × ℝ) (hu : u ≠ (0, 0)) : 0 < normSqXY u :=
  lt_of_le_of_ne (normSqXY_nonneg u) (fun h => hu ((normSqXY_eq_zero u).mp h.symm))

/-- Cauchy-Schwarz for the absolute values of the two products of a dot
product. -/
theorem abs_products_sq_le (ux uy vx vy : ℝ) :
    (|ux * vx| + |uy * vy|) ^ 2 ≤ (ux * ux + uy * uy) * (vx * vx + vy * vy) := by
  rw [abs_mul, abs_mul]
  have h1 : ux * ux = |ux| * |ux| := (abs_mul_abs_self ux).symm
  have h2 : uy * uy = |uy| * |uy| := (abs_mul_abs_self uy).symm
  have h3 : vx * vx = |vx| * |vx| := (abs_mul_abs_self vx).symm
  have h4 : vy * vy = |vy| * |vy| := (abs_mul_abs_self vy).symm
  rw [h1, h2, h3, h4]
  nlinarith [sq_nonneg (|ux| * |vy| - |uy| * |vx|)]

/-- On hits with float coordinates and non-zero vectors the rounded
denominator is positive and the rounded squared cosine is within `10^-6` of
the exact one. -/
theorem cosThetaSquaredRounded_err (r : Rounding ℝ) (hr : r.Accurate) (a b c : AutHit ℝ)
    (ha : a.isFloat r) (hb : b.isFloat r) (hc : c.isFloat r)
    (hu : diffXY a b ≠ (0, 0)) (hv : diffXY b c ≠ (0, 0)) :
    0 < denomSquaredRounded r a b c ∧
      |cosThetaSquaredRounded r a b c - cosSqXY a b c| ≤ 1 / 10 ^ 6 := by
  have hA : 0 < normSqXY (diffXY a b) := normSqXY_pos _ hu
  have hB : 0 < normSqXY (diffXY b c) := normSqXY_pos _ hv
  obtain ⟨hax, hay⟩ := ha
  obtain ⟨hbx, hby⟩ := hb
  obtain ⟨hcx, hcy⟩ := hc
  unfold denomSquaredRounded cosThetaSquaredRounded cosSqXY dotXYRounded diffXYRounded dotXY
  simp only [hax, hay, hbx, hby, hcx, hcy]
  unfold normSqXY diffXY at hA hB
  simp only [] at hA hB
  unfold diffXY
  simp only []
  have h1 := hr.toFloat_err (b.x - a.x)
  have h2 := hr.toFloat_err (b.y - a.y)
  have h3 := hr.toFloat_err (c.x - b.x)
  have h4 := hr.toFloat_err (c.y - b.y)
  have hN := dot_err r.toFloat hr.toFloat_err _ _ _ _ _ _ _ _ h1 h2 h3 h4
  have hA' := dot_err r.toFloat hr.toFloat_err _ _ _ _ _ _ _ _ h1 h2 h1 h2
  have hB' := dot_err r.toFloat hr.toFloat_err _ _ _ _ _ _ _ _ h3 h4 h3 h4
  rw [abs_mul_self, abs_mul_self] at hA' hB'
  exact quot_err r.toDouble hr.toDouble_err _ _ _ _ _ _ _ hA hB (abs_add _ _)
    (abs_products_sq_le _ _ _ _) hN hA' hB'

/-- The squares of the stored cosines, as compared by lines 86 and 87, are
within `5 / 10^7` of the squared cosines of the window bounds. -/
theorem storedBounds_err (r : Rounding ℝ) (m : MathOps ℝ) (hr : r.Accurate) (hm : m.Accurate)
    (angleMin angleMax : ℝ) (h0 : 0 ≤ angleMin) (hle : angleMin ≤ angleMax)
    (h90 : angleMax ≤ 90) :
    |r.toMember ((Crit3_2DAngle.newRounded r m angleMin angleMax)._cosAngleMin
          * (Crit3_2DAngle.newRounded r m angleMin angleMax)._cosAngleMin)
        - cos (angleMax * π / 180) ^ 2| ≤ 5 / 10 ^ 7 ∧
    |r.toMember ((Crit3_2DAngle.newRounded r m angleMin angleMax)._cosAngleMax
          * (Crit3_2DAngle.newRounded r m angleMin angleMax)._cosAngleMax)
        - cos (angleMin * π / 180) ^ 2| ≤ 5 / 10 ^ 7 :=
  ⟨stored_sq_err r.toMember m.cos hr.toMember_err hm.cos_err _ _
      (angle_arg_err r.toFloat r.toDouble m.pi hr.toFloat_err hr.toDouble_err hm.pi_err
        angleMax (by linarith) h90),
    stored_sq_err r.toMember m.cos hr.toMember_err hm.cos_err _ _
      (angle_arg_err r.toFloat r.toDouble m.pi hr.toFloat_err hr.toDouble_err hm.pi_err
        angleMin h0 (by linarith))⟩

/-- The verdict of the rounded criterion from the exact squared cosine `c`:
true when the angle `acos (sqrt c)` is at least a tenth of a degree inside the
window, false when it is at least a tenth of a degree outside. -/
theorem areCompatibleRounded_tolerance (r : Rounding ℝ) (m : MathOps ℝ) (hr : r.Accurate)
    (hm : m.Accurate) (angleMin angleMax : ℝ) (flag : Bool) (values : ValueMap ℝ)
    (parent child : Segment ℝ) (a b b' c : AutHit ℝ)
    (hp : parent.autHits = [a, b]) (hc : child.autHits = [b', c])
    (h0 : 0 ≤ angleMin) (hle : angleMin ≤ angleMax) (h90 : angleMax ≤ 90)
    (haf : a.isFloat r) (hbf : b.isFloat r) (hcf : c.isFloat r)
    (hu : diffXY a b ≠ (0, 0)) (hv : diffXY b c ≠ (0, 0)) :
    ((angleMin + 1 / 10 ≤ arccos (√(cosSqXY a b c)) * 180 / π ∧
        arccos (√(cosSqXY a b c)) * 180 / π ≤ angleMax - 1 / 10) →
      (((Crit3_2DAngle.newRounded r m angleMin angleMax).inState flag
        values).areCompatibleRounded r m parent child).result = .ok true) ∧
    ((arccos (√(cosSqXY a b c)) * 180 / π ≤ angleMin - 1 / 10 ∨
        angleMax + 1 / 10 ≤ arccos (√(cosSqXY a b c)) * 180 / π) →
      (((Crit3_2DAngle.newRounded r m angleMin angleMax).inState flag
        values).areCompatibleRounded r m parent child).result = .ok false) := by
  have hpi : 0 < π := Real.pi_pos
  obtain ⟨hd, hc2⟩ := cosThetaSquaredRounded_err r hr a b c haf hbf hcf hu hv
  obtain ⟨hmin, hmax⟩ := storedBounds_err r m hr hm angleMin angleMax h0 hle h90
  have hc2' := abs_le.mp hc2
  have hmin' := abs_le.mp hmin
  have hmax' := abs_le.mp hmax
  have hgap := sin_sq_tenth_degree
  obtain ⟨ht0, ht1⟩ := arccos_sqrt_bounds (cosSqXY a b c)
  have hcos : cos (arccos (√(cosSqXY a b c))) ^ 2 = cosSqXY a b c := by
    rw [cos_arccos_sqrt _ (cosSqXY_le_one a b c), Real.sq_sqrt (cosSqXY_nonneg a b c)]
  obtain ⟨ha0, ha1⟩ := rad_bounds angleMin h0 (by linarith)
  obtain ⟨hb0, hb1⟩ := rad_bounds angleMax (by linarith) h90
  have hτ : (0 : ℝ) ≤ π / 1800 := by positivity
  rw [areCompatibleRounded_result_two r m _ parent child a b b' c hp hc, if_pos hd]
  simp only [Crit3_2DAngle.inState]
  constructor
  · rintro ⟨hlo, hhi⟩
    rw [le_deg_iff] at hlo
    rw [deg_le_iff] at hhi
    have g1 := cos_sq_gap (arccos (√(cosSqXY a b c))) (angleMax * π / 180) (π / 1800) ht0 hτ
      (by linarith) hb1
    have g2 := cos_sq_gap (angleMin * π / 180) (arccos (√(cosSqXY a b c))) (π / 1800) ha0 hτ
      (by linarith) ht1
    rw [hcos] at g1 g2
    have e1 : ¬ cosThetaSquaredRounded r a b c
        < r.toMember ((Crit3_2DAngle.newRounded r m angleMin angleMax)._cosAngleMin
          * (Crit3_2DAngle.newRounded r m angleMin angleMax)._cosAngleMin) := by
      rw [not_lt]
      linarith
    have e2 : ¬ cosThetaSquaredRounded r a b c
        > r.toMember ((Crit3_2DAngle.newRounded r m angleMin angleMax)._cosAngleMax
          * (Crit3_2DAngle.newRounded r m angleMin angleMax)._cosAngleMax) := by
      rw [gt_iff_lt, not_lt]
      linarith
    simp [e1, e2]
  · rintro (hlo | hhi)
    · rw [deg_le_iff] at hlo
      have g := cos_sq_gap (arccos (√(cosSqXY a b c))) (angleMin * π / 180) (π / 1800) ht0 hτ
        (by linarith) ha1
      rw [hcos] at g
      have e2 : cosThetaSquaredRounded r a b c
          > r.toMember ((Crit3_2DAngle.newRounded r m angleMin angleMax)._cosAngleMax
            * (Crit3_2DAngle.newRounded r m angleMin angleMax)._cosAngleMax) := by
        rw [gt_iff_lt]
        linarith
      simp [e2]
    · rw [le_deg_iff] at hhi
      have g := cos_sq_gap (angleMax * π / 180) (arccos (√(cosSqXY a b c))) (π / 1800) hb0 hτ
        (by linarith) ht1
      rw [hcos] at g
      have e1 : cosThetaSquaredRounded r a b c
          < r.toMember ((Crit3_2DAngle.newRounded r m angleMin angleMax)._cosAngleMin
            * (Crit3_2DAngle.newRounded r m angleMin angleMax)._cosAngleMin) := by
        linarith
      simp [e1]

end Tolerance

/-! ## Claims C19 and C4 -/

section FoldedAngle

open Real

/-- A natural number below `2^p` is its own rounding. -/
theorem roundToPrec_natCast {F : Type} [LinearOrderedField F] [FloorRing F] (p n : Nat)
    (h : n < 2 ^ p) : roundToPrec p (n : F) = (n : F) := by
  have h2 : |(n : Int)| < 2 ^ p := by
    rw [abs_of_nonneg (Int.natCast_nonneg n)]
    exact_mod_cast h
  simpa using roundToPrec_intCast (F := F) p (n : Int) h2

/-- The hits with coordinates 0, 1 or 2 used below have float coordinates. -/
theorem isFloat_small :
    (hitXY (0 : ℝ) 0).isFloat (ieee ℝ 24) ∧ (hitXY (1 : ℝ) 0).isFloat (ieee ℝ 24) ∧
    (hitXY (2 : ℝ) 1).isFloat (ieee ℝ 24) ∧ (hitXY (1 : ℝ) 1).isFloat (ieee ℝ 24) ∧
    (hitXY (2 : ℝ) 0).isFloat (ieee ℝ 24) ∧ (hitXY (0 : ℝ) 1).isFloat (ieee ℝ 24) := by
  have f0 : roundToPrec 24 (0 : ℝ) = 0 := roundToPrec_zero 24
  have f1 : roundToPrec 24 (1 : ℝ) = 1 := roundToPrec_one 24 (by norm_num)
  have f2 : roundToPrec 24 (2 : ℝ) = 2 := by
    simpa using roundToPrec_natCast (F := ℝ) 24 2 (by norm_num)
  simp [AutHit.isFloat, hitXY, ieee, f0, f1, f2]

/-- The chain (0,0), (1,0), (2,1) is bent by 45 degrees. -/
theorem measured_forty_five :
    arccos (√(cosSqXY (hitXY (0 : ℝ) 0) (hitXY 1 0) (hitXY 2 1))) * 180 / π = 45 := by
  have hpi : (π : ℝ) ≠ 0 := Real.pi_pos.ne'
  have h1 : cosSqXY (hitXY (0 : ℝ) 0) (hitXY 1 0) (hitXY 2 1) = (√2 / 2) ^ 2 := by
    rw [div_pow, Real.sq_sqrt (by norm_num)]
    norm_num [cosSqXY, dotXY, diffXY, normSqXY, hitXY]
  rw [h1, Real.sqrt_sq (by positivity), ← Real.cos_pi_div_four,
    Real.arccos_cos (by positivity) (by linarith [Real.pi_pos])]
  field_simp
  ring

/-- C4, as amended: for every window `0 <= angleMin <= angleMax <= 90` degrees
and every pair of 2-hit segments with float coordinates and non-zero vectors
`u = b - a` and `v = c - b`, the `areCompatible` of the float and double
arithmetic returns true when the 2-D bend angle between `u` and `v`, folded
from [0, 180] onto [0, 90] degrees, lies in `[angleMin + 0.1, angleMax - 0.1]`,
and false when the folded angle is at most `angleMin - 0.1` or at least
`angleMax + 0.1`. -/
theorem C4_folded_bend_angle_tolerance (r : Rounding ℝ) (m : MathOps ℝ) (hr : r.Accurate)
    (hm : m.Accurate) (angleMin angleMax : ℝ) (flag : Bool) (values : ValueMap ℝ)
    (parent child : Segment ℝ) (a b b' c : AutHit ℝ)
    (hp : parent.autHits = [a, b]) (hc : child.autHits = [b', c])
    (h0 : 0 ≤ angleMin) (hle : angleMin ≤ angleMax) (h90 : angleMax ≤ 90)
    (haf : a.isFloat r) (hbf : b.isFloat r) (hcf : c.isFloat r)
    (hu : diffXY a b ≠ (0, 0)) (hv : diffXY b c ≠ (0, 0)) :
    ((angleMin + 1 / 10
          ≤ foldAngle (bendAngle2D ⟨Real.cos, Real.arccos, Real.sqrt, Real.pi⟩ a b c) ∧
        foldAngle (bendAngle2D ⟨Real.cos, Real.arccos, Real.sqrt, Real.pi⟩ a b c)
          ≤ angleMax - 1 / 10) →
      (((Crit3_2DAngle.newRounded r m angleMin angleMax).inState flag
        values).areCompatibleRounded r m parent child).result = .ok true) ∧
    ((foldAngle (bendAngle2D ⟨Real.cos, Real.arccos, Real.sqrt, Real.pi⟩ a b c)
          ≤ angleMin - 1 / 10 ∨
        angleMax + 1 / 10
          ≤ foldAngle (bendAngle2D ⟨Real.cos, Real.arccos, Real.sqrt, Real.pi⟩ a b c)) →
      (((Crit3_2DAngle.newRounded r m angleMin angleMax).inState flag
        values).areCompatibleRounded r m parent child).result = .ok false) := by
  rw [← measured_eq_foldAngle]
  exact areCompatibleRounded_tolerance r m hr hm angleMin angleMax flag values
    parent child a b b' c hp hc h0 hle h90 haf hbf hcf hu hv

/-- Witness of C4 (amended): the chain (0,0), (1,0), (2,1), bent by 45
degrees, is accepted with the window [30, 60] and rejected with the window
[0, 30]. -/
theorem C4_folded_bend_angle_tolerance_witness :
    ((ieee ℝ 24).Accurate ∧
      (MathOps.inDouble ⟨Real.cos, Real.arccos, Real.sqrt, Real.pi⟩).Accurate ∧
      (hitXY (0 : ℝ) 0).isFloat (ieee ℝ 24) ∧ (hitXY (1 : ℝ) 0).isFloat (ieee ℝ 24) ∧
      (hitXY (2 : ℝ) 1).isFloat (ieee ℝ 24) ∧
      diffXY (hitXY (0 : ℝ) 0) (hitXY 1 0) ≠ (0, 0) ∧
      diffXY (hitXY (1 : ℝ) 0) (hitXY 2 1) ≠ (0, 0) ∧
      foldAngle (bendAngle2D ⟨Real.cos, Real.arccos, Real.sqrt, Real.pi⟩
        (hitXY 0 0) (hitXY 1 0) (hitXY 2 1)) = 45) ∧
    (((Crit3_2DAngle.newRounded (ieee ℝ 24)
          (MathOps.inDouble ⟨Real.cos, Real.arccos, Real.sqrt, Real.pi⟩) 30 60).inState false
        []).areCompatibleRounded (ieee ℝ 24)
          (MathOps.inDouble ⟨Real.cos, Real.arccos, Real.sqrt, Real.pi⟩)
          (Segment.ofHits [hitXY 0 0, hitXY 1 0])
          (Segment.ofHits [hitXY 1 0, hitXY 2 1])).result = .ok true ∧
    (((Crit3_2DAngle.newRounded (ieee ℝ 24)
          (MathOps.inDouble ⟨Real.cos, Real.arccos, Real.sqrt, Real.pi⟩) 0 30).inState false
        []).areCompatibleRounded (ieee ℝ 24)
          (MathOps.inDouble ⟨Real.cos, Real.arccos, Real.sqrt, Real.pi⟩)
          (Segment.ofHits [hitXY 0 0, hitXY 1 0])
          (Segment.ofHits [hitXY 1 0, hitXY 2 1])).result = .ok false := by
  have hu : diffXY (hitXY (0 : ℝ) 0) (hitXY 1 0) ≠ (0, 0) := by simp [diffXY, hitXY]
  have hv : diffXY (hitXY (1 : ℝ) 0) (hitXY 2 1) ≠ (0, 0) := by norm_num [diffXY, hitXY]
  have hang := measured_forty_five
  rw [measured_eq_foldAngle] at hang
  refine ⟨⟨ieee_accurate 24 (le_refl 24), inDouble_accurate, isFloat_small.1, isFloat_small.2.1,
    isFloat_small.2.2.1, hu, hv, hang⟩, ?_, ?_⟩
  · exact (C4_folded_bend_angle_tolerance (ieee ℝ 24) _ (ieee_accurate 24 (le_refl 24))
      inDouble_accurate 30 60 false [] _ _ (hitXY 0 0) (hitXY 1 0) (hitXY 1 0) (hitXY 2 1)
      rfl rfl (by norm_num) (by norm_num) (by norm_num) isFloat_small.1 isFloat_small.2.1
      isFloat_small.2.2.1 hu hv).1 (by rw [hang]; norm_num)
  · exact (C4_folded_bend_angle_tolerance (ieee ℝ 24) _ (ieee_accurate 24 (le_refl 24))
      inDouble_accurate 0 30 false [] _ _ (hitXY 0 0) (hitXY 1 0) (hitXY 1 0) (hitXY 2 1)
      rfl rfl (by norm_num) (by norm_num) (by norm_num) isFloat_small.1 isFloat_small.2.1
      isFloat_small.2.2.1 hu hv).2 (Or.inr (by rw [hang]; norm_num))

end FoldedAngle

/-! ## Claim C5 -/

section StraightAndBent

open Real

/-- Accurate roundings leave zero as it is. -/
theorem Rounding.Accurate.zero {r : Rounding ℝ} (hr : r.Accurate) :
    r.toFloat 0 = 0 ∧ r.toDouble 0 = 0 := by
  have h1 := hr.toFloat_err 0
  have h2 := hr.toDouble_err 0
  simp only [abs_zero, zero_div, sub_zero] at h1 h2
  exact ⟨abs_eq_zero.mp (le_antisymm h1 (abs_nonneg _)),
    abs_eq_zero.mp (le_antisymm h2 (abs_nonneg _))⟩

/-- With the window [0, 0] both compared bounds are exactly 1. -/
theorem storedBounds_zero (r : Rounding ℝ) (m : MathOps ℝ) (hr : r.Accurate) (hm : m.Accurate) :
    r.toMember ((Crit3_2DAngle.newRounded r m 0 0)._cosAngleMin
        * (Crit3_2DAngle.newRounded r m 0 0)._cosAngleMin) = 1 ∧
    r.toMember ((Crit3_2DAngle.newRounded r m 0 0)._cosAngleMax
        * (Crit3_2DAngle.newRounded r m 0 0)._cosAngleMax) = 1 := by
  have h : r.toMember (m.cos (r.toDouble (r.toDouble (r.toFloat 0 * m.pi) / 180))) = 1 := by
    rw [hr.zero.1, zero_mul, hr.zero.2, zero_div, hr.zero.2, hm.cos_zero, hr.toMember_one]
  simp only [Crit3_2DAngle.newRounded, h, mul_one, hr.toMember_one, and_self]

end StraightAndBent

section StraightAndBentWitness

open Real

end StraightAndBentWitness

/-! ## Values of the IEEE arithmetic at the window edges -/

section EdgeValues

open Real

/-- The float values 90 and 180 and the opposite of 90. -/
theorem toFloat_degrees :
    roundToPrec 24 (90 : ℝ) = 90 ∧ roundToPrec 24 (180 : ℝ) = 180 ∧
    roundToPrec 24 (-90 : ℝ) = -90 := by
  refine ⟨?_, ?_, ?_⟩
  · simpa using roundToPrec_natCast (F := ℝ) 24 90 (by norm_num)
  · simpa using roundToPrec_natCast (F := ℝ) 24 180 (by norm_num)
  · simpa using roundToPrec_intCast (F := ℝ) 24 (-90) (by norm_num)

/-- The double product `90 * M_PI`. -/
theorem ninety_M_PI :
    roundToPrec 53 ((90 : ℝ) * M_PI ℝ) = 4974073419394997 / 2 ^ 44 := by
  unfold M_PI
  rw [roundToPrec_of_near 53 ((90 : ℝ) * (884279719003555 / 2 ^ 48)) 8 4974073419394997
    (by rw [abs_of_pos (by norm_num)]; norm_num) (by rw [abs_of_pos (by norm_num)]; norm_num)
    (by norm_num [abs_lt])]
  norm_num

/-- The argument of `cos` for 90 degrees, `90 * M_PI / 180.` in double, is
`M_PI / 2`. -/
theorem arg_ninety :
    roundToPrec 53 (roundToPrec 53 (roundToPrec 24 (90 : ℝ) * M_PI ℝ) / 180) = M_PI ℝ / 2 := by
  rw [toFloat_degrees.1, ninety_M_PI]
  unfold M_PI
  rw [roundToPrec_of_near 53 ((4974073419394997 : ℝ) / 2 ^ 44 / 180) 0 7074237752028440
    (by rw [abs_of_pos (by norm_num)]; norm_num) (by rw [abs_of_pos (by norm_num)]; norm_num)
    (by norm_num [abs_lt])]
  norm_num

/-- The argument of `cos` for 180 degrees, `180 * M_PI / 180.` in double, is
`M_PI`. -/
theorem arg_one_eighty :
    roundToPrec 53 (roundToPrec 53 (roundToPrec 24 (180 : ℝ) * M_PI ℝ) / 180) = M_PI ℝ := by
  rw [toFloat_degrees.2.1]
  unfold M_PI
  rw [roundToPrec_of_near 53 ((180 : ℝ) * (884279719003555 / 2 ^ 48)) 9 4974073419394997
    (by rw [abs_of_pos (by norm_num)]; norm_num) (by rw [abs_of_pos (by norm_num)]; norm_num)
    (by norm_num [abs_lt])]
  rw [roundToPrec_of_near 53 (((4974073419394997 : Int) : ℝ) * 2 ^ ((9 : Int) - ((53 : Nat) - 1))
      / 180) 1 7074237752028440
    (by rw [abs_of_pos (by norm_num)]; norm_num) (by rw [abs_of_pos (by norm_num)]; norm_num)
    (by norm_num [abs_lt])]
  norm_num

/-- The argument of `cos` for -90 degrees is `- M_PI / 2`. -/
theorem arg_minus_ninety :
    roundToPrec 53 (roundToPrec 53 (roundToPrec 24 (-90 : ℝ) * M_PI ℝ) / 180)
      = -(M_PI ℝ / 2) := by
  rw [toFloat_degrees.2.2]
  unfold M_PI
  rw [roundToPrec_of_near 53 ((-90 : ℝ) * (884279719003555 / 2 ^ 48)) 8 (-4974073419394997)
    (by rw [abs_of_neg (by norm_num)]; norm_num) (by rw [abs_of_neg (by norm_num)]; norm_num)
    (by norm_num [abs_lt])]
  rw [roundToPrec_of_near 53 (((-4974073419394997 : Int) : ℝ)
      * 2 ^ ((8 : Int) - ((53 : Nat) - 1)) / 180) 0 (-7074237752028440)
    (by rw [abs_of_neg (by norm_num)]; norm_num) (by rw [abs_of_neg (by norm_num)]; norm_num)
    (by norm_num [abs_lt])]
  norm_num

/-- The cosine of `M_PI / 2` is positive and at most one half; the cosine of
`M_PI` is negative. -/
theorem cos_M_PI :
    0 < cos (M_PI ℝ / 2) ∧ cos (M_PI ℝ / 2) ≤ 1 / 2 ∧ cos (M_PI ℝ) < 0 := by
  have h1 := M_PI_bounds.1
  have h3 := Real.pi_gt_three
  have h4 := Real.pi_lt_four
  have hM : (3 : ℝ) < M_PI ℝ := by unfold M_PI; norm_num
  refine ⟨?_, ?_, ?_⟩
  · apply Real.cos_pos_of_mem_Ioo
    constructor <;> linarith
  · rw [← Real.cos_pi_div_three]
    exact Real.cos_le_cos_of_nonneg_of_le_pi (by positivity) (by linarith) (by linarith)
  · exact Real.cos_neg_of_pi_div_two_lt_of_lt (by linarith) (by linarith)

/-- The double nearest to `pi / 2` is `M_PI / 2`. -/
theorem toDouble_pi_div_two : roundToPrec 53 (π / 2) = M_PI ℝ / 2 := by
  have h1 := Real.pi_gt_d20
  have h2 := Real.pi_lt_d20
  norm_num at h1 h2
  have hpos : 0 < π / 2 := by positivity
  unfold M_PI
  rw [roundToPrec_of_near 53 (π / 2) 0 7074237752028440
    (by rw [abs_of_pos hpos]; norm_num; linarith) (by rw [abs_of_pos hpos]; norm_num; linarith)
    (by
      rw [abs_lt]
      norm_num
      constructor <;> linarith)]
  norm_num

/-- For the squared cosine 0 the recorded angle is 90 degrees. -/
theorem recordedAngle_zero :
    recordedAngle (ieee ℝ 24) (MathOps.inDouble ⟨Real.cos, Real.arccos, Real.sqrt, Real.pi⟩) 0
      = 90 := by
  have hq : roundToPrec 53 ((4974073419394997 : ℝ) / 2 ^ 44 / M_PI ℝ) = 90 := by
    unfold M_PI
    rw [roundToPrec_of_near 53 ((4974073419394997 : ℝ) / 2 ^ 44 / (884279719003555 / 2 ^ 48))
      6 6333186975989760
      (by rw [abs_of_pos (by norm_num)]; norm_num) (by rw [abs_of_pos (by norm_num)]; norm_num)
      (by norm_num [abs_lt])]
    norm_num
  have h180 : M_PI ℝ / 2 * 180 = 90 * M_PI ℝ := by ring
  simp only [recordedAngle, MathOps.inDouble, ieee, Real.sqrt_zero, roundToPrec_zero,
    Real.arccos_zero, toDouble_pi_div_two, h180, ninety_M_PI, hq, toFloat_degrees.1]

/-- For the squared cosine 1 the recorded angle is 0 degrees. -/
theorem recordedAngle_one :
    recordedAngle (ieee ℝ 24) (MathOps.inDouble ⟨Real.cos, Real.arccos, Real.sqrt, Real.pi⟩) 1
      = 0 := by
  simp only [recordedAngle, MathOps.inDouble, ieee, Real.sqrt_one,
    roundToPrec_one 53 (by norm_num : 1 ≤ 53), Real.arccos_one, roundToPrec_zero, zero_mul,
    zero_div]

end EdgeValues

/-! ## Counterexamples of C19 and C4 -/

section EdgeCounterexamples

open Real

/-- With the upper bound 90 degrees the lower bound of the squared cosine is
positive: `cos( 90 * M_PI / 180. )` is not zero. -/
theorem storedMin_ninety_pos (angleMin : ℝ) :
    0 < (ieee ℝ 24).toMember
      ((Crit3_2DAngle.newRounded (ieee ℝ 24)
          (MathOps.inDouble ⟨Real.cos, Real.arccos, Real.sqrt, Real.pi⟩)
          angleMin 90)._cosAngleMin
        * (Crit3_2DAngle.newRounded (ieee ℝ 24)
          (MathOps.inDouble ⟨Real.cos, Real.arccos, Real.sqrt, Real.pi⟩)
          angleMin 90)._cosAngleMin) := by
  simp only [Crit3_2DAngle.newRounded, MathOps.inDouble, ieee, arg_ninety]
  have h1 : 0 < roundToPrec 24 (roundToPrec 53 (cos (M_PI ℝ / 2))) :=
    roundToPrec_pos 24 (by norm_num) _ (roundToPrec_pos 53 (by norm_num) _ cos_M_PI.1)
  exact roundToPrec_pos 24 (by norm_num) _ (mul_pos h1 h1)

/-- With the upper bound 180 degrees the lower bound of the squared cosine is
positive. -/
theorem storedMin_one_eighty_pos (angleMin : ℝ) :
    0 < (ieee ℝ 24).toMember
      ((Crit3_2DAngle.newRounded (ieee ℝ 24)
          (MathOps.inDouble ⟨Real.cos, Real.arccos, Real.sqrt, Real.pi⟩)
          angleMin 180)._cosAngleMin
        * (Crit3_2DAngle.newRounded (ieee ℝ 24)
          (MathOps.inDouble ⟨Real.cos, Real.arccos, Real.sqrt, Real.pi⟩)
          angleMin 180)._cosAngleMin) := by
  simp only [Crit3_2DAngle.newRounded, MathOps.inDouble, ieee, arg_one_eighty]
  have h1 : roundToPrec 24 (roundToPrec 53 (cos (M_PI ℝ))) < 0 :=
    roundToPrec_neg 24 (by norm_num) _ (roundToPrec_neg 53 (by norm_num) _ cos_M_PI.2.2)
  exact roundToPrec_pos 24 (by norm_num) _ (mul_pos_of_neg_of_neg h1 h1)

/-- The float arithmetic on the perpendicular chains (0,0), (1,0), (1,1) and
(0,0), (0,1), (1,1) and on the chain (0,0), (1,0), (0,0) that turns back: the
denominators are positive and the squared cosines are 0, 0 and 1. -/
theorem cosThetaSquaredRounded_small :
    (0 < denomSquaredRounded (ieee ℝ 24) (hitXY 0 0) (hitXY 1 0) (hitXY 1 1) ∧
      cosThetaSquaredRounded (ieee ℝ 24) (hitXY 0 0) (hitXY 1 0) (hitXY 1 1) = 0) ∧
    (0 < denomSquaredRounded (ieee ℝ 24) (hitXY 0 0) (hitXY 0 1) (hitXY 1 1) ∧
      cosThetaSquaredRounded (ieee ℝ 24) (hitXY 0 0) (hitXY 0 1) (hitXY 1 1) = 0) ∧
    (0 < denomSquaredRounded (ieee ℝ 24) (hitXY 0 0) (hitXY 1 0) (hitXY 0 0) ∧
      cosThetaSquaredRounded (ieee ℝ 24) (hitXY 0 0) (hitXY 1 0) (hitXY 0 0) = 1) := by
  have f0 : roundToPrec 24 (0 : ℝ) = 0 := roundToPrec_zero 24
  have f1 : roundToPrec 24 (1 : ℝ) = 1 := roundToPrec_one 24 (by norm_num)
  have fm : roundToPrec 24 (-1 : ℝ) = -1 := by
    simpa using roundToPrec_intCast (F := ℝ) 24 (-1) (by norm_num)
  have g0 : roundToPrec 53 (0 : ℝ) = 0 := roundToPrec_zero 53
  have g1 : roundToPrec 53 (1 : ℝ) = 1 := roundToPrec_one 53 (by norm_num)
  refine ⟨⟨?_, ?_⟩, ⟨?_, ?_⟩, ?_, ?_⟩ <;>
    norm_num [denomSquaredRounded, cosThetaSquaredRounded, dotXYRounded, diffXYRounded, hitXY,
      ieee, f0, f1, fm, g0, g1]

/-- The bend angles of the three small chains: 90, 90 and 180 degrees. -/
theorem bendAngle2D_small :
    bendAngle2D ⟨Real.cos, Real.arccos, Real.sqrt, Real.pi⟩
      (hitXY 0 0) (hitXY 1 0) (hitXY 1 1) = 90 ∧
    bendAngle2D ⟨Real.cos, Real.arccos, Real.sqrt, Real.pi⟩
      (hitXY 0 0) (hitXY 0 1) (hitXY 1 1) = 90 ∧
    bendAngle2D ⟨Real.cos, Real.arccos, Real.sqrt, Real.pi⟩
      (hitXY 0 0) (hitXY 1 0) (hitXY 0 0) = 180 := by
  have hpi : (π : ℝ) ≠ 0 := Real.pi_pos.ne'
  refine ⟨?_, ?_, ?_⟩
  · simp [bendAngle2D, dotXY, diffXY, normSqXY, hitXY]
    field_simp
    ring
  · simp [bendAngle2D, dotXY, diffXY, normSqXY, hitXY]
    field_simp
    ring
  · simp [bendAngle2D, dotXY, diffXY, normSqXY, hitXY]
    field_simp

/-- C4 as stated fails.  With the window [0, 0] the chain (0,0), (1,0), (0,0)
that turns straight back, bent by 180 degrees, is accepted although 180 lies
outside the window; with the window [0, 180] the chain (0,0), (1,0), (1,1),
bent by 90 degrees, is rejected although 90 lies in the window; and with the
window [0, 90] the chain (0,0), (0,1), (1,1), bent by 90 degrees, is rejected
at the edge of the window, because `cos( 90 * M_PI / 180. )` is not zero in
double arithmetic. -/
theorem C4_counterexample :
    (((Crit3_2DAngle.newRounded (ieee ℝ 24)
        (MathOps.inDouble ⟨Real.cos, Real.arccos, Real.sqrt, Real.pi⟩) 0 0).areCompatibleRounded
      (ieee ℝ 24) (MathOps.inDouble ⟨Real.cos, Real.arccos, Real.sqrt, Real.pi⟩)
      (Segment.ofHits [hitXY 0 0, hitXY 1 0])
      (Segment.ofHits [hitXY 1 0, hitXY 0 0])).result = .ok true ∧
      bendAngle2D ⟨Real.cos, Real.arccos, Real.sqrt, Real.pi⟩
        (hitXY 0 0) (hitXY 1 0) (hitXY 0 0) = 180) ∧
    (((Crit3_2DAngle.newRounded (ieee ℝ 24)
        (MathOps.inDouble ⟨Real.cos, Real.arccos, Real.sqrt, Real.pi⟩) 0 180).areCompatibleRounded
      (ieee ℝ 24) (MathOps.inDouble ⟨Real.cos, Real.arccos, Real.sqrt, Real.pi⟩)
      (Segment.ofHits [hitXY 0 0, hitXY 1 0])
      (Segment.ofHits [hitXY 1 0, hitXY 1 1])).result = .ok false ∧
      bendAngle2D ⟨Real.cos, Real.arccos, Real.sqrt, Real.pi⟩
        (hitXY 0 0) (hitXY 1 0) (hitXY 1 1) = 90) ∧
    (((Crit3_2DAngle.newRounded (ieee ℝ 24)
        (MathOps.inDouble ⟨Real.cos, Real.arccos, Real.sqrt, Real.pi⟩) 0 90).areCompatibleRounded
      (ieee ℝ 24) (MathOps.inDouble ⟨Real.cos, Real.arccos, Real.sqrt, Real.pi⟩)
      (Segment.ofHits [hitXY 0 0, hitXY 0 1])
      (Segment.ofHits [hitXY 0 1, hitXY 1 1])).result = .ok false ∧
      bendAngle2D ⟨Real.cos, Real.arccos, Real.sqrt, Real.pi⟩
        (hitXY 0 0) (hitXY 0 1) (hitXY 1 1) = 90 ∧
      foldAngle (bendAngle2D ⟨Real.cos, Real.arccos, Real.sqrt, Real.pi⟩
        (hitXY 0 0) (hitXY 0 1) (hitXY 1 1)) = 90) := by
  obtain ⟨hmin0, hmax0⟩ := storedBounds_zero (ieee ℝ 24)
    (MathOps.inDouble ⟨Real.cos, Real.arccos, Real.sqrt, Real.pi⟩)
    (ieee_accurate 24 (le_refl 24)) inDouble_accurate
  refine ⟨⟨?_, bendAngle2D_small.2.2⟩, ⟨?_, bendAngle2D_small.1⟩, ?_, bendAngle2D_small.2.1, ?_⟩
  · rw [areCompatibleRounded_result_two _ _ _ _ _ (hitXY 0 0) (hitXY 1 0) (hitXY 1 0)
      (hitXY 0 0) rfl rfl, if_pos cosThetaSquaredRounded_small.2.2.1,
      cosThetaSquaredRounded_small.2.2.2, hmin0, hmax0]
    simp
  · rw [areCompatibleRounded_result_two _ _ _ _ _ (hitXY 0 0) (hitXY 1 0) (hitXY 1 0)
      (hitXY 1 1) rfl rfl, if_pos cosThetaSquaredRounded_small.1.1,
      cosThetaSquaredRounded_small.1.2]
    simp [storedMin_one_eighty_pos 0]
  · rw [areCompatibleRounded_result_two _ _ _ _ _ (hitXY 0 0) (hitXY 0 1) (hitXY 0 1)
      (hitXY 1 1) rfl rfl, if_pos cosThetaSquaredRounded_small.2.1.1,
      cosThetaSquaredRounded_small.2.1.2]
    simp [storedMin_ninety_pos 0]
  · rw [bendAngle2D_small.2.1]
    norm_num [foldAngle]

end EdgeCounterexamples

/-! ## Claim C6: the recorded angle against the verdict -/

section RecordedAngle

open Real

/-- The angle recorded for a number `y` of [0, 1] is within a hundredth of a
degree of `acos y` in degrees. -/
theorem recorded_err (Rf Rd acosl : ℝ → ℝ) (mpi y : ℝ)
    (hRf : ∀ x, |Rf x - x| ≤ |x| / 2 ^ 24) (hRd : ∀ x, |Rd x - x| ≤ |x| / 2 ^ 53)
    (hpi : |mpi - π| ≤ 1 / 2 ^ 51) (hy0 : 0 ≤ y)
    (hacos : |acosl y - arccos y| ≤ 1 / 2 ^ 50) :
    |Rf (Rd (Rd (acosl y * 180) / mpi)) - arccos y * 180 / π| ≤ 1 / 100 := by
  have hpi0 : 0 < π := Real.pi_pos
  have hpi3 := Real.pi_gt_three
  have hpi4 := Real.pi_lt_four
  have hψ0 : 0 ≤ arccos y := Real.arccos_nonneg y
  have hψ1 : arccos y ≤ π / 2 := Real.arccos_le_pi_div_two.mpr hy0
  have hpi' := abs_le.mp hpi
  have hmpi3 : 3 ≤ mpi := by
    have : (1 : ℝ) / 2 ^ 51 ≤ 1 / 100 := by norm_num
    have h314 := Real.pi_gt_d2
    norm_num at h314
    linarith
  have hmpi0 : 0 < mpi := by linarith
  -- the product by 180
  have hψ180 : |arccos y * 180| ≤ 360 := by
    rw [abs_of_nonneg (by positivity)]
    linarith
  have hx1 : |acosl y * 180 - arccos y * 180| ≤ 180 / 2 ^ 50 := by
    rw [← sub_mul, abs_mul, abs_of_pos (by norm_num : (0 : ℝ) < 180)]
    calc |acosl y - arccos y| * 180 ≤ 1 / 2 ^ 50 * 180 :=
          mul_le_mul_of_nonneg_right hacos (by norm_num)
      _ = 180 / 2 ^ 50 := by ring
  have hx1abs : |acosl y * 180| ≤ 361 := by
    have h1 : |acosl y * 180| ≤ |acosl y * 180 - arccos y * 180| + |arccos y * 180| := by
      have := abs_add (acosl y * 180 - arccos y * 180) (arccos y * 180)
      simpa using this
    have : (180 : ℝ) / 2 ^ 50 ≤ 1 := by norm_num
    linarith
  have ht1 : |Rd (acosl y * 180) - arccos y * 180| ≤ 1 / 10 ^ 12 := by
    have h1 : |Rd (acosl y * 180) - arccos y * 180|
        ≤ |Rd (acosl y * 180) - acosl y * 180| + |acosl y * 180 - arccos y * 180| := by
      have := abs_add (Rd (acosl y * 180) - acosl y * 180) (acosl y * 180 - arccos y * 180)
      simpa using this
    have h2 : |Rd (acosl y * 180) - acosl y * 180| ≤ 361 / 2 ^ 53 :=
      (hRd _).trans (div_le_div_of_nonneg_right hx1abs (by positivity))
    calc |Rd (acosl y * 180) - arccos y * 180| ≤ 361 / 2 ^ 53 + 180 / 2 ^ 50 := by linarith
      _ ≤ 1 / 10 ^ 12 := by norm_num
  -- the division by M_PI
  have hx2 : |Rd (acosl y * 180) / mpi - arccos y * 180 / π| ≤ 1 / 10 ^ 11 := by
    have e : Rd (acosl y * 180) / mpi - arccos y * 180 / π
        = ((Rd (acosl y * 180) - arccos y * 180) * π - arccos y * 180 * (mpi - π))
          / (mpi * π) := by
      field_simp
      ring
    rw [e, abs_div, abs_of_pos (mul_pos hmpi0 hpi0), div_le_iff₀ (mul_pos hmpi0 hpi0)]
    have h1 : |(Rd (acosl y * 180) - arccos y * 180) * π| ≤ 1 / 10 ^ 12 * 4 := by
      rw [abs_mul, abs_of_pos hpi0]
      exact mul_le_mul ht1 hpi4.le hpi0.le (by norm_num)
    have h2 : |arccos y * 180 * (mpi - π)| ≤ 360 * (1 / 2 ^ 51) := by
      rw [abs_mul]
      exact mul_le_mul hψ180 hpi (abs_nonneg _) (by norm_num)
    have h3 : (9 : ℝ) ≤ mpi * π := by nlinarith
    calc |(Rd (acosl y * 180) - arccos y * 180) * π - arccos y * 180 * (mpi - π)|
        ≤ |(Rd (acosl y * 180) - arccos y * 180) * π| + |arccos y * 180 * (mpi - π)| :=
          abs_sub _ _
      _ ≤ 1 / 10 ^ 12 * 4 + 360 * (1 / 2 ^ 51) := by linarith
      _ ≤ 1 / 10 ^ 11 * 9 := by norm_num
      _ ≤ 1 / 10 ^ 11 * (mpi * π) := mul_le_mul_of_nonneg_left h3 (by norm_num)
  have hT : |arccos y * 180 / π| ≤ 90 := by
    rw [abs_of_nonneg (by positivity), div_le_iff₀ hpi0]
    linarith
  have hx2abs : |Rd (acosl y * 180) / mpi| ≤ 91 := by
    have h1 : |Rd (acosl y * 180) / mpi|
        ≤ |Rd (acosl y * 180) / mpi - arccos y * 180 / π| + |arccos y * 180 / π| := by
      have := abs_add (Rd (acosl y * 180) / mpi - arccos y * 180 / π) (arccos y * 180 / π)
      simpa using this
    have : (1 : ℝ) / 10 ^ 11 ≤ 1 := by norm_num
    linarith
  have ht2 : |Rd (Rd (acosl y * 180) / mpi) - Rd (acosl y * 180) / mpi| ≤ 91 / 2 ^ 53 :=
    (hRd _).trans (div_le_div_of_nonneg_right hx2abs (by positivity))
  have ht2abs : |Rd (Rd (acosl y * 180) / mpi)| ≤ 92 := by
    have h1 : |Rd (Rd (acosl y * 180) / mpi)|
        ≤ |Rd (Rd (acosl y * 180) / mpi) - Rd (acosl y * 180) / mpi|
          + |Rd (acosl y * 180) / mpi| := by
      have := abs_add (Rd (Rd (acosl y * 180) / mpi) - Rd (acosl y * 180) / mpi)
        (Rd (acosl y * 180) / mpi)
      simpa using this
    have : (91 : ℝ) / 2 ^ 53 ≤ 1 := by norm_num
    linarith
  have hq : |Rf (Rd (Rd (acosl y * 180) / mpi)) - Rd (Rd (acosl y * 180) / mpi)|
      ≤ 92 / 2 ^ 24 :=
    (hRf _).trans (div_le_div_of_nonneg_right ht2abs (by positivity))
  have h1 : |Rf (Rd (Rd (acosl y * 180) / mpi)) - arccos y * 180 / π|
      ≤ |Rf (Rd (Rd (acosl y * 180) / mpi)) - Rd (Rd (acosl y * 180) / mpi)|
        + (|Rd (Rd (acosl y * 180) / mpi) - Rd (acosl y * 180) / mpi|
          + |Rd (acosl y * 180) / mpi - arccos y * 180 / π|) := by
    have a1 := abs_add (Rf (Rd (Rd (acosl y * 180) / mpi)) - Rd (Rd (acosl y * 180) / mpi))
      (Rd (Rd (acosl y * 180) / mpi) - arccos y * 180 / π)
    have a2 := abs_add (Rd (Rd (acosl y * 180) / mpi) - Rd (acosl y * 180) / mpi)
      (Rd (acosl y * 180) / mpi - arccos y * 180 / π)
    simp only [sub_add_sub_cancel] at a1 a2
    linarith
  calc |Rf (Rd (Rd (acosl y * 180) / mpi)) - arccos y * 180 / π|
      ≤ 92 / 2 ^ 24 + (91 / 2 ^ 53 + 1 / 10 ^ 11) := by linarith
    _ ≤ 1 / 100 := by norm_num

/-- Accurate double rounding keeps a non-negative number non-negative. -/
theorem Rounding.Accurate.toDouble_nonneg {r : Rounding ℝ} (hr : r.Accurate) (x : ℝ)
    (hx : 0 ≤ x) : 0 ≤ r.toDouble x := by
  have h := (abs_le.mp (hr.toDouble_err x)).1
  rw [abs_of_nonneg hx] at h
  have h2 : x / 2 ^ 53 ≤ x := div_le_self hx (by norm_num)
  linarith

/-- The computed squared cosine is not negative when the computed denominator
is positive. -/
theorem cosThetaSquaredRounded_nonneg (r : Rounding ℝ) (hr : r.Accurate) (a b c : AutHit ℝ)
    (hd : 0 < denomSquaredRounded r a b c) : 0 ≤ cosThetaSquaredRounded r a b c := by
  unfold denomSquaredRounded at hd
  unfold cosThetaSquaredRounded
  exact hr.toDouble_nonneg _ (div_nonneg (hr.toDouble_nonneg _ (mul_self_nonneg _)) hd.le)

/-- The verdict of the rounded criterion from the recorded angle: true when
the recorded angle is at least a tenth of a degree inside the window, false
when it is at least a tenth of a degree outside. -/
theorem areCompatibleRounded_recorded_tolerance (r : Rounding ℝ) (m : MathOps ℝ)
    (hr : r.Accurate) (hm : m.Accurate) (angleMin angleMax : ℝ) (flag : Bool)
    (values : ValueMap ℝ) (parent child : Segment ℝ) (a b b' c : AutHit ℝ)
    (hp : parent.autHits = [a, b]) (hc : child.autHits = [b', c])
    (h0 : 0 ≤ angleMin) (hle : angleMin ≤ angleMax) (h90 : angleMax ≤ 90)
    (hd : 0 < denomSquaredRounded r a b c) (h1 : cosThetaSquaredRounded r a b c ≤ 1) :
    ((angleMin + 1 / 10 ≤ recordedAngle r m (cosThetaSquaredRounded r a b c) ∧
        recordedAngle r m (cosThetaSquaredRounded r a b c) ≤ angleMax - 1 / 10) →
      (((Crit3_2DAngle.newRounded r m angleMin angleMax).inState flag
        values).areCompatibleRounded r m parent child).result = .ok true) ∧
    ((recordedAngle r m (cosThetaSquaredRounded r a b c) ≤ angleMin - 1 / 10 ∨
        angleMax + 1 / 10 ≤ recordedAngle r m (cosThetaSquaredRounded r a b c)) →
      (((Crit3_2DAngle.newRounded r m angleMin angleMax).inState flag
        values).areCompatibleRounded r m parent child).result = .ok false) := by
  have hpi : 0 < π := Real.pi_pos
  have hc0 := cosThetaSquaredRounded_nonneg r hr a b c hd
  obtain ⟨hmin, hmax⟩ := storedBounds_err r m hr hm angleMin angleMax h0 hle h90
  have hmin' := abs_le.mp hmin
  have hmax' := abs_le.mp hmax
  have hgap := sin_sq_nine_hundredths
  obtain ⟨hy0, hy1⟩ := hm.sqrt_mem _ hc0 h1
  have hrec0 : |recordedAngle r m (cosThetaSquaredRounded r a b c)
      - arccos (m.sqrt (cosThetaSquaredRounded r a b c)) * 180 / π| ≤ 1 / 100 :=
    recorded_err r.toFloat r.toDouble m.acos m.pi
      (m.sqrt (cosThetaSquaredRounded r a b c)) hr.toFloat_err hr.toDouble_err hm.pi_err hy0
      (hm.acos_err _ hy0 hy1)
  have hrec := abs_le.mp hrec0
  have hψ0 : 0 ≤ arccos (m.sqrt (cosThetaSquaredRounded r a b c)) := Real.arccos_nonneg _
  have hψ1 : arccos (m.sqrt (cosThetaSquaredRounded r a b c)) ≤ π / 2 :=
    Real.arccos_le_pi_div_two.mpr hy0
  have hcos : cos (arccos (m.sqrt (cosThetaSquaredRounded r a b c))) ^ 2
      = m.sqrt (cosThetaSquaredRounded r a b c) ^ 2 := by
    rw [Real.cos_arccos (by linarith) hy1]
  -- the square of the computed square root is the squared cosine up to 2^-51
  have hs := abs_le.mp (hm.sqrt_err _ hc0 h1)
  have hsq0 : 0 ≤ √(cosThetaSquaredRounded r a b c) := Real.sqrt_nonneg _
  have hsq1 : √(cosThetaSquaredRounded r a b c) ≤ 1 := Real.sqrt_le_one.mpr h1
  have hsqsq : √(cosThetaSquaredRounded r a b c) ^ 2 = cosThetaSquaredRounded r a b c :=
    Real.sq_sqrt hc0
  have hy2 : |m.sqrt (cosThetaSquaredRounded r a b c) ^ 2 - cosThetaSquaredRounded r a b c|
      ≤ 1 / 10 ^ 15 := by
    have e : m.sqrt (cosThetaSquaredRounded r a b c) ^ 2 - cosThetaSquaredRounded r a b c
        = (m.sqrt (cosThetaSquaredRounded r a b c) - √(cosThetaSquaredRounded r a b c))
          * (m.sqrt (cosThetaSquaredRounded r a b c) + √(cosThetaSquaredRounded r a b c)) := by
      rw [← hsqsq]
      simp only [Real.sqrt_sq hsq0]
      ring
    rw [e, abs_mul]
    calc |m.sqrt (cosThetaSquaredRounded r a b c) - √(cosThetaSquaredRounded r a b c)|
          * |m.sqrt (cosThetaSquaredRounded r a b c) + √(cosThetaSquaredRounded r a b c)|
        ≤ 1 / 2 ^ 52 * 2 :=
          mul_le_mul (hm.sqrt_err _ hc0 h1) (abs_le.mpr ⟨by linarith, by linarith⟩)
            (abs_nonneg _) (by norm_num)
      _ ≤ 1 / 10 ^ 15 := by norm_num
  have hy2' := abs_le.mp hy2
  obtain ⟨ha0, ha1⟩ := rad_bounds angleMin h0 (by linarith)
  obtain ⟨hb0, hb1⟩ := rad_bounds angleMax (by linarith) h90
  have hτ : (0 : ℝ) ≤ π / 2000 := by positivity
  -- degrees into radians
  have hdeg : ∀ t X : ℝ, t * 180 / π ≤ X ↔ t ≤ X * π / 180 := deg_le_iff
  have hdeg' : ∀ t X : ℝ, X ≤ t * 180 / π ↔ X * π / 180 ≤ t := le_deg_iff
  rw [areCompatibleRounded_result_two r m _ parent child a b b' c hp hc, if_pos hd]
  simp only [Crit3_2DAngle.inState]
  constructor
  · rintro ⟨hlo, hhi⟩
    have hlo' : angleMin + 9 / 100
        ≤ arccos (m.sqrt (cosThetaSquaredRounded r a b c)) * 180 / π := by linarith
    have hhi' : arccos (m.sqrt (cosThetaSquaredRounded r a b c)) * 180 / π
        ≤ angleMax - 9 / 100 := by linarith
    rw [hdeg'] at hlo'
    rw [hdeg] at hhi'
    have g1 := cos_sq_gap (arccos (m.sqrt (cosThetaSquaredRounded r a b c)))
      (angleMax * π / 180) (π / 2000) hψ0 hτ (by linarith) hb1
    have g2 := cos_sq_gap (angleMin * π / 180)
      (arccos (m.sqrt (cosThetaSquaredRounded r a b c))) (π / 2000) ha0 hτ (by linarith) hψ1
    rw [hcos] at g1 g2
    have e1 : ¬ cosThetaSquaredRounded r a b c
        < r.toMember ((Crit3_2DAngle.newRounded r m angleMin angleMax)._cosAngleMin
          * (Crit3_2DAngle.newRounded r m angleMin angleMax)._cosAngleMin) := by
      rw [not_lt]
      linarith
    have e2 : ¬ cosThetaSquaredRounded r a b c
        > r.toMember ((Crit3_2DAngle.newRounded r m angleMin angleMax)._cosAngleMax
          * (Crit3_2DAngle.newRounded r m angleMin angleMax)._cosAngleMax) := by
      rw [gt_iff_lt, not_lt]
      linarith
    simp [e1, e2]
  · rintro (hlo | hhi)
    · have hlo' : arccos (m.sqrt (cosThetaSquaredRounded r a b c)) * 180 / π
          ≤ angleMin - 9 / 100 := by linarith
      rw [hdeg] at hlo'
      have g := cos_sq_gap (arccos (m.sqrt (cosThetaSquaredRounded r a b c)))
        (angleMin * π / 180) (π / 2000) hψ0 hτ (by linarith) ha1
      rw [hcos] at g
      have e2 : cosThetaSquaredRounded r a b c
          > r.toMember ((Crit3_2DAngle.newRounded r m angleMin angleMax)._cosAngleMax
            * (Crit3_2DAngle.newRounded r m angleMin angleMax)._cosAngleMax) := by
        rw [gt_iff_lt]
        linarith
      simp [e2]
    · have hhi' : angleMax + 9 / 100
          ≤ arccos (m.sqrt (cosThetaSquaredRounded r a b c)) * 180 / π := by linarith
      rw [hdeg'] at hhi'
      have g := cos_sq_gap (angleMax * π / 180)
        (arccos (m.sqrt (cosThetaSquaredRounded r a b c))) (π / 2000) hb0 hτ (by linarith) hψ1
      rw [hcos] at g
      have e1 : cosThetaSquaredRounded r a b c
          < r.toMember ((Crit3_2DAngle.newRounded r m angleMin angleMax)._cosAngleMin
            * (Crit3_2DAngle.newRounded r m angleMin angleMax)._cosAngleMin) := by
        linarith
      simp [e1]

/-- C6, as amended: for every window `0 <= angleMin <= angleMax <= 90` degrees
and every two pairs of 2-hit segments evaluated with that window and
instrumentation on, in the float and double arithmetic, with a positive
computed denominator and a computed squared cosine of at most 1 (above 1 the
code records no number): each call records its measured angle under
"2DAngle_2DAngle"; if the angle recorded for the first lies in
`[angleMin + 0.1, angleMax - 0.1]` its verdict is true, if the angle recorded
for the second is at most `angleMin - 0.1` or at least `angleMax + 0.1` its
verdict is false, so that a false verdict never becomes true by moving the
measured angle out of the window by more than a tenth of a degree. -/
theorem C6_recorded_angle_tolerance (r : Rounding ℝ) (m : MathOps ℝ)
    (hr : r.Accurate) (hm : m.Accurate) (angleMin angleMax : ℝ)
    (values1 values2 : ValueMap ℝ)
    (parent1 child1 : Segment ℝ) (a1 b1 b1' c1 : AutHit ℝ)
    (parent2 child2 : Segment ℝ) (a2 b2 b2' c2 : AutHit ℝ)
    (hp1 : parent1.autHits = [a1, b1]) (hc1 : child1.autHits = [b1', c1])
    (hp2 : parent2.autHits = [a2, b2]) (hc2 : child2.autHits = [b2', c2])
    (h0 : 0 ≤ angleMin) (hle : angleMin ≤ angleMax) (h90 : angleMax ≤ 90)
    (hd1 : 0 < denomSquaredRounded r a1 b1 c1) (hd2 : 0 < denomSquaredRounded r a2 b2 c2)
    (hle1 : cosThetaSquaredRounded r a1 b1 c1 ≤ 1)
    (hle2 : cosThetaSquaredRounded r a2 b2 c2 ≤ 1) :
    ∃ q1 q2 : ℝ,
      (((Crit3_2DAngle.newRounded r m angleMin angleMax).inState true
          values1).areCompatibleRounded r m parent1 child1).self.getMapOfValues.find
          "2DAngle_2DAngle" = some q1 ∧
      (((Crit3_2DAngle.newRounded r m angleMin angleMax).inState true
          values2).areCompatibleRounded r m parent2 child2).self.getMapOfValues.find
          "2DAngle_2DAngle" = some q2 ∧
      ((angleMin + 1 / 10 ≤ q1 ∧ q1 ≤ angleMax - 1 / 10) →
        (((Crit3_2DAngle.newRounded r m angleMin angleMax).inState true
          values1).areCompatibleRounded r m parent1 child1).result = .ok true) ∧
      ((q2 ≤ angleMin - 1 / 10 ∨ angleMax + 1 / 10 ≤ q2) →
        (((Crit3_2DAngle.newRounded r m angleMin angleMax).inState true
          values2).areCompatibleRounded r m parent2 child2).result = .ok false) ∧
      ((((Crit3_2DAngle.newRounded r m angleMin angleMax).inState true
          values1).areCompatibleRounded r m parent1 child1).result = .ok false →
        (q2 ≤ angleMin - 1 / 10 ∨ angleMax + 1 / 10 ≤ q2) →
        (((Crit3_2DAngle.newRounded r m angleMin angleMax).inState true
          values2).areCompatibleRounded r m parent2 child2).result ≠ .ok true) := by
  have hr1 := (areCompatibleRounded_recorded r m
    ((Crit3_2DAngle.newRounded r m angleMin angleMax).inState true values1) parent1 child1
    a1 b1 b1' c1 hp1 hc1 rfl).2
  have hr2 := (areCompatibleRounded_recorded r m
    ((Crit3_2DAngle.newRounded r m angleMin angleMax).inState true values2) parent2 child2
    a2 b2 b2' c2 hp2 hc2 rfl).2
  rw [if_pos hd1] at hr1
  rw [if_pos hd2] at hr2
  obtain ⟨hin1, _⟩ := areCompatibleRounded_recorded_tolerance r m hr hm angleMin angleMax true
    values1 parent1 child1 a1 b1 b1' c1 hp1 hc1 h0 hle h90 hd1 hle1
  obtain ⟨_, hout2⟩ := areCompatibleRounded_recorded_tolerance r m hr hm angleMin angleMax true
    values2 parent2 child2 a2 b2 b2' c2 hp2 hc2 h0 hle h90 hd2 hle2
  refine ⟨_, _, hr1, hr2, hin1, hout2, ?_⟩
  intro _ hout h
  rw [hout2 hout] at h
  cases h

end RecordedAngle

section RecordedAngleExamples

open Real

/-- The float arithmetic on the chain (0,0), (1,0), (2,1), bent by 45 degrees,
on the straight chain (0,0), (1,0), (2,0) and on three copies of the hit
(0,0): the squared cosines are 1/2 and 1, and the last denominator is zero. -/
theorem cosThetaSquaredRounded_examples :
    (0 < denomSquaredRounded (ieee ℝ 24) (hitXY 0 0) (hitXY 1 0) (hitXY 2 1) ∧
      cosThetaSquaredRounded (ieee ℝ 24) (hitXY 0 0) (hitXY 1 0) (hitXY 2 1) = 1 / 2) ∧
    (0 < denomSquaredRounded (ieee ℝ 24) (hitXY 0 0) (hitXY 1 0) (hitXY 2 0) ∧
      cosThetaSquaredRounded (ieee ℝ 24) (hitXY 0 0) (hitXY 1 0) (hitXY 2 0) = 1) ∧
    denomSquaredRounded (ieee ℝ 24) (hitXY 0 0) (hitXY 0 0) (hitXY 0 0) = 0 := by
  have f0 : roundToPrec 24 (0 : ℝ) = 0 := roundToPrec_zero 24
  have f1 : roundToPrec 24 (1 : ℝ) = 1 := roundToPrec_one 24 (by norm_num)
  have f2 : roundToPrec 24 (2 : ℝ) = 2 := by
    simpa using roundToPrec_natCast (F := ℝ) 24 2 (by norm_num)
  have g0 : roundToPrec 53 (0 : ℝ) = 0 := roundToPrec_zero 53
  have g1 : roundToPrec 53 (1 : ℝ) = 1 := roundToPrec_one 53 (by norm_num)
  have g2 : roundToPrec 53 (2 : ℝ) = 2 := by
    simpa using roundToPrec_natCast (F := ℝ) 53 2 (by norm_num)
  have gh : roundToPrec 53 ((2 : ℝ)⁻¹) = 2⁻¹ := by
    have := roundToPrec_exact (F := ℝ) 53 1 (-1) (by norm_num)
    simpa using this
  have gh2 : roundToPrec 53 ((1 : ℝ) / 2) = 1 / 2 := by
    rw [one_div]
    exact gh
  refine ⟨⟨?_, ?_⟩, ⟨?_, ?_⟩, ?_⟩ <;>
    norm_num [denomSquaredRounded, cosThetaSquaredRounded, dotXYRounded, diffXYRounded, hitXY,
      ieee, f0, f1, f2, g0, g1, g2, gh, gh2]

/-- The angle recorded for the squared cosine 1/2 is within a hundredth of a
degree of [30, 60]. -/
theorem recordedAngle_half :
    30 - 1 / 100 ≤ recordedAngle (ieee ℝ 24)
      (MathOps.inDouble ⟨Real.cos, Real.arccos, Real.sqrt, Real.pi⟩) (1 / 2) ∧
    recordedAngle (ieee ℝ 24)
      (MathOps.inDouble ⟨Real.cos, Real.arccos, Real.sqrt, Real.pi⟩) (1 / 2) ≤ 60 + 1 / 100 := by
  have hpi : 0 < π := Real.pi_pos
  have hm := inDouble_accurate
  have hr := ieee_accurate 24 (le_refl 24)
  obtain ⟨hy0, hy1⟩ := hm.sqrt_mem (1 / 2) (by norm_num) (by norm_num)
  have hs := abs_le.mp (hm.sqrt_err (1 / 2) (by norm_num) (by norm_num))
  have hlo : (7 : ℝ) / 10 ≤ √(1 / 2) := Real.le_sqrt_of_sq_le (by norm_num)
  have hhi : √(1 / 2) ≤ (71 : ℝ) / 100 :=
    (Real.sqrt_le_left (by norm_num)).mpr (by norm_num)
  have h3 : (144 : ℝ) / 100 ≤ √3 := Real.le_sqrt_of_sq_le (by norm_num)
  have hrec := abs_le.mp (recorded_err (ieee ℝ 24).toFloat (ieee ℝ 24).toDouble
    (MathOps.inDouble ⟨Real.cos, Real.arccos, Real.sqrt, Real.pi⟩).acos
    (MathOps.inDouble ⟨Real.cos, Real.arccos, Real.sqrt, Real.pi⟩).pi
    ((MathOps.inDouble ⟨Real.cos, Real.arccos, Real.sqrt, Real.pi⟩).sqrt (1 / 2))
    hr.toFloat_err hr.toDouble_err hm.pi_err hy0 (hm.acos_err _ hy0 hy1))
  have e1 : (1 : ℝ) / 2 ^ 52 ≤ 1 / 100 := by norm_num
  have ha1 : arccos ((MathOps.inDouble ⟨Real.cos, Real.arccos, Real.sqrt, Real.pi⟩).sqrt
      (1 / 2)) ≤ π / 3 := by
    have h := Real.strictAntiOn_arccos.antitoneOn (a := 1 / 2)
      (b := (MathOps.inDouble ⟨Real.cos, Real.arccos, Real.sqrt, Real.pi⟩).sqrt (1 / 2))
      ⟨by norm_num, by norm_num⟩ ⟨by linarith, hy1⟩ (by linarith)
    have e : arccos (1 / 2) = π / 3 := by
      rw [← Real.cos_pi_div_three, Real.arccos_cos (by positivity) (by linarith)]
    rwa [e] at h
  have ha2 : π / 6 ≤ arccos ((MathOps.inDouble ⟨Real.cos, Real.arccos, Real.sqrt, Real.pi⟩).sqrt
      (1 / 2)) := by
    have h := Real.strictAntiOn_arccos.antitoneOn
      (a := (MathOps.inDouble ⟨Real.cos, Real.arccos, Real.sqrt, Real.pi⟩).sqrt (1 / 2))
      (b := √3 / 2)
      ⟨by linarith, hy1⟩ ⟨by linarith, by rw [← Real.cos_pi_div_six]; exact Real.cos_le_one _⟩
      (by linarith)
    have e : arccos (√3 / 2) = π / 6 := by
      rw [← Real.cos_pi_div_six, Real.arccos_cos (by positivity) (by linarith)]
    rwa [e] at h
  have hd1 : arccos ((MathOps.inDouble ⟨Real.cos, Real.arccos, Real.sqrt, Real.pi⟩).sqrt
      (1 / 2)) * 180 / π ≤ 60 := by
    rw [deg_le_iff]
    linarith
  have hd2 : 30 ≤ arccos ((MathOps.inDouble ⟨Real.cos, Real.arccos, Real.sqrt, Real.pi⟩).sqrt
      (1 / 2)) * 180 / π := by
    rw [le_deg_iff]
    linarith
  unfold recordedAngle
  constructor <;> linarith [hrec.1, hrec.2]

/-- Witness of C6 (amended): with the window [20, 70], the chain (0,0), (1,0),
(2,1) records an angle of about 45 degrees and is accepted, and the straight
chain (0,0), (1,0), (2,0) records the angle 0 and is rejected. -/
theorem C6_recorded_angle_tolerance_witness :
    ((ieee ℝ 24).Accurate ∧
      (MathOps.inDouble ⟨Real.cos, Real.arccos, Real.sqrt, Real.pi⟩).Accurate ∧
      0 < denomSquaredRounded (ieee ℝ 24) (hitXY 0 0) (hitXY 1 0) (hitXY 2 1) ∧
      0 < denomSquaredRounded (ieee ℝ 24) (hitXY 0 0) (hitXY 1 0) (hitXY 2 0) ∧
      cosThetaSquaredRounded (ieee ℝ 24) (hitXY 0 0) (hitXY 1 0) (hitXY 2 1) ≤ 1 ∧
      cosThetaSquaredRounded (ieee ℝ 24) (hitXY 0 0) (hitXY 1 0) (hitXY 2 0) ≤ 1) ∧
    (((Crit3_2DAngle.newRounded (ieee ℝ 24)
          (MathOps.inDouble ⟨Real.cos, Real.arccos, Real.sqrt, Real.pi⟩) 20 70).inState true
        []).areCompatibleRounded (ieee ℝ 24)
          (MathOps.inDouble ⟨Real.cos, Real.arccos, Real.sqrt, Real.pi⟩)
          (Segment.ofHits [hitXY 0 0, hitXY 1 0])
          (Segment.ofHits [hitXY 1 0, hitXY 2 1])).result = .ok true ∧
    (((Crit3_2DAngle.newRounded (ieee ℝ 24)
          (MathOps.inDouble ⟨Real.cos, Real.arccos, Real.sqrt, Real.pi⟩) 20 70).inState true
        []).areCompatibleRounded (ieee ℝ 24)
          (MathOps.inDouble ⟨Real.cos, Real.arccos, Real.sqrt, Real.pi⟩)
          (Segment.ofHits [hitXY 0 0, hitXY 1 0])
          (Segment.ofHits [hitXY 1 0, hitXY 2 0])).result = .ok false := by
  obtain ⟨⟨hd1, hc1⟩, ⟨hd2, hc2⟩, _⟩ := cosThetaSquaredRounded_examples
  have hle1 : cosThetaSquaredRounded (ieee ℝ 24) (hitXY 0 0) (hitXY 1 0) (hitXY 2 1) ≤ 1 := by
    rw [hc1]
    norm_num
  have hle2 : cosThetaSquaredRounded (ieee ℝ 24) (hitXY 0 0) (hitXY 1 0) (hitXY 2 0) ≤ 1 := by
    rw [hc2]
  obtain ⟨q1, q2, hq1, hq2, hin, hout, _⟩ :=
    C6_recorded_angle_tolerance (ieee ℝ 24)
      (MathOps.inDouble ⟨Real.cos, Real.arccos, Real.sqrt, Real.pi⟩)
      (ieee_accurate 24 (le_refl 24)) inDouble_accurate 20 70 [] []
      (Segment.ofHits [hitXY 0 0, hitXY 1 0]) (Segment.ofHits [hitXY 1 0, hitXY 2 1])
      (hitXY 0 0) (hitXY 1 0) (hitXY 1 0) (hitXY 2 1)
      (Segment.ofHits [hitXY 0 0, hitXY 1 0]) (Segment.ofHits [hitXY 1 0, hitXY 2 0])
      (hitXY 0 0) (hitXY 1 0) (hitXY 1 0) (hitXY 2 0)
      rfl rfl rfl rfl (by norm_num) (by norm_num) (by norm_num) hd1 hd2 hle1 hle2
  have hr1 := (areCompatibleRounded_recorded (ieee ℝ 24)
    (MathOps.inDouble ⟨Real.cos, Real.arccos, Real.sqrt, Real.pi⟩)
    ((Crit3_2DAngle.newRounded (ieee ℝ 24)
      (MathOps.inDouble ⟨Real.cos, Real.arccos, Real.sqrt, Real.pi⟩) 20 70).inState true [])
    (Segment.ofHits [hitXY 0 0, hitXY 1 0]) (Segment.ofHits [hitXY 1 0, hitXY 2 1])
    (hitXY 0 0) (hitXY 1 0) (hitXY 1 0) (hitXY 2 1) rfl rfl rfl).2
  have hr2 := (areCompatibleRounded_recorded (ieee ℝ 24)
    (MathOps.inDouble ⟨Real.cos, Real.arccos, Real.sqrt, Real.pi⟩)
    ((Crit3_2DAngle.newRounded (ieee ℝ 24)
      (MathOps.inDouble ⟨Real.cos, Real.arccos, Real.sqrt, Real.pi⟩) 20 70).inState true [])
    (Segment.ofHits [hitXY 0 0, hitXY 1 0]) (Segment.ofHits [hitXY 1 0, hitXY 2 0])
    (hitXY 0 0) (hitXY 1 0) (hitXY 1 0) (hitXY 2 0) rfl rfl rfl).2
  rw [if_pos hd1, hc1] at hr1
  rw [if_pos hd2, hc2, recordedAngle_one] at hr2
  have e1 : q1 = recordedAngle (ieee ℝ 24)
      (MathOps.inDouble ⟨Real.cos, Real.arccos, Real.sqrt, Real.pi⟩) (1 / 2) :=
    Option.some.inj (hq1.symm.trans hr1)
  have e2 : q2 = 0 := Option.some.inj (hq2.symm.trans hr2)
  refine ⟨⟨ieee_accurate 24 (le_refl 24), inDouble_accurate, hd1, hd2, hle1, hle2⟩, ?_, ?_⟩
  · apply hin
    rw [e1]
    constructor <;> linarith [recordedAngle_half.1, recordedAngle_half.2]
  · apply hout
    rw [e2]
    left
    norm_num

/-- With the bounds -90 and 90 degrees the upper bound of the squared cosine
is below 1. -/
theorem storedMax_minus_ninety_lt_one (angleMax : ℝ) :
    (ieee ℝ 24).toMember
      ((Crit3_2DAngle.newRounded (ieee ℝ 24)
          (MathOps.inDouble ⟨Real.cos, Real.arccos, Real.sqrt, Real.pi⟩)
          (-90) angleMax)._cosAngleMax
        * (Crit3_2DAngle.newRounded (ieee ℝ 24)
          (MathOps.inDouble ⟨Real.cos, Real.arccos, Real.sqrt, Real.pi⟩)
          (-90) angleMax)._cosAngleMax) < 1 := by
  simp only [Crit3_2DAngle.newRounded, MathOps.inDouble, ieee, arg_minus_ninety, Real.cos_neg]
  obtain ⟨hc0, hc1, _⟩ := cos_M_PI
  have h1 := abs_le.mp (roundToPrec_err 53 (cos (M_PI ℝ / 2)))
  rw [abs_of_pos hc0] at h1
  have h1p := roundToPrec_pos 53 (by norm_num) _ hc0
  have h1u : roundToPrec 53 (cos (M_PI ℝ / 2)) ≤ 51 / 100 := by
    have : cos (M_PI ℝ / 2) / 2 ^ 53 ≤ 1 / 100 := by
      rw [div_le_iff₀ (by positivity)]
      norm_num
      linarith
    linarith
  have h2 := abs_le.mp (roundToPrec_err 24 (roundToPrec 53 (cos (M_PI ℝ / 2))))
  rw [abs_of_pos h1p] at h2
  have h2p := roundToPrec_pos 24 (by norm_num) _ h1p
  have h2u : roundToPrec 24 (roundToPrec 53 (cos (M_PI ℝ / 2))) ≤ 52 / 100 := by
    have : roundToPrec 53 (cos (M_PI ℝ / 2)) / 2 ^ 24 ≤ 1 / 100 := by
      rw [div_le_iff₀ (by positivity)]
      norm_num
      linarith
    linarith
  have hsq : roundToPrec 24 (roundToPrec 53 (cos (M_PI ℝ / 2)))
      * roundToPrec 24 (roundToPrec 53 (cos (M_PI ℝ / 2))) ≤ 52 / 100 * (52 / 100) :=
    mul_le_mul h2u h2u h2p.le (by norm_num)
  have hsqp : 0 < roundToPrec 24 (roundToPrec 53 (cos (M_PI ℝ / 2)))
      * roundToPrec 24 (roundToPrec 53 (cos (M_PI ℝ / 2))) := mul_pos h2p h2p
  have h3 := abs_le.mp (roundToPrec_err 24 (roundToPrec 24 (roundToPrec 53 (cos (M_PI ℝ / 2)))
      * roundToPrec 24 (roundToPrec 53 (cos (M_PI ℝ / 2)))))
  rw [abs_of_pos hsqp] at h3
  have : roundToPrec 24 (roundToPrec 53 (cos (M_PI ℝ / 2)))
      * roundToPrec 24 (roundToPrec 53 (cos (M_PI ℝ / 2))) / 2 ^ 24 ≤ 1 / 100 := by
    rw [div_le_iff₀ (by positivity)]
    norm_num
    linarith
  linarith

/-- C6 as stated fails.  With the window [0, 180] the chain (0,0), (1,0),
(1,1) records the angle 90, inside the window, and is rejected; with the
window [10, 20] the pair made of the virtual hit only records the angle 0,
outside the window, and is accepted; with the window [-90, 90] the straight
chain (0,0), (1,0), (2,0) records the angle 0, inside the window, and is
rejected; and with the window [0, 90] the chain (0,0), (0,1), (1,1) records
the angle 90, at the edge of the window, and is rejected in the float and
double arithmetic of the code. -/
theorem C6_counterexample :
    ((((Crit3_2DAngle.newRounded (ieee ℝ 24)
          (MathOps.inDouble ⟨Real.cos, Real.arccos, Real.sqrt, Real.pi⟩)
          0 180).setSaveValues true).areCompatibleRounded (ieee ℝ 24)
          (MathOps.inDouble ⟨Real.cos, Real.arccos, Real.sqrt, Real.pi⟩)
          (Segment.ofHits [hitXY 0 0, hitXY 1 0])
          (Segment.ofHits [hitXY 1 0, hitXY 1 1])).self.getMapOfValues.find
          "2DAngle_2DAngle" = some 90 ∧
      (((Crit3_2DAngle.newRounded (ieee ℝ 24)
          (MathOps.inDouble ⟨Real.cos, Real.arccos, Real.sqrt, Real.pi⟩)
          0 180).setSaveValues true).areCompatibleRounded (ieee ℝ 24)
          (MathOps.inDouble ⟨Real.cos, Real.arccos, Real.sqrt, Real.pi⟩)
          (Segment.ofHits [hitXY 0 0, hitXY 1 0])
          (Segment.ofHits [hitXY 1 0, hitXY 1 1])).result = .ok false) ∧
    ((((Crit3_2DAngle.newRounded (ieee ℝ 24)
          (MathOps.inDouble ⟨Real.cos, Real.arccos, Real.sqrt, Real.pi⟩)
          10 20).setSaveValues true).areCompatibleRounded (ieee ℝ 24)
          (MathOps.inDouble ⟨Real.cos, Real.arccos, Real.sqrt, Real.pi⟩)
          (Segment.ofHits [hitXY 0 0, hitXY 0 0])
          (Segment.ofHits [hitXY 0 0, hitXY 0 0])).self.getMapOfValues.find
          "2DAngle_2DAngle" = some 0 ∧
      (((Crit3_2DAngle.newRounded (ieee ℝ 24)
          (MathOps.inDouble ⟨Real.cos, Real.arccos, Real.sqrt, Real.pi⟩)
          10 20).setSaveValues true).areCompatibleRounded (ieee ℝ 24)
          (MathOps.inDouble ⟨Real.cos, Real.arccos, Real.sqrt, Real.pi⟩)
          (Segment.ofHits [hitXY 0 0, hitXY 0 0])
          (Segment.ofHits [hitXY 0 0, hitXY 0 0])).result = .ok true) ∧
    ((((Crit3_2DAngle.newRounded (ieee ℝ 24)
          (MathOps.inDouble ⟨Real.cos, Real.arccos, Real.sqrt, Real.pi⟩)
          (-90) 90).setSaveValues true).areCompatibleRounded (ieee ℝ 24)
          (MathOps.inDouble ⟨Real.cos, Real.arccos, Real.sqrt, Real.pi⟩)
          (Segment.ofHits [hitXY 0 0, hitXY 1 0])
          (Segment.ofHits [hitXY 1 0, hitXY 2 0])).self.getMapOfValues.find
          "2DAngle_2DAngle" = some 0 ∧
      (((Crit3_2DAngle.newRounded (ieee ℝ 24)
          (MathOps.inDouble ⟨Real.cos, Real.arccos, Real.sqrt, Real.pi⟩)
          (-90) 90).setSaveValues true).areCompatibleRounded (ieee ℝ 24)
          (MathOps.inDouble ⟨Real.cos, Real.arccos, Real.sqrt, Real.pi⟩)
          (Segment.ofHits [hitXY 0 0, hitXY 1 0])
          (Segment.ofHits [hitXY 1 0, hitXY 2 0])).result = .ok false) ∧
    ((((Crit3_2DAngle.newRounded (ieee ℝ 24)
          (MathOps.inDouble ⟨Real.cos, Real.arccos, Real.sqrt, Real.pi⟩)
          0 90).setSaveValues true).areCompatibleRounded (ieee ℝ 24)
          (MathOps.inDouble ⟨Real.cos, Real.arccos, Real.sqrt, Real.pi⟩)
          (Segment.ofHits [hitXY 0 0, hitXY 0 1])
          (Segment.ofHits [hitXY 0 1, hitXY 1 1])).self.getMapOfValues.find
          "2DAngle_2DAngle" = some 90 ∧
      (((Crit3_2DAngle.newRounded (ieee ℝ 24)
          (MathOps.inDouble ⟨Real.cos, Real.arccos, Real.sqrt, Real.pi⟩)
          0 90).setSaveValues true).areCompatibleRounded (ieee ℝ 24)
          (MathOps.inDouble ⟨Real.cos, Real.arccos, Real.sqrt, Real.pi⟩)
          (Segment.ofHits [hitXY 0 0, hitXY 0 1])
          (Segment.ofHits [hitXY 0 1, hitXY 1 1])).result = .ok false) := by
  obtain ⟨⟨hdp, hcp⟩, ⟨hdq, hcq⟩, _⟩ := cosThetaSquaredRounded_small
  obtain ⟨_, ⟨hds, hcs⟩, hdz⟩ := cosThetaSquaredRounded_examples
  refine ⟨⟨?_, ?_⟩, ⟨?_, ?_⟩, ⟨?_, ?_⟩, ?_, ?_⟩
  · rw [(areCompatibleRounded_recorded _ _ _ _ _ (hitXY 0 0) (hitXY 1 0) (hitXY 1 0)
      (hitXY 1 1) rfl rfl rfl).2, if_pos hdp, hcp, recordedAngle_zero]
  · rw [areCompatibleRounded_result_two _ _ _ _ _ (hitXY 0 0) (hitXY 1 0) (hitXY 1 0)
      (hitXY 1 1) rfl rfl, if_pos hdp, hcp]
    simp [Crit3_2DAngle.setSaveValues, storedMin_one_eighty_pos 0]
  · rw [(areCompatibleRounded_recorded _ _ _ _ _ (hitXY 0 0) (hitXY 0 0) (hitXY 0 0)
      (hitXY 0 0) rfl rfl rfl).2, hdz]
    simp
  · rw [areCompatibleRounded_result_two _ _ _ _ _ (hitXY 0 0) (hitXY 0 0) (hitXY 0 0)
      (hitXY 0 0) rfl rfl, hdz]
    simp
  · rw [(areCompatibleRounded_recorded _ _ _ _ _ (hitXY 0 0) (hitXY 1 0) (hitXY 1 0)
      (hitXY 2 0) rfl rfl rfl).2, if_pos hds, hcs, recordedAngle_one]
  · rw [areCompatibleRounded_result_two _ _ _ _ _ (hitXY 0 0) (hitXY 1 0) (hitXY 1 0)
      (hitXY 2 0) rfl rfl, if_pos hds, hcs]
    simp [Crit3_2DAngle.setSaveValues, storedMax_minus_ninety_lt_one 90]
  · rw [(areCompatibleRounded_recorded _ _ _ _ _ (hitXY 0 0) (hitXY 0 1) (hitXY 0 1)
      (hitXY 1 1) rfl rfl rfl).2, if_pos hdq, hcq, recordedAngle_zero]
  · rw [areCompatibleRounded_result_two _ _ _ _ _ (hitXY 0 0) (hitXY 0 1) (hitXY 0 1)
      (hitXY 1 1) rfl rfl, if_pos hdq, hcq]
    simp [Crit3_2DAngle.setSaveValues, storedMin_ninety_pos 0]

end RecordedAngleExamples

end FTrack
